import Mathlib

/-!
Verification of the NuttX IEEE 802.11 crypto core (CCMP and TKIP) against its
natural-language specification.

The definitions below are a shallow embedding of
`net/ieee80211/ieee80211_crypto_ccmp.c` and
`net/ieee80211/ieee80211_crypto_tkip.c`.  Frames are segmented buffer chains
(`IobChain`), machine integers are `Nat` with explicit `% 2^w` where the C
types truncate, and the external cipher primitives (AES-128, the RC4 keystream,
CRC-32, Michael) are oracles passed as function parameters, exactly as the
spec treats them ("their byte-exact behavior is standardized; this spec uses
them as oracles").
-/

namespace Ieee80211

/-! ### Constants from the 802.11 headers (values fixed by IEEE Std 802.11). -/

def IEEE80211_CCMP_HDRLEN : Nat := 8
def IEEE80211_CCMP_MICLEN : Nat := 8
def IEEE80211_TKIP_HDRLEN : Nat := 8
def IEEE80211_TKIP_MICLEN : Nat := 8
def IEEE80211_WEP_CRCLEN : Nat := 4
def IEEE80211_TKIP_TAILLEN : Nat := IEEE80211_TKIP_MICLEN + IEEE80211_WEP_CRCLEN
def IEEE80211_TKIP_OVHD : Nat := IEEE80211_TKIP_HDRLEN + IEEE80211_TKIP_TAILLEN
def IEEE80211_WEP_EXTIV : Nat := 0x20
def IEEE80211_FC0_TYPE_MASK : Nat := 0x0c
def IEEE80211_FC0_TYPE_MGT : Nat := 0x00
def IEEE80211_FC0_TYPE_DATA : Nat := 0x08
def IEEE80211_FC0_SUBTYPE_MASK : Nat := 0xf0
def IEEE80211_FC0_SUBTYPE_QOS : Nat := 0x80
def IEEE80211_FC1_DIR_MASK : Nat := 0x03
def IEEE80211_FC1_DIR_NODS : Nat := 0x00
def IEEE80211_FC1_DIR_TODS : Nat := 0x01
def IEEE80211_FC1_DIR_FROMDS : Nat := 0x02
def IEEE80211_FC1_DIR_DSTODS : Nat := 0x03
def IEEE80211_FC1_MORE_FRAG : Nat := 0x04
def IEEE80211_FC1_RETRY : Nat := 0x08
def IEEE80211_FC1_PWR_MGT : Nat := 0x10
def IEEE80211_FC1_MORE_DATA : Nat := 0x20
def IEEE80211_FC1_PROTECTED : Nat := 0x40
def IEEE80211_FC1_ORDER : Nat := 0x80
def IEEE80211_QOS_TID : Nat := 0x0f
def IEEE80211_ADDR_LEN : Nat := 6

/-! ### Header inspection helpers.

These are the component-C3 operations of the spec.  Their C sources
(`ieee80211.h` inline helpers) are not part of this repository snapshot, so
they are modelled from the spec, section 4.1.  A frame header is its leading
byte list; `i_fc[0]` is byte 0, `i_fc[1]` is byte 1, the addresses start at
byte 4 (addr1), 10 (addr2), 16 (addr3), 24 (addr4), and the QoS control field
sits right after the addresses (offset 24, or 30 for 4-address frames). -/

/-- Modelled from the spec: `has_qos(frame)`, true for frames whose type is
DATA and whose subtype has the QoS bit set (spec section 4.1). -/
def ieee80211_has_qos (hdr : List Nat) : Bool :=
  (hdr.getD 0 0) &&& (IEEE80211_FC0_TYPE_MASK ||| IEEE80211_FC0_SUBTYPE_QOS)
    == (IEEE80211_FC0_TYPE_DATA ||| IEEE80211_FC0_SUBTYPE_QOS)

/-- Modelled from the spec: `has_addr4(frame)`, true for DSTODS (4-address)
frames (spec section 4.1). -/
def ieee80211_has_addr4 (hdr : List Nat) : Bool :=
  (hdr.getD 1 0) &&& IEEE80211_FC1_DIR_MASK == IEEE80211_FC1_DIR_DSTODS

/-- Modelled from the spec: `has_htc(frame)`, true when the ORDER bit is set
on a QoS or management frame (spec sections 4.1 and 4.2). -/
def ieee80211_has_htc (hdr : List Nat) : Bool :=
  ((hdr.getD 1 0) &&& IEEE80211_FC1_ORDER != 0) &&
    (ieee80211_has_qos hdr ||
      ((hdr.getD 0 0) &&& IEEE80211_FC0_TYPE_MASK == IEEE80211_FC0_TYPE_MGT))

/-- Modelled from the spec: `get_qos(frame)`, the 16-bit little-endian QoS
control field, located after the addresses (spec section 4.1). -/
def ieee80211_get_qos (hdr : List Nat) : Nat :=
  let off := if ieee80211_has_addr4 hdr then 30 else 24
  (hdr.getD off 0) ||| ((hdr.getD (off + 1) 0) <<< 8)

/-- Modelled from the spec: `hdrlen(frame)` = 24 base octets, +6 for a
4-address frame, +2 for QoS, +4 for HTC (spec section 4.1). -/
def ieee80211_get_hdrlen (hdr : List Nat) : Nat :=
  24 + (if ieee80211_has_addr4 hdr then 6 else 0)
     + (if ieee80211_has_qos hdr then 2 else 0)
     + (if ieee80211_has_htc hdr then 4 else 0)

/-- Address 1 of a frame header (bytes 4..10). -/
def addr1 (hdr : List Nat) : List Nat := (hdr.drop 4).take 6

/-- Address 2 of a frame header (bytes 10..16). -/
def addr2 (hdr : List Nat) : List Nat := (hdr.drop 10).take 6

/-- Address 3 of a frame header (bytes 16..22). -/
def addr3 (hdr : List Nat) : List Nat := (hdr.drop 16).take 6

/-- Address 4 of a 4-address frame header (bytes 24..30). -/
def addr4 (hdr : List Nat) : List Nat := (hdr.drop 24).take 6

/-! ### The buffer-chain (`struct iob_s`) model.

A chain is a list of segments, each a list of bytes (a segment's `io_len` is
the length of its byte list), plus the `io_pktlen` field carried by the first
segment.  `iob_alloc` is modelled by a finite allocator supply threaded
through the operations; an allocation fails exactly when the supply is
exhausted.  `iob_clone` copies the shape fields (in particular `io_pktlen`)
and is modelled as always succeeding. -/

structure IobChain where
  segs : List (List Nat)
  pktlen : Nat
  deriving DecidableEq, Repr

/-- The bytes of a segment chain starting `off` bytes into its first
segment. -/
def flatFrom : List (List Nat) → Nat → List Nat
  | [], _ => []
  | s :: rest, off => s.drop off ++ rest.flatten

/-- Modelled from the spec: `iob_copyout(dst, iob, off, len)` copies `len`
bytes out of the chain starting `off` bytes into segment `iob`, walking
across segment boundaries. -/
def iob_copyout (segs : List (List Nat)) (off len : Nat) : List Nat :=
  (flatFrom segs off).take len

/-! ### The generic segment-walking loop.

Both ciphers share the same loop shape (`ieee80211_ccmp_encrypt` lines
241-304, `ieee80211_ccmp_decrypt` lines 465-531, `ieee80211_tkip_encrypt`
lines 286-328, `ieee80211_tkip_decrypt` lines 478-520): while `left > 0`,
advance the source segment when `moff == iob->io_len`; when
`noff == next->io_len` allocate a fresh output segment whose `io_len` is set
to `0` and then (dead code kept from the source) clamped by
`if (next->io_len > left) next->io_len = left;`; then transfer
`len = MIN(iob->io_len - moff, next->io_len - noff)` bytes through the
per-byte cipher transform.

The walk is parameterised by the per-byte transform `f` (state `σ`, one input
byte, one output byte).  The output side is represented by the finished
segments `done`, the bytes `cur` written so far into the current segment, and
that segment's preset `io_len` value `tlen` (`noff` always equals
`cur.length`).  The result carries the final source position so the callers
can read the trailer with `iob_copyout`.

The recursion is driven by fuel so that the definition is structural (and
hence computable by the kernel); `walk` below supplies fuel that provably
dominates the loop measure `supply + src.length + left`. -/

/-- Run a per-byte stateful transform over a byte list (the model of
`rc4_crypt` and of the per-byte CCMP loop body over one `len` chunk). -/
def runBytes (f : σ → Nat → Nat × σ) : σ → List Nat → List Nat × σ
  | st, [] => ([], st)
  | st, c :: cs =>
    ((f st c).1 :: (runBytes f (f st c).2 cs).1, (runBytes f (f st c).2 cs).2)

structure WalkOut (σ : Type) where
  done : List (List Nat)
  cur : List Nat
  tlen : Nat
  st : σ
  supply : Nat
  srcRem : List (List Nat)
  moff : Nat

def walkFuel (f : σ → Nat → Nat × σ) :
    Nat → Nat → List (List Nat) → Nat → Nat →
    List (List Nat) → List Nat → Nat → σ → Option (WalkOut σ)
  | 0, _, _, _, _, _, _, _, _ => none
  | fuel + 1, supply, src, moff, left, done, cur, tlen, st =>
    if left = 0 then some ⟨done, cur, tlen, st, supply, src, moff⟩ else
    match src with
    | [] => none
    | s :: rest =>
      if moff = s.length then
        -- nothing left to copy from iob: advance the source chain
        walkFuel f fuel supply rest 0 left done cur tlen st
      else if cur.length = tlen then
        -- next is full and there is more data to copy: allocate
        match supply with
        | 0 => none
        | supply' + 1 =>
          let ntlen := if 0 > left then left else 0
          walkFuel f fuel supply' (s :: rest) moff left (done ++ [cur]) [] ntlen st
      else
        let len := min (s.length - moff) (tlen - cur.length)
        if len = 0 then none
        else
          let (out, st') := runBytes f st ((s.drop moff).take len)
          walkFuel f fuel supply (s :: rest) (moff + len) (left - len) done
            (cur ++ out) tlen st'

/-- The segment-walking loop with enough fuel to cover its loop measure. -/
def walk (f : σ → Nat → Nat × σ) (supply : Nat) (src : List (List Nat))
    (moff left : Nat) (done : List (List Nat)) (cur : List Nat) (tlen : Nat)
    (st : σ) : Option (WalkOut σ) :=
  walkFuel f (supply + src.length + left + 1) supply src moff left done cur tlen st

/-! ### The key record (`struct ieee80211_key`).

Fields used by the two cipher modules: 256 bits of key material `k_key` (CCMP
uses the first 16 octets, TKIP additionally the two Michael sub-keys at
octets 16..24 and 24..32), the 2-bit key index `k_id`, the 48-bit transmit
counter `k_tsc` (held in a `uint64_t`, hence `% 2^64` on increment), the 16
per-TID receive counters `k_rsc`, and the management-frame receive counter
`k_mgmt_rsc` (11w). -/

structure Ieee80211Key where
  k_key : List Nat
  k_id : Nat
  k_tsc : Nat
  k_rsc : List Nat
  k_mgmt_rsc : Nat
  deriving DecidableEq, Repr

/-! ### CCMP (`ieee80211_crypto_ccmp.c`).

The AES-128 block operation `rijndael_encrypt` on the key schedule derived at
`set_key` time is the oracle `aes : List Nat → List Nat` (16-byte block to
16-byte block). -/

/-- Byte `i` of the CCMP header (`ivp[i]`) to be read from a frame whose
802.11 header is `hdrlen` bytes: the header is required to be contiguous in
the first segment, as the source assumes. -/
def ivpByte (hd : List Nat) (hdrlen i : Nat) : Nat := hd.getD (hdrlen + i) 0

/-- AAD bytes (between `l(a)` and the zero padding) built by
`ieee80211_ccmp_phase1`, lines 98-131 of `ieee80211_crypto_ccmp.c`. -/
def ccmp_aadCore (hdr : List Nat) : List Nat :=
  let fc0 := hdr.getD 0 0
  -- 11w: conditionally mask subtype field (& ~IEEE80211_FC0_SUBTYPE_MASK)
  let a0 := if fc0 &&& IEEE80211_FC0_TYPE_MASK = IEEE80211_FC0_TYPE_DATA
            then fc0 &&& 0x0f else fc0
  let fc1 := hdr.getD 1 0
  -- & ~(RETRY | PWR_MGT | MORE_DATA) keeps bits 0xc7 of the octet
  let a1 := fc1 &&& 0xc7
  -- 11n: conditionally mask order bit (& ~IEEE80211_FC1_ORDER)
  let a1 := if ieee80211_has_htc hdr then a1 &&& 0x7f else a1
  [a0, a1] ++ addr1 hdr ++ addr2 hdr ++ addr3 hdr ++
    -- i_seq[0] & ~0xf0, then a zero octet
    [(hdr.getD 22 0) &&& 0x0f, 0] ++
    (if ieee80211_has_addr4 hdr then addr4 hdr else []) ++
    (if ieee80211_has_qos hdr
     then [ieee80211_get_qos hdr &&& IEEE80211_QOS_TID, 0] else [])

/-- The two authentication blocks: `l(a)` big-endian followed by the AAD,
zero-padded to 30 octets (lines 145-149). -/
def ccmp_auth (hdr : List Nat) : List Nat :=
  let aad := ccmp_aadCore hdr
  let la := aad.length
  [(la >>> 8) % 256, la &&& 0xff] ++ aad ++ List.replicate (30 - la) 0

/-- The 13-octet CCM nonce (lines 133-143). -/
def ccmp_nonce (hdr : List Nat) (pn : Nat) : List Nat :=
  let tid := if ieee80211_has_qos hdr
             then ieee80211_get_qos hdr &&& IEEE80211_QOS_TID else 0
  let n0 := if (hdr.getD 0 0) &&& IEEE80211_FC0_TYPE_MASK = IEEE80211_FC0_TYPE_MGT
            then tid ||| (1 <<< 4) else tid
  n0 :: addr2 hdr ++
    [(pn >>> 40) % 256, (pn >>> 32) % 256, (pn >>> 24) % 256,
     (pn >>> 16) % 256, (pn >>> 8) % 256, pn % 256]

/-- XOR of a running CBC-MAC block with 16 octets (`for i: b[i] ^= x[i]`). -/
def xorBlock (b x : List Nat) : List Nat := List.zipWith HXor.hXor b x

/-- The initial-block computation `ieee80211_ccmp_phase1` (lines 88-170):
returns the running CBC-MAC block `b` after the two authentication blocks,
the counter block template `a`, and `s0 = AES(A_0)`. -/
def ieee80211_ccmp_phase1 (aes : List Nat → List Nat) (hdr : List Nat)
    (pn lm : Nat) : List Nat × List Nat × List Nat :=
  let auth := ccmp_auth hdr
  let nonce := ccmp_nonce hdr pn
  -- b[0] = 89 (Flags = 64*Adata + 8*((M-2)/2) + (L-1)), then nonce, then l(m)
  let b := aes (89 :: nonce ++ [(lm >>> 8) % 256, lm &&& 0xff])
  let b := aes (xorBlock b (auth.take 16))
  let b := aes (xorBlock b ((auth.drop 16).take 16))
  -- a[0] = 1 (Flags = L-1), nonce, counter zero
  let a := 1 :: nonce ++ [0, 0]
  (b, a, aes a)

/-- The 8-octet CCMP header written by encrypt (lines 214-222). -/
def ccmpHdrBytes (kid tsc : Nat) : List Nat :=
  [tsc % 256, (tsc >>> 8) % 256, 0, ((kid <<< 6) ||| IEEE80211_WEP_EXTIV) % 256,
   (tsc >>> 16) % 256, (tsc >>> 24) % 256, (tsc >>> 32) % 256, (tsc >>> 40) % 256]

/-- State of the per-byte CCM loop: the block offset `j`, the running CBC-MAC
block `b`, the counter block `a`, the current keystream block `s`, and the
16-bit block counter `ctr`. -/
structure CcmpSt where
  j : Nat
  b : List Nat
  a : List Nat
  s : List Nat
  ctr : Nat
  deriving DecidableEq, Repr

/-- Advance the CCM loop state after one byte whose MIC-absorbed value is
`v` (`b[j] ^= ...; if (++j == 16) { encrypt MIC; next S_ctr; }`). -/
def ccmpNextSt (aes : List Nat → List Nat) (st : CcmpSt) (v : Nat) : CcmpSt :=
  if st.j + 1 < 16 then { st with j := st.j + 1, b := st.b.set st.j v }
  else
    let b := aes (st.b.set st.j v)
    let ctr := (st.ctr + 1) % 65536
    let a := (st.a.set 14 ((ctr >>> 8) % 256)).set 15 (ctr &&& 0xff)
    { j := 0, b := b, a := a, s := aes a, ctr := ctr }

/-- One byte of the CCMP encrypt loop (lines 280-299): the MIC absorbs the
clear text, the output is the clear text XOR the keystream; on a full block
the MIC block is encrypted and a new `S_ctr` keystream block is derived. -/
def ccmpEncByte (aes : List Nat → List Nat) (st : CcmpSt) (c : Nat) :
    Nat × CcmpSt :=
  (c ^^^ (st.s.getD st.j 0), ccmpNextSt aes st ((st.b.getD st.j 0) ^^^ c))

/-- One byte of the CCMP decrypt loop (lines 504-526): the output is the
cipher text XOR the keystream and the MIC absorbs the decrypted byte. -/
def ccmpDecByte (aes : List Nat → List Nat) (st : CcmpSt) (c : Nat) :
    Nat × CcmpSt :=
  (c ^^^ (st.s.getD st.j 0),
   ccmpNextSt aes st ((st.b.getD st.j 0) ^^^ (c ^^^ (st.s.getD st.j 0))))

/-- Initial loop state shared by encrypt and decrypt (lines 228-239 and
452-459): `ctr = 1`, `a[14..16]` hold the counter, `s = AES(A_1)`. -/
def ccmpSt0 (aes : List Nat → List Nat) (b a : List Nat) : CcmpSt :=
  let a := (a.set 14 (((1 : Nat) >>> 8) % 256)).set 15 ((1 : Nat) &&& 0xff)
  { j := 0, b := b, a := a, s := aes a, ctr := 1 }

/-- `ieee80211_ccmp_encrypt` (lines 172-347).  Returns the new chain (or
`none` on allocation failure, the `nospace` label) and the updated key.  The
input chain is consumed in both cases, which the functional model expresses
by simply returning the output. -/
def ieee80211_ccmp_encrypt (aes : List Nat → List Nat) (bufsize supply : Nat)
    (iob0 : IobChain) (k : Ieee80211Key) : Option IobChain × Ieee80211Key :=
  match supply with
  | 0 => (none, k)                      -- iob_alloc(next0) failed
  | supply + 1 =>
    let hd := iob0.segs.headD []
    let hdrlen := ieee80211_get_hdrlen hd
    -- clone shape, io_pktlen += CCMP_HDRLEN, io_len clamped to the packet
    let pkt := iob0.pktlen + IEEE80211_CCMP_HDRLEN
    let tlen := min bufsize pkt
    let hdr := hd.take hdrlen
    -- k->k_tsc++ on the 64-bit field
    let k' := { k with k_tsc := (k.k_tsc + 1) % 2 ^ 64 }
    let cur := hdr ++ ccmpHdrBytes k.k_id k'.k_tsc
    let p := ieee80211_ccmp_phase1 aes hd k'.k_tsc (iob0.pktlen - hdrlen)
    match walk (ccmpEncByte aes) supply iob0.segs hdrlen (iob0.pktlen - hdrlen)
        [] cur tlen (ccmpSt0 aes p.1 p.2.1) with
    | none => (none, k')
    | some w =>
      -- partial block: one more MIC encryption
      let bf := if w.st.j ≠ 0 then aes w.st.b else w.st.b
      let mic := (xorBlock bf p.2.2).take IEEE80211_CCMP_MICLEN
      if bufsize - w.tlen < IEEE80211_CCMP_MICLEN then
        match w.supply with
        | 0 => (none, k')               -- iob_alloc for the MIC tail failed
        | _ + 1 =>
          (some ⟨w.done ++ [w.cur, mic], pkt + IEEE80211_CCMP_MICLEN⟩, k')
      else
        (some ⟨w.done ++ [w.cur ++ mic], pkt + IEEE80211_CCMP_MICLEN⟩, k')

/-- The 48-bit packet number read from the CCMP header (lines 410-413). -/
def ccmpExtractPn (hd : List Nat) (hdrlen : Nat) : Nat :=
  ivpByte hd hdrlen 0 |||
  (ivpByte hd hdrlen 1) <<< 8 |||
  (ivpByte hd hdrlen 4) <<< 16 |||
  (ivpByte hd hdrlen 5) <<< 24 |||
  (ivpByte hd hdrlen 6) <<< 32 |||
  (ivpByte hd hdrlen 7) <<< 40

/-- Receive counter consulted by CCMP decrypt (lines 393-406): the per-TID
counter for DATA frames, the management counter otherwise. -/
def ccmpRelevantRsc (k : Ieee80211Key) (hd : List Nat) : Nat :=
  if (hd.getD 0 0) &&& IEEE80211_FC0_TYPE_MASK = IEEE80211_FC0_TYPE_DATA then
    let tid := if ieee80211_has_qos hd
               then ieee80211_get_qos hd &&& IEEE80211_QOS_TID else 0
    k.k_rsc.getD tid 0
  else k.k_mgmt_rsc

/-- Commit `*prsc = pn` (line 556) into the functional key record. -/
def ccmpCommitRsc (k : Ieee80211Key) (hd : List Nat) (pn : Nat) : Ieee80211Key :=
  if (hd.getD 0 0) &&& IEEE80211_FC0_TYPE_MASK = IEEE80211_FC0_TYPE_DATA then
    let tid := if ieee80211_has_qos hd
               then ieee80211_get_qos hd &&& IEEE80211_QOS_TID else 0
    { k with k_rsc := k.k_rsc.set tid pn }
  else { k with k_mgmt_rsc := pn }

/-- Outcome of `ieee80211_ccmp_decrypt` after the body loop: either an early
rejection (length, ExtIV, replay, or allocation failure) or the data needed
for the final MIC comparison and commit. -/
inductive CcmpDecStage where
  | reject : CcmpDecStage
  | ready (pn : Nat) (outSegs : List (List Nat)) (pkt : Nat)
      (micCalc micRecv : List Nat) : CcmpDecStage
  deriving DecidableEq

/-- The checks, replay test and body loop of `ieee80211_ccmp_decrypt`
(lines 349-547). -/
def ccmp_dec_stage (aes : List Nat → List Nat) (bufsize supply : Nat)
    (iob0 : IobChain) (k : Ieee80211Key) : CcmpDecStage :=
  let hd := iob0.segs.headD []
  let hdrlen := ieee80211_get_hdrlen hd
  if iob0.pktlen < hdrlen + IEEE80211_CCMP_HDRLEN + IEEE80211_CCMP_MICLEN then
    .reject
  else if ivpByte hd hdrlen 3 &&& IEEE80211_WEP_EXTIV = 0 then
    .reject                             -- ExtIV bit clear
  else
    let pn := ccmpExtractPn hd hdrlen
    if pn ≤ ccmpRelevantRsc k hd then
      .reject                           -- replayed frame, discard
    else
      match supply with
      | 0 => .reject                    -- iob_alloc(next0) failed
      | supply + 1 =>
        let pkt := iob0.pktlen - (IEEE80211_CCMP_HDRLEN + IEEE80211_CCMP_MICLEN)
        let tlen := min bufsize pkt
        let p := ieee80211_ccmp_phase1 aes hd pn (pkt - hdrlen)
        -- copy the 802.11 header and clear the protected bit
        let hdr' := (hd.take hdrlen).set 1 ((hd.getD 1 0) &&& 0xbf)
        match walk (ccmpDecByte aes) supply iob0.segs
            (hdrlen + IEEE80211_CCMP_HDRLEN) (pkt - hdrlen) [] hdr' tlen
            (ccmpSt0 aes p.1 p.2.1) with
        | none => .reject               -- allocation failure mid-stream
        | some w =>
          let bf := if w.st.j ≠ 0 then aes w.st.b else w.st.b
          let micCalc := (xorBlock bf p.2.2).take IEEE80211_CCMP_MICLEN
          let mic0 := iob_copyout w.srcRem w.moff IEEE80211_CCMP_MICLEN
          .ready pn (w.done ++ [w.cur]) pkt micCalc mic0

/-- `ieee80211_ccmp_decrypt` (lines 349-569): the staged computation above
followed by the constant-time MIC comparison and, only on success, the
replay-counter commit. -/
def ieee80211_ccmp_decrypt (aes : List Nat → List Nat) (bufsize supply : Nat)
    (iob0 : IobChain) (k : Ieee80211Key) : Option IobChain × Ieee80211Key :=
  match ccmp_dec_stage aes bufsize supply iob0 k with
  | .reject => (none, k)
  | .ready pn outSegs pkt micCalc micRecv =>
    if micRecv ≠ micCalc then (none, k)
    else (some ⟨outSegs, pkt⟩, ccmpCommitRsc k (iob0.segs.headD []) pn)


/-! ### TKIP (`ieee80211_crypto_tkip.c`).

The RC4 keystream (`rc4_keysetup` + `rc4_crypt`: a pure XOR of the data with
the key-dependent keystream), the CRC-32-LE byte update
(`ether_crc32_le_update`) and the Michael MAC are external primitives; they
enter the model through `TkipOracles` below.  The Phase1/Phase2 key-mixing
functions are part of this source file and are embedded in full. -/

/-- The 2-byte by 2-byte subset of the full AES S-box (`Sbox`, lines
703-737 of `ieee80211_crypto_tkip.c`). -/
def tkipSbox : List Nat :=
 [0xC6A5, 0xF884, 0xEE99, 0xF68D, 0xFF0D, 0xD6BD, 0xDEB1, 0x9154,
  0x6050, 0x0203, 0xCEA9, 0x567D, 0xE719, 0xB562, 0x4DE6, 0xEC9A,
  0x8F45, 0x1F9D, 0x8940, 0xFA87, 0xEF15, 0xB2EB, 0x8EC9, 0xFB0B,
  0x41EC, 0xB367, 0x5FFD, 0x45EA, 0x23BF, 0x53F7, 0xE496, 0x9B5B,
  0x75C2, 0xE11C, 0x3DAE, 0x4C6A, 0x6C5A, 0x7E41, 0xF502, 0x834F,
  0x685C, 0x51F4, 0xD134, 0xF908, 0xE293, 0xAB73, 0x6253, 0x2A3F,
  0x080C, 0x9552, 0x4665, 0x9D5E, 0x3028, 0x37A1, 0x0A0F, 0x2FB5,
  0x0E09, 0x2436, 0x1B9B, 0xDF3D, 0xCD26, 0x4E69, 0x7FCD, 0xEA9F,
  0x121B, 0x1D9E, 0x5874, 0x342E, 0x362D, 0xDCB2, 0xB4EE, 0x5BFB,
  0xA4F6, 0x764D, 0xB761, 0x7DCE, 0x527B, 0xDD3E, 0x5E71, 0x1397,
  0xA6F5, 0xB968, 0x0000, 0xC12C, 0x4060, 0xE31F, 0x79C8, 0xB6ED,
  0xD4BE, 0x8D46, 0x67D9, 0x724B, 0x94DE, 0x98D4, 0xB0E8, 0x854A,
  0xBB6B, 0xC52A, 0x4FE5, 0xED16, 0x86C5, 0x9AD7, 0x6655, 0x1194,
  0x8ACF, 0xE910, 0x0406, 0xFE81, 0xA0F0, 0x7844, 0x25BA, 0x4BE3,
  0xA2F3, 0x5DFE, 0x80C0, 0x058A, 0x3FAD, 0x21BC, 0x7048, 0xF104,
  0x63DF, 0x77C1, 0xAF75, 0x4263, 0x2030, 0xE51A, 0xFD0E, 0xBF6D,
  0x814C, 0x1814, 0x2635, 0xC32F, 0xBEE1, 0x35A2, 0x88CC, 0x2E39,
  0x9357, 0x55F2, 0xFC82, 0x7A47, 0xC8AC, 0xBAE7, 0x322B, 0xE695,
  0xC0A0, 0x1998, 0x9ED1, 0xA37F, 0x4466, 0x547E, 0x3BAB, 0x0B83,
  0x8CCA, 0xC729, 0x6BD3, 0x283C, 0xA779, 0xBCE2, 0x161D, 0xAD76,
  0xDB3B, 0x6456, 0x744E, 0x141E, 0x92DB, 0x0C0A, 0x486C, 0xB8E4,
  0x9F5D, 0xBD6E, 0x43EF, 0xC4A6, 0x39A8, 0x31A4, 0xD337, 0xF28B,
  0xD532, 0x8B43, 0x6E59, 0xDAB7, 0x018C, 0xB164, 0x9CD2, 0x49E0,
  0xD8B4, 0xACFA, 0xF307, 0xCF25, 0xCAAF, 0xF48E, 0x47E9, 0x1018,
  0x6FD5, 0xF088, 0x4A6F, 0x5C72, 0x3824, 0x57F1, 0x73C7, 0x9751,
  0xCB23, 0xA17C, 0xE89C, 0x3E21, 0x96DD, 0x61DC, 0x0D86, 0x0F85,
  0xE090, 0x7C42, 0x71C4, 0xCCAA, 0x90D8, 0x0605, 0xF701, 0x1C12,
  0xC2A3, 0x6A5F, 0xAEF9, 0x69D0, 0x1791, 0x9958, 0x3A27, 0x27B9,
  0xD938, 0xEB13, 0x2BB3, 0x2233, 0xD2BB, 0xA970, 0x0789, 0x33A7,
  0x2DB6, 0x3C22, 0x1592, 0xC920, 0x8749, 0xAAFF, 0x5078, 0xA57A,
  0x038F, 0x59F8, 0x0980, 0x1A17, 0x65DA, 0xD731, 0x84C6, 0xD0B8,
  0x82C3, 0x29B0, 0x5A77, 0x1E11, 0x7BCB, 0xA8FC, 0x6DD6, 0x2C3A]

/-- Byte swap of a 16-bit value (`swap16`). -/
def swap16 (v : Nat) : Nat := ((v &&& 0xff) <<< 8) ||| ((v >>> 8) &&& 0xff)

/-- Low octet of a 16-bit value (`Lo8`, line 679). -/
def Lo8 (v : Nat) : Nat := v &&& 0x00ff

/-- High octet of a 16-bit value (`Hi8`, line 680). -/
def Hi8 (v : Nat) : Nat := (v >>> 8) &&& 0x00ff

/-- Low 16-bit word of a 32-bit value (`Lo16`, line 681). -/
def Lo16 (v : Nat) : Nat := v &&& 0xffff

/-- High 16-bit word of a 32-bit value (`Hi16`, line 682). -/
def Hi16 (v : Nat) : Nat := (v >>> 16) &&& 0xffff

/-- `Mk16(hi, lo) = lo ^ (hi << 8)` (line 683). -/
def Mk16 (hi lo : Nat) : Nat := lo ^^^ (hi <<< 8)

/-- `RotR1`, rotate a 16-bit value right by one (line 678). -/
def RotR1 (v : Nat) : Nat := ((v >>> 1) &&& 0x7fff) ^^^ ((v &&& 1) <<< 15)

/-- `TK16(N)`, the Nth little-endian 16-bit word of the temporal key
(line 687). -/
def TK16 (TK : List Nat) (n : Nat) : Nat :=
  Mk16 (TK.getD (2 * n + 1) 0) (TK.getD (2 * n) 0)

/-- The 16-bit to 16-bit S-box lookup `_S_` (line 691). -/
def tkipS (v : Nat) : Nat :=
  (tkipSbox.getD (Lo8 v) 0) ^^^ swap16 (tkipSbox.getD (Hi8 v) 0)

/-- One round of the Phase1 unbalanced Feistel cipher (lines 768-777); all
adds are mod 2^16 and the final word also absorbs the round index. -/
def phase1Step (TK : List Nat) (P : List Nat) (i : Nat) : List Nat :=
  let j := i &&& 1
  let p0 := ((P.getD 0 0) + tkipS ((P.getD 4 0) ^^^ TK16 TK (j + 0))) % 65536
  let p1 := ((P.getD 1 0) + tkipS (p0 ^^^ TK16 TK (j + 2))) % 65536
  let p2 := ((P.getD 2 0) + tkipS (p1 ^^^ TK16 TK (j + 4))) % 65536
  let p3 := ((P.getD 3 0) + tkipS (p2 ^^^ TK16 TK (j + 6))) % 65536
  let p4 := ((P.getD 4 0) + tkipS (p3 ^^^ TK16 TK (j + 0))) % 65536
  let p4 := (p4 + i) % 65536
  [p0, p1, p2, p3, p4]

/-- `Phase1` (lines 755-778): derive the 80-bit P1K from the temporal key,
the transmitter address and IV32 (a `u32b` parameter, hence the `% 2^32`). -/
def Phase1 (TK TA : List Nat) (IV32 : Nat) : List Nat :=
  let iv := IV32 % 2 ^ 32
  let P := [Lo16 iv, Hi16 iv, Mk16 (TA.getD 1 0) (TA.getD 0 0),
            Mk16 (TA.getD 3 0) (TA.getD 2 0), Mk16 (TA.getD 5 0) (TA.getD 4 0)]
  (List.range 8).foldl (phase1Step TK) P

/-- `Phase2` (lines 798-851): derive the 128-bit RC4 key from the temporal
key, P1K and IV16 (a `u16b` parameter, hence the `% 2^16`).  `PPK[0..5]` is
overlaid little-endian on `RC4KEY[4..15]`. -/
def Phase2 (TK P1K : List Nat) (IV16 : Nat) : List Nat :=
  let iv := IV16 % 65536
  let ppk0 := P1K.getD 0 0
  let ppk1 := P1K.getD 1 0
  let ppk2 := P1K.getD 2 0
  let ppk3 := P1K.getD 3 0
  let ppk4 := P1K.getD 4 0
  let ppk5 := ((P1K.getD 4 0) + iv) % 65536
  let ppk0 := (ppk0 + tkipS (ppk5 ^^^ TK16 TK 0)) % 65536
  let ppk1 := (ppk1 + tkipS (ppk0 ^^^ TK16 TK 1)) % 65536
  let ppk2 := (ppk2 + tkipS (ppk1 ^^^ TK16 TK 2)) % 65536
  let ppk3 := (ppk3 + tkipS (ppk2 ^^^ TK16 TK 3)) % 65536
  let ppk4 := (ppk4 + tkipS (ppk3 ^^^ TK16 TK 4)) % 65536
  let ppk5 := (ppk5 + tkipS (ppk4 ^^^ TK16 TK 5)) % 65536
  let ppk0 := (ppk0 + RotR1 (ppk5 ^^^ TK16 TK 6)) % 65536
  let ppk1 := (ppk1 + RotR1 (ppk0 ^^^ TK16 TK 7)) % 65536
  let ppk2 := (ppk2 + RotR1 ppk1) % 65536
  let ppk3 := (ppk3 + RotR1 ppk2) % 65536
  let ppk4 := (ppk4 + RotR1 ppk3) % 65536
  let ppk5 := (ppk5 + RotR1 ppk4) % 65536
  [Hi8 iv, (Hi8 iv ||| 0x20) &&& 0x7f, Lo8 iv, Lo8 ((ppk5 ^^^ TK16 TK 0) >>> 1),
   Lo8 ppk0, Hi8 ppk0, Lo8 ppk1, Hi8 ppk1, Lo8 ppk2, Hi8 ppk2,
   Lo8 ppk3, Hi8 ppk3, Lo8 ppk4, Hi8 ppk4, Lo8 ppk5, Hi8 ppk5]

/-- The TKIP software crypto context (without the `rc4_ctx` member: the RC4
engine is re-keyed from scratch by every encrypt and decrypt call, so it
carries no state across operations and is represented by the keystream
oracle instead). -/
structure TkipCtx where
  txmic : List Nat
  rxmic : List Nat
  txttak : List Nat
  rxttak : List Nat
  txttak_ok : Bool
  rxttak_ok : Bool
  deriving DecidableEq, Repr

/-- Modelled from the spec: the operating mode of the interface (station vs
access point); only the HostAP/others distinction is observable here. -/
inductive OpMode where
  | sta : OpMode
  | hostap : OpMode
  | other : OpMode
  deriving DecidableEq, Repr

/-- `ieee80211_tkip_set_key` (lines 87-114, with `CONFIG_IEEE80211_AP`
compiled in): select the Michael sub-keys by operating mode.  `g` is the
freshly `kmalloc`ed context, whose other fields the source leaves as
allocated. -/
def ieee80211_tkip_set_key (opmode : OpMode) (k : Ieee80211Key) (g : TkipCtx) :
    TkipCtx :=
  if opmode = .hostap then
    { g with txmic := (k.k_key.drop 16).take 8, rxmic := (k.k_key.drop 24).take 8 }
  else
    { g with rxmic := (k.k_key.drop 16).take 8, txmic := (k.k_key.drop 24).take 8 }

/-- The TKIP MIC pseudo-header (`struct ieee80211_tkip_frame` construction,
lines 157-183): DA and SA selected by the direction bits, the QoS priority
octet, three zero pad octets. -/
def tkipPseudoHdr (hdr : List Nat) : List Nat :=
  let dir := (hdr.getD 1 0) &&& IEEE80211_FC1_DIR_MASK
  let da := if dir = IEEE80211_FC1_DIR_NODS then addr1 hdr
            else if dir = IEEE80211_FC1_DIR_TODS then addr3 hdr
            else if dir = IEEE80211_FC1_DIR_FROMDS then addr1 hdr
            else addr3 hdr
  let sa := if dir = IEEE80211_FC1_DIR_NODS then addr2 hdr
            else if dir = IEEE80211_FC1_DIR_TODS then addr2 hdr
            else if dir = IEEE80211_FC1_DIR_FROMDS then addr3 hdr
            else addr4 hdr
  let pri := if ieee80211_has_qos hdr
             then ieee80211_get_qos hdr &&& IEEE80211_QOS_TID else 0
  da ++ sa ++ [pri, 0, 0, 0]

/-- Modelled from the spec: the external TKIP primitives, used as oracles.
`rc4s seed i` is byte `i` of the RC4 keystream for `seed` (`rc4_keysetup`
followed by `rc4_crypt`, which XORs the data with that stream); `crcB` is the
CRC-32-LE byte update underlying `ether_crc32_le_update` (a `uint32_t`
result); `michael key msg` is the 64-bit Michael MAC. -/
structure TkipOracles where
  rc4s : List Nat → Nat → Nat
  crcB : Nat → Nat → Nat
  michael : List Nat → List Nat → Nat

/-- `ether_crc32_le_update` over a byte list: fold the byte-update oracle,
truncating to the `uint32_t` accumulator after each step. -/
def crcUpdate (crcB : Nat → Nat → Nat) (crc : Nat) (xs : List Nat) : Nat :=
  xs.foldl (fun c b => crcB c b % 2 ^ 32) crc

/-- `rc4_crypt` of a byte list starting at keystream position `pos`. -/
def rc4XorFrom (stream : Nat → Nat) : Nat → List Nat → List Nat
  | _, [] => []
  | pos, c :: cs => (c ^^^ stream pos) :: rc4XorFrom stream (pos + 1) cs

/-- The 64-bit Michael MAC serialised little-endian into the 8-octet buffer
`mic[IEEE80211_TKIP_MICLEN]`. -/
def le64Bytes (v : Nat) : List Nat :=
  [v % 256, (v >>> 8) % 256, (v >>> 16) % 256, (v >>> 24) % 256,
   (v >>> 32) % 256, (v >>> 40) % 256, (v >>> 48) % 256, (v >>> 56) % 256]

/-- `ieee80211_tkip_mic` (lines 142-209): Michael over the pseudo-header
followed by the chain's bytes starting `off` bytes into the first segment
(the 802.11 header and the first `off` bytes are assumed contiguous). -/
def ieee80211_tkip_mic (michael : List Nat → List Nat → Nat) (m0 : IobChain)
    (off : Nat) (key : List Nat) : List Nat :=
  let wh := m0.segs.headD []
  le64Bytes (michael key (tkipPseudoHdr wh ++ flatFrom m0.segs off))

/-- State of the per-byte TKIP loop: the RC4 keystream position and the
running `uint32_t` CRC. -/
structure TkipSt where
  pos : Nat
  crc : Nat
  deriving DecidableEq, Repr

/-- One byte of the TKIP encrypt loop (lines 320-327): CRC over the clear
text, output clear text XOR keystream. -/
def tkipEncByte (crcB : Nat → Nat → Nat) (stream : Nat → Nat) (st : TkipSt)
    (c : Nat) : Nat × TkipSt :=
  (c ^^^ stream st.pos, { pos := st.pos + 1, crc := crcB st.crc c % 2 ^ 32 })

/-- One byte of the TKIP decrypt loop (lines 512-519): output cipher text
XOR keystream, CRC over the decrypted byte. -/
def tkipDecByte (crcB : Nat → Nat → Nat) (stream : Nat → Nat) (st : TkipSt)
    (c : Nat) : Nat × TkipSt :=
  let o := c ^^^ stream st.pos
  (o, { pos := st.pos + 1, crc := crcB st.crc o % 2 ^ 32 })

/-- The 8-octet TKIP header written by encrypt (lines 256-267). -/
def tkipHdrBytes (kid tsc : Nat) : List Nat :=
  let t1 := (tsc >>> 8) % 256
  [t1, (t1 ||| 0x20) &&& 0x7f, tsc % 256,
   ((kid <<< 6) ||| IEEE80211_WEP_EXTIV) % 256,
   (tsc >>> 16) % 256, (tsc >>> 24) % 256, (tsc >>> 32) % 256, (tsc >>> 40) % 256]

/-- `ieee80211_tkip_encrypt` (lines 217-379). -/
def ieee80211_tkip_encrypt (oc : TkipOracles) (bufsize supply : Nat)
    (m0 : IobChain) (k : Ieee80211Key) (ctx : TkipCtx) :
    Option IobChain × Ieee80211Key × TkipCtx :=
  match supply with
  | 0 => (none, k, ctx)                 -- iob_alloc(next0) failed
  | supply + 1 =>
    let hd := m0.segs.headD []
    let hdrlen := ieee80211_get_hdrlen hd
    let pkt := m0.pktlen + IEEE80211_TKIP_HDRLEN
    let tlen := min bufsize pkt
    let hdr := hd.take hdrlen
    -- k->k_tsc++ on the 64-bit field
    let k' := { k with k_tsc := (k.k_tsc + 1) % 2 ^ 64 }
    let cur := hdr ++ tkipHdrBytes k.k_id k'.k_tsc
    -- compute WEP seed; Phase1 is re-run when the cache is invalid or on
    -- IV16 rollover
    let ctx' := if ¬ctx.txttak_ok ∨ k'.k_tsc &&& 0xffff = 0 then
                  { ctx with txttak := Phase1 k.k_key (addr2 hd) (k'.k_tsc >>> 16),
                             txttak_ok := true }
                else ctx
    let wepseed := Phase2 k.k_key ctx'.txttak (k'.k_tsc &&& 0xffff)
    let stream := oc.rc4s wepseed
    match walk (tkipEncByte oc.crcB stream) supply m0.segs hdrlen
        (m0.pktlen - hdrlen) [] cur tlen ⟨0, 0xffffffff⟩ with
    | none => (none, k', ctx')
    | some w =>
      -- TKIP MIC over the clear text, then CRC and RC4 over it
      let mic := ieee80211_tkip_mic oc.michael m0 hdrlen ctx'.txmic
      let crc := crcUpdate oc.crcB w.st.crc mic
      let micE := rc4XorFrom stream w.st.pos mic
      -- finalize WEP ICV (one's complement, little-endian) and encrypt it
      let crc := crc ^^^ 0xffffffff
      let icv := [crc % 256, (crc >>> 8) % 256, (crc >>> 16) % 256, (crc >>> 24) % 256]
      let icvE := rc4XorFrom stream (w.st.pos + IEEE80211_TKIP_MICLEN) icv
      let tail := micE ++ icvE
      if bufsize - w.tlen < IEEE80211_TKIP_TAILLEN then
        match w.supply with
        | 0 => (none, k', ctx')         -- iob_alloc for the tail failed
        | _ + 1 =>
          (some ⟨w.done ++ [w.cur, tail], pkt + IEEE80211_TKIP_TAILLEN⟩, k', ctx')
      else
        (some ⟨w.done ++ [w.cur ++ tail], pkt + IEEE80211_TKIP_TAILLEN⟩, k', ctx')

/-- The 48-bit TSC read from the TKIP header (lines 422-425; note TSC0 is
`ivp[2]` and TSC1 is `ivp[0]`). -/
def tkipExtractTsc (hd : List Nat) (hdrlen : Nat) : Nat :=
  ivpByte hd hdrlen 2 |||
  (ivpByte hd hdrlen 0) <<< 8 |||
  (ivpByte hd hdrlen 4) <<< 16 |||
  (ivpByte hd hdrlen 5) <<< 24 |||
  (ivpByte hd hdrlen 6) <<< 32 |||
  (ivpByte hd hdrlen 7) <<< 40

/-- Modelled from the spec: the little-endian 32-bit load
`letoh32(*(uint32_t *)p)`. -/
def letoh32 (xs : List Nat) : Nat :=
  xs.getD 0 0 ||| (xs.getD 1 0) <<< 8 ||| (xs.getD 2 0) <<< 16 |||
    (xs.getD 3 0) <<< 24

/-- Outcome of `ieee80211_tkip_decrypt` after the body loop: either an early
rejection (length, ExtIV, replay, or allocation failure; the context is
returned because a rejection after the Phase1 recomputation leaves the cache
invalidated) or the data for the ICV and Michael comparisons. -/
inductive TkipDecStage where
  | reject (ctx : TkipCtx) : TkipDecStage
  | ready (tid tsc : Nat) (outSegs : List (List Nat)) (pkt : Nat)
      (crcCalc crcRecv : Nat) (micCalc micRecv : List Nat) (ctx : TkipCtx) :
      TkipDecStage
  deriving DecidableEq

/-- The checks, replay test, WEP-seed derivation and body loop of
`ieee80211_tkip_decrypt` (lines 381-545). -/
def tkip_dec_stage (oc : TkipOracles) (bufsize supply : Nat) (m0 : IobChain)
    (k : Ieee80211Key) (ctx : TkipCtx) : TkipDecStage :=
  let hd := m0.segs.headD []
  let hdrlen := ieee80211_get_hdrlen hd
  if m0.pktlen < hdrlen + IEEE80211_TKIP_OVHD then .reject ctx
  else if ivpByte hd hdrlen 3 &&& IEEE80211_WEP_EXTIV = 0 then .reject ctx
  else
    let tid := if ieee80211_has_qos hd
               then ieee80211_get_qos hd &&& IEEE80211_QOS_TID else 0
    let prsc := k.k_rsc.getD tid 0
    let tsc := tkipExtractTsc hd hdrlen
    if tsc ≤ prsc then .reject ctx      -- replayed frame, discard
    else
      match supply with
      | 0 => .reject ctx                -- iob_alloc(next0) failed
      | supply + 1 =>
        let pkt := m0.pktlen - IEEE80211_TKIP_OVHD
        let tlen := min bufsize pkt
        -- copy the 802.11 header and clear the protected bit
        let hdr' := (hd.take hdrlen).set 1 ((hd.getD 1 0) &&& 0xbf)
        -- compute WEP seed, invalidating the cached TTAK on recompute
        let ctx' := if ¬ctx.rxttak_ok ∨ (tsc >>> 16) ≠ (prsc >>> 16) then
                      { ctx with rxttak_ok := false,
                                 rxttak := Phase1 k.k_key (addr2 hdr') (tsc >>> 16) }
                    else ctx
        let wepseed := Phase2 k.k_key ctx'.rxttak (tsc &&& 0xffff)
        let stream := oc.rc4s wepseed
        match walk (tkipDecByte oc.crcB stream) supply m0.segs
            (hdrlen + IEEE80211_TKIP_HDRLEN) (pkt - hdrlen) [] hdr' tlen
            ⟨0, 0xffffffff⟩ with
        | none => .reject ctx'          -- allocation failure mid-stream
        | some w =>
          -- extract and decrypt the TKIP MIC and WEP ICV from the tail
          let buf := iob_copyout w.srcRem w.moff IEEE80211_TKIP_TAILLEN
          let bufd := rc4XorFrom stream w.st.pos buf
          let mic0 := bufd.take IEEE80211_TKIP_MICLEN
          -- include the TKIP MIC in the WEP ICV
          let crc := crcUpdate oc.crcB w.st.crc mic0
          let crc := crc ^^^ 0xffffffff
          let crc0 := letoh32 (bufd.drop IEEE80211_TKIP_MICLEN)
          let outSegs := w.done ++ [w.cur]
          -- TKIP MIC over the decrypted message
          let mic := ieee80211_tkip_mic oc.michael ⟨outSegs, pkt⟩ hdrlen ctx'.rxmic
          .ready tid tsc outSegs pkt crc crc0 mic mic0 ctx'

/-- `ieee80211_tkip_decrypt` (lines 381-576): the staged computation above,
then the ICV comparison (silent drop), the Michael comparison (drop and
report the received TSC to `ieee80211_michael_mic_failure`, the fourth
component of the result), and only on full success the replay-counter commit
and the TTAK-cache validation. -/
def ieee80211_tkip_decrypt (oc : TkipOracles) (bufsize supply : Nat)
    (m0 : IobChain) (k : Ieee80211Key) (ctx : TkipCtx) :
    Option IobChain × Ieee80211Key × TkipCtx × Option Nat :=
  match tkip_dec_stage oc bufsize supply m0 k ctx with
  | .reject ctx' => (none, k, ctx', none)
  | .ready tid tsc outSegs pkt crcCalc crcRecv micCalc micRecv ctx' =>
    if crcCalc ≠ crcRecv then (none, k, ctx', none)
    else if micRecv ≠ micCalc then (none, k, ctx', some tsc)
    else (some ⟨outSegs, pkt⟩, { k with k_rsc := k.k_rsc.set tid tsc },
          { ctx' with rxttak_ok := true }, none)

/-! ### TKIP countermeasures (`ieee80211_michael_mic_failure`, lines
605-667). -/

/-- The countermeasures state carried by the interface: the
`IEEE80211_F_COUNTERM` flag, `ic_tkip_micfail` (the tick of the most recent
failure, 0 meaning none recorded) and `ic_tkip_micfail_last_tsc`. -/
structure IcCmState where
  counterm : Bool
  micfail : Int
  micfail_last_tsc : Nat
  deriving DecidableEq, Repr

/-- `ieee80211_michael_mic_failure` (lines 605-667, with
`CONFIG_IEEE80211_AP` compiled in).  `ticks` is the kernel tick counter and
`hz` the tick rate, both C `int`s.  In HostAP mode the second failure within
60 seconds sets the countermeasures flag and deauthenticates the TKIP
stations; in station mode it sends two EAPOL MIC-failure reports and a
deauthentication (external effects that do not touch this state). -/
def ieee80211_michael_mic_failure (hz ticks : Int) (opmode : OpMode)
    (st : IcCmState) (tsc : Nat) : IcCmState :=
  if st.counterm then st                -- countermeasures already active
  else if st.micfail = 0 ∨ ticks - (st.micfail + 60 * hz) ≥ 0 then
    { st with micfail := ticks, micfail_last_tsc := tsc }
  else
    let st := match opmode with
      | .hostap => { st with counterm := true }
      | .sta => st
      | .other => st
    { st with micfail := ticks, micfail_last_tsc := tsc }

/-! ### A concrete Michael MAC.

The general theorems treat Michael as an oracle; the concrete instance below
(modelled from the spec: "Michael MIC - lightweight 64-bit MAC used in
TKIP", per IEEE Std 802.11-2007 8.3.2.3) is used to instantiate concrete
counterexamples, so that they exercise the genuine primitive rather than a
degenerate stand-in. -/

def rol32 (x n : Nat) : Nat := ((x <<< n) ||| (x >>> (32 - n))) % 2 ^ 32

def ror32 (x n : Nat) : Nat := rol32 x (32 - n)

def michaelXswap (x : Nat) : Nat :=
  ((x &&& 0x00ff00ff) <<< 8) ||| ((x >>> 8) &&& 0x00ff00ff)

/-- The Michael block function `b(L, R)`. -/
def michaelBlock : Nat × Nat → Nat × Nat
  | (l, r) =>
    let r := r ^^^ rol32 l 17
    let l := (l + r) % 2 ^ 32
    let r := r ^^^ michaelXswap l
    let l := (l + r) % 2 ^ 32
    let r := r ^^^ rol32 l 3
    let l := (l + r) % 2 ^ 32
    let r := r ^^^ ror32 l 2
    let l := (l + r) % 2 ^ 32
    (l, r)

/-- Absorb the padded message, one little-endian 32-bit word at a time. -/
def michaelWords : Nat × Nat → List Nat → Nat × Nat
  | st, b0 :: b1 :: b2 :: b3 :: rest =>
    let w := b0 ||| b1 <<< 8 ||| b2 <<< 16 ||| b3 <<< 24
    michaelWords (michaelBlock (st.1 ^^^ w, st.2)) rest
  | st, _ => st

/-- Modelled from the spec: the Michael MAC.  The key is 8 octets (two
little-endian 32-bit words); the message is padded with a single `0x5a`
octet followed by 4 to 7 zero octets up to a word boundary; the MAC is the
final `(L, R)` pair, little-endian. -/
def michaelMAC (key msg : List Nat) : Nat :=
  let l := key.getD 0 0 ||| (key.getD 1 0) <<< 8 ||| (key.getD 2 0) <<< 16 |||
    (key.getD 3 0) <<< 24
  let r := key.getD 4 0 ||| (key.getD 5 0) <<< 8 ||| (key.getD 6 0) <<< 16 |||
    (key.getD 7 0) <<< 24
  let z := 4 + (4 - ((msg.length + 1) % 4)) % 4
  let lr := michaelWords (l, r) (msg ++ 0x5a :: List.replicate z 0)
  lr.1 ||| lr.2 <<< 32



/-! ### Arithmetic helper lemmas. -/

lemma lor_two_pow_mul (k a b : Nat) (h : a < 2 ^ k) :
    a ||| 2 ^ k * b = a + 2 ^ k * b := by
  induction k generalizing a b with
  | zero =>
    have ha : a = 0 := by omega
    subst ha
    simp
  | succ k ih =>
    have hq : 2 ^ (k + 1) * b = 2 * (2 ^ k * b) := by ring
    have h3 : a / 2 < 2 ^ k := by
      have hp : (2 : Nat) ^ (k + 1) = 2 * 2 ^ k := by ring
      omega
    have h4 := ih (a / 2) b h3
    rw [hq]
    revert h4
    generalize 2 ^ k * b = y
    intro h4
    have h1 : (a ||| 2 * y) / 2 = a / 2 ||| y := by
      rw [Nat.or_div_two]
      congr 1
      omega
    have h2 : (a ||| 2 * y) % 2 = a % 2 := by
      rcases Nat.mod_two_eq_zero_or_one a with ha | ha
      · have hne : ¬(a ||| 2 * y) % 2 = 1 := by
          rw [Nat.or_mod_two_eq_one]
          omega
        have h20 := Nat.mod_two_eq_zero_or_one (a ||| 2 * y)
        omega
      · have hone : (a ||| 2 * y) % 2 = 1 := by
          rw [Nat.or_mod_two_eq_one]
          omega
        omega
    have h5 := Nat.div_add_mod (a ||| 2 * y) 2
    have h6 := Nat.div_add_mod a 2
    omega

lemma assemble_step (t k : Nat) :
    (t % 2 ^ k) ||| ((t >>> k) % 256) <<< k = t % 2 ^ (k + 8) := by
  rw [Nat.shiftLeft_eq, Nat.shiftRight_eq_div_pow,
    Nat.mul_comm ((t / 2 ^ k) % 256) (2 ^ k),
    lor_two_pow_mul k _ _ (Nat.mod_lt t (Nat.pos_pow_of_pos k (by norm_num))),
    pow_add, Nat.mod_mul]
  norm_num

/-- Reassembling the six bytes written from a 48-bit counter recovers the
counter modulo 2^48. -/
lemma assemble48 (t : Nat) :
    t % 256 ||| ((t >>> 8) % 256) <<< 8 ||| ((t >>> 16) % 256) <<< 16 |||
      ((t >>> 24) % 256) <<< 24 ||| ((t >>> 32) % 256) <<< 32 |||
      ((t >>> 40) % 256) <<< 40 = t % 2 ^ 48 := by
  have h0 : t % 256 = t % 2 ^ 8 := by norm_num
  have s1 := assemble_step t 8
  have s2 := assemble_step t 16
  have s3 := assemble_step t 24
  have s4 := assemble_step t 32
  have s5 := assemble_step t 40
  norm_num at s1 s2 s3 s4 s5 ⊢
  rw [h0] at *
  norm_num at *
  rw [s1, s2, s3, s4, s5]

/-- Reassembling the four bytes written from a 32-bit value recovers the
value modulo 2^32. -/
lemma assemble32 (t : Nat) :
    t % 256 ||| ((t >>> 8) % 256) <<< 8 ||| ((t >>> 16) % 256) <<< 16 |||
      ((t >>> 24) % 256) <<< 24 = t % 2 ^ 32 := by
  have h0 : t % 256 = t % 2 ^ 8 := by norm_num
  have s1 := assemble_step t 8
  have s2 := assemble_step t 16
  have s3 := assemble_step t 24
  norm_num at s1 s2 s3 ⊢
  rw [h0] at *
  norm_num at *
  rw [s1, s2, s3]

/-! ### Helper lemmas about `runBytes`, `flatFrom` and the walk. -/

lemma runBytes_length (f : σ → Nat → Nat × σ) (xs : List Nat) : ∀ st,
    (runBytes f st xs).1.length = xs.length := by
  induction xs with
  | nil => intro st; rfl
  | cons c cs ih => intro st; simp [runBytes, ih]

lemma runBytes_append (f : σ → Nat → Nat × σ) (xs ys : List Nat) : ∀ st,
    runBytes f st (xs ++ ys) =
      ((runBytes f st xs).1 ++ (runBytes f (runBytes f st xs).2 ys).1,
       (runBytes f (runBytes f st xs).2 ys).2) := by
  induction xs with
  | nil => intro st; simp [runBytes]
  | cons c cs ih => intro st; simp [runBytes, ih]

lemma flatFrom_zero (l : List (List Nat)) : flatFrom l 0 = l.flatten := by
  cases l with
  | nil => rfl
  | cons s rest => simp [flatFrom]

lemma flatFrom_head_full (s : List Nat) (rest : List (List Nat)) :
    flatFrom (s :: rest) s.length = flatFrom rest 0 := by
  rw [flatFrom_zero]
  simp [flatFrom]

lemma flatFrom_advance (s : List Nat) (rest : List (List Nat)) (moff len : Nat)
    (h : moff + len ≤ s.length) :
    flatFrom (s :: rest) (moff + len) = (flatFrom (s :: rest) moff).drop len := by
  simp only [flatFrom]
  rw [List.drop_append_eq_append_drop]
  have h1 : len - (s.drop moff).length = 0 := by
    simp [List.length_drop]
    omega
  rw [h1, List.drop_drop]
  simp [Nat.add_comm]

lemma flatFrom_take_chunk (s : List Nat) (rest : List (List Nat))
    (moff len : Nat) (h : moff + len ≤ s.length) :
    (flatFrom (s :: rest) moff).take len = (s.drop moff).take len := by
  simp only [flatFrom]
  rw [List.take_append_eq_append_take]
  have h1 : len - (s.drop moff).length = 0 := by
    simp only [List.length_drop]
    omega
  rw [h1]
  simp


/-- Splitting one transfer chunk off the front of the walked bytes. -/
lemma flat_take_split (s : List Nat) (rest : List (List Nat))
    (moff len left : Nat) (hms : moff + len ≤ s.length) (hll : len ≤ left) :
    (flatFrom (s :: rest) moff).take left =
      (s.drop moff).take len ++ (flatFrom (s :: rest) (moff + len)).take (left - len) := by
  rw [flatFrom_advance s rest moff len hms, ← flatFrom_take_chunk s rest moff len hms]
  have h : left = len + (left - len) := by omega
  rw [h, List.take_add]
  congr 2
  omega

/-- The walk succeeds, without touching the allocator, whenever the current
output segment's remaining capacity is exactly the number of bytes left and
the source chain holds enough bytes: it appends the transformed bytes to the
current segment and reports the final source position. -/
lemma walkFuel_success (f : σ → Nat → Nat × σ) :
    ∀ fuel src supply moff left done cur tlen st,
    src.length + left < fuel →
    moff ≤ (src.headD []).length →
    left + cur.length = tlen →
    left ≤ (flatFrom src moff).length →
    ∃ srcA moffA,
      walkFuel f fuel supply src moff left done cur tlen st =
        some ⟨done, cur ++ (runBytes f st ((flatFrom src moff).take left)).1, tlen,
              (runBytes f st ((flatFrom src moff).take left)).2, supply, srcA, moffA⟩ ∧
      flatFrom srcA moffA = (flatFrom src moff).drop left ∧
      moffA ≤ (srcA.headD []).length := by
  intro fuel
  induction fuel with
  | zero => intro src supply moff left done cur tlen st h1 _ _ _; omega
  | succ fuel ih =>
    intro src supply moff left done cur tlen st hfuel hmoff hcap hflat
    by_cases hl : left = 0
    · subst hl
      refine ⟨src, moff, ?_, by simp, hmoff⟩
      simp [walkFuel, runBytes, hcap]
    · match src, hmoff, hfuel, hflat with
      | [], hmoff, hfuel, hflat =>
        simp only [flatFrom, List.length_nil] at hflat
        omega
      | s :: rest, hmoff, hfuel, hflat =>
        by_cases hadv : moff = s.length
        · -- advance to the next source segment
          have hst : walkFuel f (fuel + 1) supply (s :: rest) moff left done cur tlen st =
              walkFuel f fuel supply rest 0 left done cur tlen st := by
            simp [walkFuel, hl, hadv]
          rw [hst]
          subst hadv
          rw [flatFrom_head_full] at hflat ⊢
          exact ih rest supply 0 left done cur tlen st
            (by simp only [List.length_cons] at hfuel; omega)
            (Nat.zero_le _) hcap hflat
        · -- transfer min(io_len - moff, tlen - noff) bytes
          have hcur : cur.length ≠ tlen := by omega
          have hmlt : moff < s.length := by
            simp only [List.headD_cons] at hmoff
            omega
          set len := min (s.length - moff) (tlen - cur.length) with hlen
          have hlpos : 0 < len := by omega
          have hlle : len ≤ left := by omega
          have hms : moff + len ≤ s.length := by omega
          have hst : walkFuel f (fuel + 1) supply (s :: rest) moff left done cur tlen st =
              walkFuel f fuel supply (s :: rest) (moff + len) (left - len) done
                (cur ++ (runBytes f st ((s.drop moff).take len)).1) tlen
                (runBytes f st ((s.drop moff).take len)).2 := by
            simp only [walkFuel, if_neg hl, if_neg hadv, if_neg hcur, ← hlen,
              if_neg (by omega : ¬len = 0)]
          rw [hst]
          have hchunklen : ((s.drop moff).take len).length = len := by
            simp only [List.length_take, List.length_drop]
            omega
          have houtlen : ((runBytes f st ((s.drop moff).take len)).1).length = len := by
            rw [runBytes_length, hchunklen]
          obtain ⟨srcA, moffA, hrun, hfa, hma⟩ :=
            ih (s :: rest) supply (moff + len) (left - len) done
              (cur ++ (runBytes f st ((s.drop moff).take len)).1) tlen
              (runBytes f st ((s.drop moff).take len)).2
              (by simp only [List.length_cons] at hfuel ⊢; omega)
              (by simpa using hms)
              (by rw [List.length_append, houtlen]; omega)
              (by rw [flatFrom_advance s rest moff len hms, List.length_drop]; omega)
          refine ⟨srcA, moffA, ?_, ?_, hma⟩
          · rw [hrun]
            rw [flat_take_split s rest moff len left hms hlle,
              runBytes_append]
            simp [List.append_assoc]
          · rw [hfa, flatFrom_advance s rest moff len hms, List.drop_drop]
            congr 1
            omega

/-- When the bytes left exceed the current segment's remaining capacity, the
walk fails for every allocator supply: each freshly allocated segment gets
`io_len = 0` (the stale `if (0 > left)` clamp), so the loop can never copy
the remaining bytes and terminates only through allocation failure. -/
lemma walkFuel_none (f : σ → Nat → Nat × σ) :
    ∀ fuel supply src moff left done cur tlen st,
    supply + src.length + left < fuel →
    0 < left →
    moff ≤ (src.headD []).length →
    cur.length ≤ tlen →
    tlen < left + cur.length →
    left ≤ (flatFrom src moff).length →
    walkFuel f fuel supply src moff left done cur tlen st = none := by
  intro fuel
  induction fuel with
  | zero => intro supply src moff left done cur tlen st h1 _ _ _ _ _; omega
  | succ fuel ih =>
    intro supply src moff left done cur tlen st hfuel hl hmoff hcur hdef hflat
    match src, hmoff, hfuel, hflat with
    | [], hmoff, hfuel, hflat =>
      simp only [flatFrom, List.length_nil] at hflat
      omega
    | s :: rest, hmoff, hfuel, hflat =>
      by_cases hadv : moff = s.length
      · have hst : walkFuel f (fuel + 1) supply (s :: rest) moff left done cur tlen st =
            walkFuel f fuel supply rest 0 left done cur tlen st := by
          simp [walkFuel, Nat.pos_iff_ne_zero.mp hl, hadv]
        rw [hst]
        subst hadv
        rw [flatFrom_head_full] at hflat
        exact ih supply rest 0 left done cur tlen st
          (by simp only [List.length_cons] at hfuel; omega) hl (Nat.zero_le _)
          hcur hdef hflat
      · by_cases hfull : cur.length = tlen
        · -- allocate a fresh zero-length segment (or fail)
          match supply with
          | 0 =>
            simp [walkFuel, Nat.pos_iff_ne_zero.mp hl, hadv, hfull]
          | supply + 1 =>
            have hst : walkFuel f (fuel + 1) (supply + 1) (s :: rest) moff left done cur tlen st =
                walkFuel f fuel supply (s :: rest) moff left (done ++ [cur]) []
                  (if 0 > left then left else 0) st := by
              simp [walkFuel, Nat.pos_iff_ne_zero.mp hl, hadv, hfull]
            rw [hst]
            have hz : (if 0 > left then left else 0) = 0 := by simp
            rw [hz]
            exact ih supply (s :: rest) moff left (done ++ [cur]) [] 0 st
              (by simp only [List.length_cons] at hfuel ⊢; omega) hl hmoff
              (by simp) (by simp; omega) hflat
        · have hmlt : moff < s.length := by
            simp only [List.headD_cons] at hmoff
            omega
          set len := min (s.length - moff) (tlen - cur.length) with hlen
          by_cases hz : len = 0
          · simp [walkFuel, Nat.pos_iff_ne_zero.mp hl, hadv, hfull, ← hlen, hz]
          · have hlpos : 0 < len := by omega
            have hms : moff + len ≤ s.length := by omega
            have hltl : len < left := by omega
            have hst : walkFuel f (fuel + 1) supply (s :: rest) moff left done cur tlen st =
                walkFuel f fuel supply (s :: rest) (moff + len) (left - len) done
                  (cur ++ (runBytes f st ((s.drop moff).take len)).1) tlen
                  (runBytes f st ((s.drop moff).take len)).2 := by
              simp only [walkFuel, if_neg (Nat.pos_iff_ne_zero.mp hl), if_neg hadv,
                if_neg hfull, ← hlen, if_neg hz]
            rw [hst]
            have houtlen : ((runBytes f st ((s.drop moff).take len)).1).length = len := by
              rw [runBytes_length]
              simp only [List.length_take, List.length_drop]
              omega
            exact ih supply (s :: rest) (moff + len) (left - len) done _ tlen _
              (by simp only [List.length_cons] at hfuel ⊢; omega)
              (by omega) (by simpa using hms)
              (by rw [List.length_append, houtlen]; omega)
              (by rw [List.length_append, houtlen]; omega)
              (by rw [flatFrom_advance s rest moff len hms, List.length_drop]; omega)


/-- The walk with its standard fuel: success case. -/
lemma walk_success (f : σ → Nat → Nat × σ) (supply : Nat) (src : List (List Nat))
    (moff left : Nat) (done : List (List Nat)) (cur : List Nat) (tlen : Nat)
    (st : σ) (hmoff : moff ≤ (src.headD []).length)
    (hcap : left + cur.length = tlen)
    (hflat : left ≤ (flatFrom src moff).length) :
    ∃ srcA moffA,
      walk f supply src moff left done cur tlen st =
        some ⟨done, cur ++ (runBytes f st ((flatFrom src moff).take left)).1, tlen,
              (runBytes f st ((flatFrom src moff).take left)).2, supply, srcA, moffA⟩ ∧
      flatFrom srcA moffA = (flatFrom src moff).drop left ∧
      moffA ≤ (srcA.headD []).length :=
  walkFuel_success f (supply + src.length + left + 1) src supply moff left done
    cur tlen st (by omega) hmoff hcap hflat

/-- The walk with its standard fuel: capacity-deficit case (the output chain
would have to be extended, which the stale zero-length clamp prevents). -/
lemma walk_none (f : σ → Nat → Nat × σ) (supply : Nat) (src : List (List Nat))
    (moff left : Nat) (done : List (List Nat)) (cur : List Nat) (tlen : Nat)
    (st : σ) (hl : 0 < left) (hmoff : moff ≤ (src.headD []).length)
    (hcur : cur.length ≤ tlen) (hdef : tlen < left + cur.length)
    (hflat : left ≤ (flatFrom src moff).length) :
    walk f supply src moff left done cur tlen st = none :=
  walkFuel_none f (supply + src.length + left + 1) supply src moff left done
    cur tlen st (by omega) hl hmoff hcur hdef hflat

/-- One decrypted byte undoes one encrypted byte and the two loop states
advance identically (the MIC absorbs the same clear text on both sides). -/
lemma ccmpDecByte_encByte (aes : List Nat → List Nat) (st : CcmpSt) (c : Nat) :
    ccmpDecByte aes st ((ccmpEncByte aes st c).1) = (c, (ccmpEncByte aes st c).2) := by
  simp [ccmpEncByte, ccmpDecByte, Nat.xor_cancel_right]

/-- CCM streaming roundtrip: decrypting the encrypted byte stream from the
same initial loop state recovers the clear text and the same final state. -/
lemma ccmp_bytes_roundtrip (aes : List Nat → List Nat) (xs : List Nat) : ∀ st,
    runBytes (ccmpDecByte aes) st (runBytes (ccmpEncByte aes) st xs).1 =
      (xs, (runBytes (ccmpEncByte aes) st xs).2) := by
  induction xs with
  | nil => intro st; rfl
  | cons c cs ih =>
    intro st
    simp only [runBytes]
    rw [show (ccmpDecByte aes st ((ccmpEncByte aes st c).1)).1 = c by
          rw [ccmpDecByte_encByte],
        show (ccmpDecByte aes st ((ccmpEncByte aes st c).1)).2 =
            (ccmpEncByte aes st c).2 by rw [ccmpDecByte_encByte],
        ih]

/-- One TKIP decrypted byte undoes one encrypted byte with identical state
evolution (the CRC absorbs the same clear text on both sides). -/
lemma tkipDecByte_encByte (crcB : Nat → Nat → Nat) (stream : Nat → Nat)
    (st : TkipSt) (c : Nat) :
    tkipDecByte crcB stream st ((tkipEncByte crcB stream st c).1) =
      (c, (tkipEncByte crcB stream st c).2) := by
  simp [tkipEncByte, tkipDecByte, Nat.xor_cancel_right]

/-- TKIP streaming roundtrip. -/
lemma tkip_bytes_roundtrip (crcB : Nat → Nat → Nat) (stream : Nat → Nat)
    (xs : List Nat) : ∀ st,
    runBytes (tkipDecByte crcB stream) st
        (runBytes (tkipEncByte crcB stream) st xs).1 =
      (xs, (runBytes (tkipEncByte crcB stream) st xs).2) := by
  induction xs with
  | nil => intro st; rfl
  | cons c cs ih =>
    intro st
    simp only [runBytes]
    rw [show (tkipDecByte crcB stream st ((tkipEncByte crcB stream st c).1)).1 = c by
          rw [tkipDecByte_encByte],
        show (tkipDecByte crcB stream st ((tkipEncByte crcB stream st c).1)).2 =
            (tkipEncByte crcB stream st c).2 by rw [tkipDecByte_encByte],
        ih]

/-- The TKIP encrypt loop over a byte list is the RC4 XOR of the list and
the CRC of the clear text. -/
lemma runBytes_tkipEnc (crcB : Nat → Nat → Nat) (stream : Nat → Nat)
    (xs : List Nat) : ∀ pos crc,
    runBytes (tkipEncByte crcB stream) ⟨pos, crc⟩ xs =
      (rc4XorFrom stream pos xs, ⟨pos + xs.length, crcUpdate crcB crc xs⟩) := by
  induction xs with
  | nil => intro pos crc; simp [runBytes, rc4XorFrom, crcUpdate]
  | cons c cs ih =>
    intro pos crc
    simp only [runBytes, tkipEncByte, rc4XorFrom, ih, crcUpdate, List.foldl,
      List.length_cons]
    refine congrArg₂ Prod.mk rfl ?_
    simp only [TkipSt.mk.injEq]
    exact ⟨by omega, trivial⟩

/-- Decrypting twice with the same keystream position is the identity. -/
lemma rc4XorFrom_involutive (stream : Nat → Nat) (xs : List Nat) : ∀ pos,
    rc4XorFrom stream pos (rc4XorFrom stream pos xs) = xs := by
  induction xs with
  | nil => intro pos; rfl
  | cons c cs ih => intro pos; simp [rc4XorFrom, Nat.xor_cancel_right, ih]

lemma rc4XorFrom_length (stream : Nat → Nat) (xs : List Nat) : ∀ pos,
    (rc4XorFrom stream pos xs).length = xs.length := by
  induction xs with
  | nil => intro pos; rfl
  | cons c cs ih => intro pos; simp [rc4XorFrom, ih]

lemma rc4XorFrom_append (stream : Nat → Nat) (xs ys : List Nat) : ∀ pos,
    rc4XorFrom stream pos (xs ++ ys) =
      rc4XorFrom stream pos xs ++ rc4XorFrom stream (pos + xs.length) ys := by
  induction xs with
  | nil => intro pos; simp [rc4XorFrom]
  | cons c cs ih =>
    intro pos
    simp only [List.cons_append, rc4XorFrom, List.length_cons, List.append_eq]
    rw [ih, show pos + 1 + cs.length = pos + (cs.length + 1) from by omega]

lemma flatFrom_length (s : List Nat) (rest : List (List Nat)) (off : Nat) :
    (flatFrom (s :: rest) off).length = s.length - off + rest.flatten.length := by
  simp [flatFrom]


/-! ### Header-agreement lemmas.

The decrypt paths re-read the 802.11 header from the first segment of the
inbound frame; these lemmas transport every header-derived value between two
frames that agree on the header prefix. -/

lemma getD_take_lt (l : List Nat) (n i : Nat) (h : i < n) :
    (l.take n).getD i 0 = l.getD i 0 := by
  simp only [List.getD_eq_getElem?_getD]
  rw [List.getElem?_take, if_pos h]

lemma prefix_getD {h1 h2 : List Nat} {n : Nat}
    (hp : h2.take n = h1.take n) {i : Nat} (hi : i < n) :
    h2.getD i 0 = h1.getD i 0 := by
  rw [← getD_take_lt h2 n i hi, hp, getD_take_lt h1 n i hi]

lemma prefix_slice {h1 h2 : List Nat} {n : Nat}
    (hp : h2.take n = h1.take n) {a b : Nat} (hab : a + b ≤ n) :
    (h2.drop a).take b = (h1.drop a).take b := by
  rw [List.take_drop, List.take_drop]
  have e2 : h2.take (a + b) = h1.take (a + b) := by
    have h := congrArg (List.take (a + b)) hp
    rwa [List.take_take, List.take_take, Nat.min_eq_left hab] at h
  rw [e2]

lemma get_hdrlen_ge (h : List Nat) : 24 ≤ ieee80211_get_hdrlen h := by
  simp only [ieee80211_get_hdrlen]
  split_ifs <;> omega

lemma get_hdrlen_qos_bound (h : List Nat) (hq : ieee80211_has_qos h = true) :
    (if ieee80211_has_addr4 h then 30 else 24) + 2 ≤ ieee80211_get_hdrlen h := by
  simp only [ieee80211_get_hdrlen, hq]
  split_ifs <;> omega

lemma get_hdrlen_addr4_bound (h : List Nat)
    (ha : ieee80211_has_addr4 h = true) : 30 ≤ ieee80211_get_hdrlen h := by
  simp only [ieee80211_get_hdrlen, ha]
  split_ifs <;> omega

lemma prefix_has_qos {h1 h2 : List Nat}
    (hp : h2.take (ieee80211_get_hdrlen h1) = h1.take (ieee80211_get_hdrlen h1)) :
    ieee80211_has_qos h2 = ieee80211_has_qos h1 := by
  have g0 : h2.getD 0 0 = h1.getD 0 0 :=
    prefix_getD hp (by have := get_hdrlen_ge h1; omega)
  simp only [ieee80211_has_qos, g0]

lemma prefix_has_addr4 {h1 h2 : List Nat}
    (hp : h2.take (ieee80211_get_hdrlen h1) = h1.take (ieee80211_get_hdrlen h1)) :
    ieee80211_has_addr4 h2 = ieee80211_has_addr4 h1 := by
  have g1 : h2.getD 1 0 = h1.getD 1 0 :=
    prefix_getD hp (by have := get_hdrlen_ge h1; omega)
  simp only [ieee80211_has_addr4, g1]

lemma prefix_has_htc {h1 h2 : List Nat}
    (hp : h2.take (ieee80211_get_hdrlen h1) = h1.take (ieee80211_get_hdrlen h1)) :
    ieee80211_has_htc h2 = ieee80211_has_htc h1 := by
  have g0 : h2.getD 0 0 = h1.getD 0 0 :=
    prefix_getD hp (by have := get_hdrlen_ge h1; omega)
  have g1 : h2.getD 1 0 = h1.getD 1 0 :=
    prefix_getD hp (by have := get_hdrlen_ge h1; omega)
  simp only [ieee80211_has_htc, g0, g1, prefix_has_qos hp]

lemma prefix_get_qos {h1 h2 : List Nat}
    (hp : h2.take (ieee80211_get_hdrlen h1) = h1.take (ieee80211_get_hdrlen h1))
    (hq : ieee80211_has_qos h1 = true) :
    ieee80211_get_qos h2 = ieee80211_get_qos h1 := by
  have hb := get_hdrlen_qos_bound h1 hq
  simp only [ieee80211_get_qos, prefix_has_addr4 hp]
  by_cases ha : ieee80211_has_addr4 h1 = true
  · simp only [ha, if_true] at hb ⊢
    rw [prefix_getD hp (by omega : (30 : Nat) < ieee80211_get_hdrlen h1),
      prefix_getD hp (by omega : (30 + 1 : Nat) < ieee80211_get_hdrlen h1)]
  · rw [Bool.not_eq_true] at ha
    simp only [ha, Bool.false_eq_true, if_false] at hb ⊢
    rw [prefix_getD hp (by omega : (24 : Nat) < ieee80211_get_hdrlen h1),
      prefix_getD hp (by omega : (24 + 1 : Nat) < ieee80211_get_hdrlen h1)]

lemma prefix_get_hdrlen {h1 h2 : List Nat}
    (hp : h2.take (ieee80211_get_hdrlen h1) = h1.take (ieee80211_get_hdrlen h1)) :
    ieee80211_get_hdrlen h2 = ieee80211_get_hdrlen h1 := by
  simp only [ieee80211_get_hdrlen, prefix_has_qos hp, prefix_has_addr4 hp,
    prefix_has_htc hp]

lemma prefix_tid {h1 h2 : List Nat}
    (hp : h2.take (ieee80211_get_hdrlen h1) = h1.take (ieee80211_get_hdrlen h1)) :
    (if ieee80211_has_qos h2 then ieee80211_get_qos h2 &&& IEEE80211_QOS_TID else 0) =
      (if ieee80211_has_qos h1 then ieee80211_get_qos h1 &&& IEEE80211_QOS_TID else 0) := by
  rw [prefix_has_qos hp]
  by_cases hq : ieee80211_has_qos h1 = true
  · rw [if_pos hq, if_pos hq, prefix_get_qos hp hq]
  · rw [Bool.not_eq_true] at hq
    rw [hq]
    simp

lemma prefix_addr123 {h1 h2 : List Nat}
    (hp : h2.take (ieee80211_get_hdrlen h1) = h1.take (ieee80211_get_hdrlen h1)) :
    addr1 h2 = addr1 h1 ∧ addr2 h2 = addr2 h1 ∧ addr3 h2 = addr3 h1 := by
  have hge := get_hdrlen_ge h1
  exact ⟨prefix_slice hp (by omega), prefix_slice hp (by omega),
    prefix_slice hp (by omega)⟩

lemma prefix_addr4 {h1 h2 : List Nat}
    (hp : h2.take (ieee80211_get_hdrlen h1) = h1.take (ieee80211_get_hdrlen h1))
    (ha : ieee80211_has_addr4 h1 = true) : addr4 h2 = addr4 h1 := by
  have hb := get_hdrlen_addr4_bound h1 ha
  exact prefix_slice hp (by omega)

lemma prefix_seq {h1 h2 : List Nat}
    (hp : h2.take (ieee80211_get_hdrlen h1) = h1.take (ieee80211_get_hdrlen h1)) :
    h2.getD 22 0 = h1.getD 22 0 :=
  prefix_getD hp (by have := get_hdrlen_ge h1; omega)

lemma prefix_ccmp_aadCore {h1 h2 : List Nat}
    (hp : h2.take (ieee80211_get_hdrlen h1) = h1.take (ieee80211_get_hdrlen h1)) :
    ccmp_aadCore h2 = ccmp_aadCore h1 := by
  obtain ⟨e1, e2, e3⟩ := prefix_addr123 hp
  have g0 : h2.getD 0 0 = h1.getD 0 0 :=
    prefix_getD hp (by have := get_hdrlen_ge h1; omega)
  have g1 : h2.getD 1 0 = h1.getD 1 0 :=
    prefix_getD hp (by have := get_hdrlen_ge h1; omega)
  have hia : (if ieee80211_has_addr4 h2 then addr4 h2 else []) =
      (if ieee80211_has_addr4 h1 then addr4 h1 else []) := by
    rw [prefix_has_addr4 hp]
    by_cases ha : ieee80211_has_addr4 h1 = true
    · simp [ha, prefix_addr4 hp ha]
    · rw [Bool.not_eq_true] at ha
      simp [ha]
  have hiq : (if ieee80211_has_qos h2
        then [ieee80211_get_qos h2 &&& IEEE80211_QOS_TID, 0] else []) =
      (if ieee80211_has_qos h1
        then [ieee80211_get_qos h1 &&& IEEE80211_QOS_TID, 0] else []) := by
    rw [prefix_has_qos hp]
    by_cases hq : ieee80211_has_qos h1 = true
    · simp [hq, prefix_get_qos hp hq]
    · rw [Bool.not_eq_true] at hq
      simp [hq]
  simp only [ccmp_aadCore, g0, g1, e1, e2, e3, prefix_seq hp,
    prefix_has_htc hp, hia, hiq]

lemma prefix_ccmp_nonce {h1 h2 : List Nat} (pn : Nat)
    (hp : h2.take (ieee80211_get_hdrlen h1) = h1.take (ieee80211_get_hdrlen h1)) :
    ccmp_nonce h2 pn = ccmp_nonce h1 pn := by
  obtain ⟨e1, e2, e3⟩ := prefix_addr123 hp
  have g0 : h2.getD 0 0 = h1.getD 0 0 :=
    prefix_getD hp (by have := get_hdrlen_ge h1; omega)
  simp only [ccmp_nonce, g0, e2, prefix_tid hp]

lemma prefix_ccmp_phase1 {h1 h2 : List Nat} (aes : List Nat → List Nat)
    (pn lm : Nat)
    (hp : h2.take (ieee80211_get_hdrlen h1) = h1.take (ieee80211_get_hdrlen h1)) :
    ieee80211_ccmp_phase1 aes h2 pn lm = ieee80211_ccmp_phase1 aes h1 pn lm := by
  simp only [ieee80211_ccmp_phase1, ccmp_auth, prefix_ccmp_aadCore hp,
    prefix_ccmp_nonce pn hp]

lemma prefix_ccmpRelevantRsc {h1 h2 : List Nat} (k : Ieee80211Key)
    (hp : h2.take (ieee80211_get_hdrlen h1) = h1.take (ieee80211_get_hdrlen h1)) :
    ccmpRelevantRsc k h2 = ccmpRelevantRsc k h1 := by
  have g0 : h2.getD 0 0 = h1.getD 0 0 :=
    prefix_getD hp (by have := get_hdrlen_ge h1; omega)
  simp only [ccmpRelevantRsc, g0, prefix_tid hp]

lemma prefix_ccmpCommitRsc {h1 h2 : List Nat} (k : Ieee80211Key) (pn : Nat)
    (hp : h2.take (ieee80211_get_hdrlen h1) = h1.take (ieee80211_get_hdrlen h1)) :
    ccmpCommitRsc k h2 pn = ccmpCommitRsc k h1 pn := by
  have g0 : h2.getD 0 0 = h1.getD 0 0 :=
    prefix_getD hp (by have := get_hdrlen_ge h1; omega)
  simp only [ccmpCommitRsc, g0, prefix_tid hp]

lemma prefix_tkipPseudoHdr {h1 h2 : List Nat}
    (hp : h2.take (ieee80211_get_hdrlen h1) = h1.take (ieee80211_get_hdrlen h1)) :
    tkipPseudoHdr h2 = tkipPseudoHdr h1 := by
  obtain ⟨e1, e2, e3⟩ := prefix_addr123 hp
  have g1 : h2.getD 1 0 = h1.getD 1 0 :=
    prefix_getD hp (by have := get_hdrlen_ge h1; omega)
  have hpri : (if ieee80211_has_qos h2 then ieee80211_get_qos h2 &&& IEEE80211_QOS_TID else 0) =
      (if ieee80211_has_qos h1 then ieee80211_get_qos h1 &&& IEEE80211_QOS_TID else 0) :=
    prefix_tid hp
  simp only [tkipPseudoHdr, g1, e1, e2, e3, hpri]
  generalize (if ieee80211_has_qos h1 = true
    then ieee80211_get_qos h1 &&& IEEE80211_QOS_TID else 0) = pri
  split_ifs with hd0 hd1 hd2
  · rfl
  · rfl
  · rfl
  · have hd3 : (h1.getD 1 0) &&& IEEE80211_FC1_DIR_MASK = IEEE80211_FC1_DIR_DSTODS := by
      have hle : (h1.getD 1 0) &&& IEEE80211_FC1_DIR_MASK ≤ 3 := Nat.and_le_right
      simp only [IEEE80211_FC1_DIR_NODS, IEEE80211_FC1_DIR_TODS,
        IEEE80211_FC1_DIR_FROMDS, IEEE80211_FC1_DIR_DSTODS,
        IEEE80211_FC1_DIR_MASK] at *
      omega
    have ha : ieee80211_has_addr4 h1 = true := by
      simp only [ieee80211_has_addr4]
      exact beq_iff_eq.mpr hd3
    rw [prefix_addr4 hp ha]


/-! ### The CCMP roundtrip. -/

/-- Abbreviation for roundtrip statements: the initial CCM loop state of a
frame with header `hd`, packet number `pn` and body length `lm`. -/
def ccmpSt0Of (aes : List Nat → List Nat) (hd : List Nat) (pn lm : Nat) :
    CcmpSt :=
  ccmpSt0 aes (ieee80211_ccmp_phase1 aes hd pn lm).1
    (ieee80211_ccmp_phase1 aes hd pn lm).2.1

/-- Abbreviation for roundtrip statements: the 8-octet CCM MIC produced from
the post-body loop state `st`. -/
def ccmpMicOf (aes : List Nat → List Nat) (hd : List Nat) (pn lm : Nat)
    (st : CcmpSt) : List Nat :=
  (xorBlock (if st.j ≠ 0 then aes st.b else st.b)
    (ieee80211_ccmp_phase1 aes hd pn lm).2.2).take IEEE80211_CCMP_MICLEN

/-- CCMP decrypt inverts the CCM body stream: feeding it a frame whose first
segment carries the original header, a CCMP header with packet number `pn`,
and (across the chain) the encrypted body followed by the matching MIC,
yields the original frame with the protected bit cleared, and commits the
replay counter. -/
lemma ccmp_decrypt_roundtrip (aes : List Nat → List Nat) (bufsize sD : Nat)
    (hd body Z : List Nat) (zrest : List (List Nat))
    (k : Ieee80211Key) (pn pktF HL : Nat)
    (hHL : HL = ieee80211_get_hdrlen hd)
    (hl : HL ≤ hd.length)
    (hbody : body.length = pktF - HL) (hHLp : HL ≤ pktF)
    (hfit : pktF + 8 ≤ bufsize) (hsD : 1 ≤ sD)
    (hkid : k.k_id < 4)
    (hpn : pn < 2 ^ 48)
    (hrsc : ccmpRelevantRsc k hd < pn)
    (hZ : Z ++ zrest.flatten =
      (runBytes (ccmpEncByte aes) (ccmpSt0Of aes hd pn (pktF - HL)) body).1 ++
      ccmpMicOf aes hd pn (pktF - HL)
        (runBytes (ccmpEncByte aes) (ccmpSt0Of aes hd pn (pktF - HL)) body).2) :
    ieee80211_ccmp_decrypt aes bufsize sD
        ⟨[hd.take HL ++ ccmpHdrBytes k.k_id pn ++ Z] ++ zrest, pktF + 16⟩ k =
      (some ⟨[(hd.take HL).set 1 ((hd.getD 1 0) &&& 0xbf) ++ body], pktF⟩,
       ccmpCommitRsc k hd pn) := by
  have hge : 24 ≤ ieee80211_get_hdrlen hd := get_hdrlen_ge hd
  set hdr := hd.take HL with hhdr
  have hhdrlen : hdr.length = HL := by
    rw [hhdr, List.length_take]
    omega
  set hdD : List Nat := hdr ++ ccmpHdrBytes k.k_id pn ++ Z with hhdD
  -- the inbound first segment agrees with the original header on its prefix
  have hpre : hdD.take (ieee80211_get_hdrlen hd) = hd.take (ieee80211_get_hdrlen hd) := by
    rw [hhdD, List.append_assoc, ← hHL, ← hhdrlen, List.take_left, hhdr, hhdrlen, hHL]
  have hdlen_eq : ieee80211_get_hdrlen hdD = HL := by
    rw [prefix_get_hdrlen hpre, hHL]
  -- the CCMP header bytes as read back from the first segment
  have hivp : ∀ i, i < 8 → ivpByte hdD HL i = (ccmpHdrBytes k.k_id pn).getD i 0 := by
    intro i hi
    rw [hhdD, ivpByte, List.append_assoc, List.getD_append_right _ _ _ _ (by omega),
      hhdrlen, List.getD_append _ _ _ _ (by simp [ccmpHdrBytes]; omega)]
    congr 1
    omega
  have hlen8 : ((ccmpHdrBytes k.k_id pn) : List Nat).length = 8 := by
    simp [ccmpHdrBytes]
  -- ExtIV is set
  have hextiv : ¬(ivpByte hdD HL 3 &&& IEEE80211_WEP_EXTIV = 0) := by
    rw [hivp 3 (by omega)]
    simp only [ccmpHdrBytes, List.getD_cons_succ, List.getD_cons_zero,
      IEEE80211_WEP_EXTIV]
    interval_cases h : k.k_id <;> decide
  -- the packet number extracted from the header
  have hpnex : ccmpExtractPn hdD HL = pn := by
    simp only [ccmpExtractPn, hivp 0 (by omega), hivp 1 (by omega),
      hivp 4 (by omega), hivp 5 (by omega), hivp 6 (by omega), hivp 7 (by omega)]
    simp only [ccmpHdrBytes, List.getD_cons_zero, List.getD_cons_succ]
    rw [assemble48 pn, Nat.mod_eq_of_lt hpn]
  obtain ⟨sD', rfl⟩ : ∃ s, sD = s + 1 := ⟨sD - 1, by omega⟩
  -- the walk over the encrypted body
  have hout_len : (runBytes (ccmpEncByte aes)
      (ccmpSt0Of aes hd pn (pktF - HL)) body).1.length = pktF - HL := by
    rw [runBytes_length, hbody]
  have hflatD : flatFrom (hdD :: zrest) (HL + IEEE80211_CCMP_HDRLEN) = Z ++ zrest.flatten := by
    simp only [flatFrom]
    have hdl : ((hdr ++ ccmpHdrBytes k.k_id pn) ++ Z).drop (HL + IEEE80211_CCMP_HDRLEN) = Z :=
      List.drop_left' (by simp [List.length_append, hhdrlen, hlen8,
        IEEE80211_CCMP_HDRLEN])
    rw [hhdD, hdl]
  have hcap : (pktF - HL) + ((hd.take HL).set 1 ((hd.getD 1 0) &&& 0xbf)).length = pktF := by
    rw [List.length_set, ← hhdr, hhdrlen]
    omega
  have hmoff : HL + IEEE80211_CCMP_HDRLEN ≤ ((hdD :: zrest).headD []).length := by
    simp only [List.headD_cons]
    rw [hhdD]
    simp only [List.length_append, hhdrlen, hlen8, IEEE80211_CCMP_HDRLEN]
    omega
  have hflatlen : (pktF - HL) ≤ (flatFrom (hdD :: zrest) (HL + IEEE80211_CCMP_HDRLEN)).length := by
    rw [hflatD, hZ, List.length_append, hout_len]
    omega
  obtain ⟨srcA, moffA, hw, hfa, hma⟩ :=
    walk_success (ccmpDecByte aes) sD' (hdD :: zrest) (HL + IEEE80211_CCMP_HDRLEN) (pktF - HL)
      [] ((hd.take HL).set 1 ((hd.getD 1 0) &&& 0xbf)) pktF
      (ccmpSt0Of aes hd pn (pktF - HL)) hmoff hcap hflatlen
  -- the decrypted bytes are the original body, with the encrypt-side state
  have hdecbytes :
      runBytes (ccmpDecByte aes) (ccmpSt0Of aes hd pn (pktF - HL))
        ((flatFrom (hdD :: zrest) (HL + IEEE80211_CCMP_HDRLEN)).take (pktF - HL)) =
      (body, (runBytes (ccmpEncByte aes) (ccmpSt0Of aes hd pn (pktF - HL)) body).2) := by
    rw [hflatD, hZ, List.take_left' hout_len]
    exact ccmp_bytes_roundtrip aes body _
  -- the trailing bytes at the final source position are the MIC
  have hmic0 : iob_copyout srcA moffA IEEE80211_CCMP_MICLEN =
      ccmpMicOf aes hd pn (pktF - HL)
        (runBytes (ccmpEncByte aes) (ccmpSt0Of aes hd pn (pktF - HL)) body).2 := by
    rw [iob_copyout, hfa, hflatD, hZ, List.drop_left' hout_len]
    apply List.take_of_length_le
    rw [ccmpMicOf]
    exact List.length_take_le _ _
  -- now evaluate the staged decrypt
  have hsteq : ccmpSt0 aes (ieee80211_ccmp_phase1 aes hd pn (pktF - HL)).1
      (ieee80211_ccmp_phase1 aes hd pn (pktF - HL)).2.1 =
      ccmpSt0Of aes hd pn (pktF - HL) := rfl
  have hlenck : ¬(pktF + 16 < HL + IEEE80211_CCMP_HDRLEN + IEEE80211_CCMP_MICLEN) := by
    simp only [IEEE80211_CCMP_HDRLEN, IEEE80211_CCMP_MICLEN]
    omega
  have hreplay : ¬(pn ≤ ccmpRelevantRsc k hdD) := by
    rw [prefix_ccmpRelevantRsc k hpre]
    omega
  have hpkt16 : pktF + 16 - (IEEE80211_CCMP_HDRLEN + IEEE80211_CCMP_MICLEN) = pktF := by
    simp only [IEEE80211_CCMP_HDRLEN, IEEE80211_CCMP_MICLEN]
    omega
  have hmin : min bufsize pktF = pktF := Nat.min_eq_right (by omega)
  have hphase : ieee80211_ccmp_phase1 aes hdD pn (pktF - HL) =
      ieee80211_ccmp_phase1 aes hd pn (pktF - HL) :=
    prefix_ccmp_phase1 aes pn (pktF - HL) hpre
  have hgetD1 : hdD.getD 1 0 = hd.getD 1 0 := prefix_getD hpre (by omega)
  have htakeHL : hdD.take HL = hd.take HL := by
    rw [hHL]
    exact hpre
  have hstage : ccmp_dec_stage aes bufsize (sD' + 1) ⟨hdD :: zrest, pktF + 16⟩ k =
      .ready pn [(hd.take HL).set 1 ((hd.getD 1 0) &&& 0xbf) ++ body] pktF
        (ccmpMicOf aes hd pn (pktF - HL)
          (runBytes (ccmpEncByte aes) (ccmpSt0Of aes hd pn (pktF - HL)) body).2)
        (ccmpMicOf aes hd pn (pktF - HL)
          (runBytes (ccmpEncByte aes) (ccmpSt0Of aes hd pn (pktF - HL)) body).2) := by
    simp only [ccmp_dec_stage, List.cons_append, List.nil_append, List.headD_cons,
      hdlen_eq, if_neg hlenck, if_neg hextiv, hpnex, if_neg hreplay, hpkt16, hmin,
      hphase, hgetD1, htakeHL, hsteq, hw, hdecbytes, hmic0, ccmpMicOf]
  simp only [ieee80211_ccmp_decrypt, hstage, List.cons_append, List.nil_append,
    List.headD_cons]
  rw [if_neg (by simp : ¬(ccmpMicOf aes hd pn (pktF - HL)
      (runBytes (ccmpEncByte aes) (ccmpSt0Of aes hd pn (pktF - HL)) body).2 ≠
    ccmpMicOf aes hd pn (pktF - HL)
      (runBytes (ccmpEncByte aes) (ccmpSt0Of aes hd pn (pktF - HL)) body).2))]
  rw [prefix_ccmpCommitRsc k pn hpre]


/-- The CCMP roundtrip: encrypting any well-formed frame that fits in one
output segment, then decrypting the result with the updated key, returns the
frame with the protected bit cleared and commits the replay counter. -/
lemma ccmp_roundtrip (aes : List Nat → List Nat) (bufsize sE sD : Nat)
    (F : IobChain) (k : Ieee80211Key)
    (hl : ieee80211_get_hdrlen (F.segs.headD []) ≤ (F.segs.headD []).length)
    (hsum : F.segs.flatten.length = F.pktlen)
    (hfit : F.pktlen + 8 ≤ bufsize)
    (hsE : 2 ≤ sE) (hsD : 1 ≤ sD)
    (hkid : k.k_id < 4)
    (htsc : k.k_tsc + 1 < 2 ^ 48)
    (hrsc : ccmpRelevantRsc k (F.segs.headD []) < k.k_tsc + 1) :
    ∃ out,
      ieee80211_ccmp_encrypt aes bufsize sE F k =
        (some out, { k with k_tsc := k.k_tsc + 1 }) ∧
      ieee80211_ccmp_decrypt aes bufsize sD out { k with k_tsc := k.k_tsc + 1 } =
        (some ⟨[((F.segs.headD []).take (ieee80211_get_hdrlen (F.segs.headD []))).set 1
                  (((F.segs.headD []).getD 1 0) &&& 0xbf) ++
                flatFrom F.segs (ieee80211_get_hdrlen (F.segs.headD []))],
               F.pktlen⟩,
         ccmpCommitRsc { k with k_tsc := k.k_tsc + 1 } (F.segs.headD [])
           (k.k_tsc + 1)) := by
  obtain ⟨segs, pktlen⟩ := F
  dsimp only at hl hsum hfit hrsc ⊢
  match segs, hl, hsum, hrsc with
  | [], hl, hsum, hrsc =>
    exfalso
    have := get_hdrlen_ge ([] : List Nat)
    simp only [List.headD_nil, List.length_nil] at hl
    omega
  | s0 :: srest, hl, hsum, hrsc =>
    simp only [List.headD_cons] at hl hrsc ⊢
    set hd : List Nat := s0 with hhd
    set HL : Nat := ieee80211_get_hdrlen hd with hHL
    have hge : 24 ≤ HL := get_hdrlen_ge hd
    have hmod : (k.k_tsc + 1) % 2 ^ 64 = k.k_tsc + 1 :=
      Nat.mod_eq_of_lt (lt_trans htsc (by norm_num))
    have hHLp : HL ≤ pktlen := by
      have h1 : hd.length ≤ (hd :: srest).flatten.length := by
        simp only [List.flatten_cons, List.length_append, hhd]
        omega
      simp only [hsum] at h1
      omega
    have hbody : (flatFrom (hd :: srest) HL).length = pktlen - HL := by
      rw [flatFrom_length]
      simp only [List.flatten_cons, List.length_append] at hsum
      omega
    obtain ⟨sE', rfl⟩ : ∃ s, sE = s + 1 := ⟨sE - 1, by omega⟩
    have hsteq : ccmpSt0 aes (ieee80211_ccmp_phase1 aes hd (k.k_tsc + 1)
        (pktlen - HL)).1 (ieee80211_ccmp_phase1 aes hd (k.k_tsc + 1)
        (pktlen - HL)).2.1 = ccmpSt0Of aes hd (k.k_tsc + 1) (pktlen - HL) := rfl
    have hminE : min bufsize (pktlen + IEEE80211_CCMP_HDRLEN) =
        pktlen + IEEE80211_CCMP_HDRLEN := by
      simp only [IEEE80211_CCMP_HDRLEN]
      omega
    have hcap : (pktlen - HL) +
        (hd.take HL ++ ccmpHdrBytes k.k_id (k.k_tsc + 1)).length =
        pktlen + IEEE80211_CCMP_HDRLEN := by
      simp only [List.length_append, List.length_take, ccmpHdrBytes,
        IEEE80211_CCMP_HDRLEN, List.length_cons, List.length_nil]
      omega
    have hflatlen : pktlen - HL ≤ (flatFrom (hd :: srest) HL).length := by omega
    obtain ⟨srcA, moffA, hw, hfa, hma⟩ :=
      walk_success (ccmpEncByte aes) sE' (hd :: srest) HL (pktlen - HL) []
        (hd.take HL ++ ccmpHdrBytes k.k_id (k.k_tsc + 1))
        (pktlen + IEEE80211_CCMP_HDRLEN)
        (ccmpSt0Of aes hd (k.k_tsc + 1) (pktlen - HL)) hl hcap hflatlen
    have htake_all : (flatFrom (hd :: srest) HL).take (pktlen - HL) =
        flatFrom (hd :: srest) HL :=
      List.take_of_length_le (by omega)
    rw [htake_all] at hw
    -- name the encrypted body and the MIC
    set OUT : List Nat := (runBytes (ccmpEncByte aes)
      (ccmpSt0Of aes hd (k.k_tsc + 1) (pktlen - HL))
      (flatFrom (hd :: srest) HL)).1 with hOUT
    set MIC : List Nat := ccmpMicOf aes hd (k.k_tsc + 1) (pktlen - HL)
      (runBytes (ccmpEncByte aes)
        (ccmpSt0Of aes hd (k.k_tsc + 1) (pktlen - HL))
        (flatFrom (hd :: srest) HL)).2 with hMIC
    have hdec := fun Z zrest hZ =>
      ccmp_decrypt_roundtrip aes bufsize sD hd (flatFrom (hd :: srest) HL) Z zrest
        { k with k_tsc := k.k_tsc + 1 } (k.k_tsc + 1) pktlen HL hHL hl hbody hHLp
        hfit hsD hkid htsc hrsc hZ
    simp only [ieee80211_ccmp_encrypt, List.headD_cons, hmod, ← hHL, hminE,
      hsteq, hw]
    by_cases hfree : bufsize - (pktlen + IEEE80211_CCMP_HDRLEN) <
        IEEE80211_CCMP_MICLEN
    · obtain ⟨sE'', rfl⟩ : ∃ s, sE' = s + 1 := ⟨sE' - 1, by omega⟩
      rw [if_pos hfree]
      refine ⟨_, rfl, ?_⟩
      have hout := hdec OUT [MIC] (by simp [hMIC, ccmpMicOf])
      rw [show pktlen + IEEE80211_CCMP_HDRLEN + IEEE80211_CCMP_MICLEN =
            pktlen + 16 by simp [IEEE80211_CCMP_HDRLEN, IEEE80211_CCMP_MICLEN]]
      rw [show ([hd.take HL ++ ccmpHdrBytes k.k_id (k.k_tsc + 1) ++ OUT] ++ [MIC] : List (List Nat)) =
            [(hd.take HL ++ ccmpHdrBytes k.k_id (k.k_tsc + 1)) ++ OUT, MIC] by simp] at hout
      exact hout
    · rw [if_neg hfree]
      refine ⟨_, rfl, ?_⟩
      have hout := hdec (OUT ++ MIC) [] (by simp)
      rw [show pktlen + IEEE80211_CCMP_HDRLEN + IEEE80211_CCMP_MICLEN =
            pktlen + 16 by simp [IEEE80211_CCMP_HDRLEN, IEEE80211_CCMP_MICLEN]]
      rw [show ([hd.take HL ++ ccmpHdrBytes k.k_id (k.k_tsc + 1) ++ (OUT ++ MIC)] ++ [] : List (List Nat)) =
            [(hd.take HL ++ ccmpHdrBytes k.k_id (k.k_tsc + 1)) ++ OUT ++ MIC] by simp] at hout
      exact hout


/-! ### Effect of clearing the protected bit on header-derived values.

The decrypt paths copy the header into the output frame with
`wh->i_fc[1] &= ~IEEE80211_FC1_PROTECTED`; since the protected bit is
neither a direction bit nor the ORDER bit, every header-derived value used
afterwards is unchanged. -/

lemma maskSet_getD_ne (l : List Nat) (v i : Nat) (h : i ≠ 1) :
    (l.set 1 v).getD i 0 = l.getD i 0 := by
  simp [List.getD_eq_getElem?_getD, List.getElem?_set_ne (by omega : (1 : Nat) ≠ i)]

lemma maskSet_getD1 (l : List Nat) (v : Nat) (h : 1 < l.length) :
    (l.set 1 v).getD 1 0 = v := by
  simp [List.getD_eq_getElem?_getD, List.getElem?_set_self, h]

lemma maskSet_drop (l : List Nat) (v n : Nat) (h : 1 < n) :
    (l.set 1 v).drop n = l.drop n := by
  rw [List.drop_set]
  simp [h]

lemma mask_has_qos (l : List Nat) :
    ieee80211_has_qos (l.set 1 ((l.getD 1 0) &&& 0xbf)) = ieee80211_has_qos l := by
  simp only [ieee80211_has_qos, maskSet_getD_ne l _ 0 (by omega)]

lemma mask_has_addr4 (l : List Nat) (h : 1 < l.length) :
    ieee80211_has_addr4 (l.set 1 ((l.getD 1 0) &&& 0xbf)) =
      ieee80211_has_addr4 l := by
  simp only [ieee80211_has_addr4, maskSet_getD1 l _ h, IEEE80211_FC1_DIR_MASK]
  rw [Nat.and_assoc, show ((191 : Nat) &&& 3) = 3 from by decide]

lemma mask_has_htc (l : List Nat) (h : 1 < l.length) :
    ieee80211_has_htc (l.set 1 ((l.getD 1 0) &&& 0xbf)) =
      ieee80211_has_htc l := by
  simp only [ieee80211_has_htc, maskSet_getD1 l _ h,
    maskSet_getD_ne l _ 0 (by omega), mask_has_qos l, IEEE80211_FC1_ORDER]
  rw [Nat.and_assoc, show ((191 : Nat) &&& 128) = 128 from by decide]

lemma mask_get_qos (l : List Nat) (h : 1 < l.length) :
    ieee80211_get_qos (l.set 1 ((l.getD 1 0) &&& 0xbf)) = ieee80211_get_qos l := by
  simp only [ieee80211_get_qos, mask_has_addr4 l h]
  by_cases ha : ieee80211_has_addr4 l = true
  · simp only [ha, if_true, maskSet_getD_ne l _ 30 (by omega),
      maskSet_getD_ne l _ 31 (by omega)]
  · rw [Bool.not_eq_true] at ha
    simp only [ha, Bool.false_eq_true, if_false,
      maskSet_getD_ne l _ 24 (by omega), maskSet_getD_ne l _ 25 (by omega)]

lemma mask_get_hdrlen (l : List Nat) (h : 1 < l.length) :
    ieee80211_get_hdrlen (l.set 1 ((l.getD 1 0) &&& 0xbf)) =
      ieee80211_get_hdrlen l := by
  simp only [ieee80211_get_hdrlen, mask_has_qos l, mask_has_addr4 l h,
    mask_has_htc l h]

lemma mask_addr2 (l : List Nat) : addr2 (l.set 1 ((l.getD 1 0) &&& 0xbf)) = addr2 l := by
  simp only [addr2, maskSet_drop l _ 10 (by omega)]

lemma mask_tkipPseudoHdr (l : List Nat) (h : 1 < l.length) :
    tkipPseudoHdr (l.set 1 ((l.getD 1 0) &&& 0xbf)) = tkipPseudoHdr l := by
  have hdir : (l.set 1 ((l.getD 1 0) &&& 0xbf)).getD 1 0 &&& IEEE80211_FC1_DIR_MASK =
      l.getD 1 0 &&& IEEE80211_FC1_DIR_MASK := by
    rw [maskSet_getD1 l _ h, IEEE80211_FC1_DIR_MASK, Nat.and_assoc,
      show ((191 : Nat) &&& 3) = 3 from by decide]
  simp only [tkipPseudoHdr, hdir, addr1, addr3, addr4,
    maskSet_drop l _ 4 (by omega), maskSet_drop l _ 16 (by omega),
    maskSet_drop l _ 24 (by omega), mask_addr2 l, mask_has_qos l, mask_get_qos l h]

/-- The running `uint32_t` CRC stays below 2^32. -/
lemma crcUpdate_lt (crcB : Nat → Nat → Nat) (xs : List Nat) :
    ∀ c, c < 2 ^ 32 → crcUpdate crcB c xs < 2 ^ 32 := by
  induction xs with
  | nil => intro c hc; exact hc
  | cons x xs ih =>
    intro c hc
    exact ih _ (Nat.mod_lt _ (by norm_num))

lemma crcUpdate_cons (crcB : Nat → Nat → Nat) (c x : Nat) (xs : List Nat) :
    crcUpdate crcB c (x :: xs) = crcUpdate crcB (crcB c x % 2 ^ 32) xs := rfl


/-! ### The TKIP roundtrip. -/

lemma setv_addr2 (l : List Nat) (v : Nat) : addr2 (l.set 1 v) = addr2 l := by
  simp only [addr2, maskSet_drop l v 10 (by omega)]

/-- Abbreviation for roundtrip statements: the RC4 keystream both sides of a
TKIP exchange derive from the temporal key, the transmitter address of
header `hd` and the 48-bit counter `tsc`, when the Phase1 cache is
recomputed. -/
def tkipStreamOf (oc : TkipOracles) (key hd : List Nat) (tsc : Nat) :
    Nat → Nat :=
  oc.rc4s (Phase2 key (Phase1 key (addr2 hd) (tsc >>> 16)) (tsc &&& 0xffff))

/-- Abbreviation for roundtrip statements: the Michael MIC octets over the
clear frame. -/
def tkipMicBytes (oc : TkipOracles) (mkey hd body : List Nat) : List Nat :=
  le64Bytes (oc.michael mkey (tkipPseudoHdr hd ++ body))

/-- Abbreviation for roundtrip statements: the WEP ICV octets over the clear
body and MIC. -/
def tkipIcvBytes (oc : TkipOracles) (body mic : List Nat) : List Nat :=
  [(crcUpdate oc.crcB (crcUpdate oc.crcB 0xffffffff body) mic ^^^ 0xffffffff) % 256,
   ((crcUpdate oc.crcB (crcUpdate oc.crcB 0xffffffff body) mic ^^^ 0xffffffff) >>> 8) % 256,
   ((crcUpdate oc.crcB (crcUpdate oc.crcB 0xffffffff body) mic ^^^ 0xffffffff) >>> 16) % 256,
   ((crcUpdate oc.crcB (crcUpdate oc.crcB 0xffffffff body) mic ^^^ 0xffffffff) >>> 24) % 256]

/-- TKIP decrypt inverts the RC4 stream and accepts when the trailer carries
the Michael MIC keyed with the decryptor's receive sub-key: the result is
the original frame with the protected bit cleared, the committed replay
counter, and a validated TTAK cache. -/
lemma tkip_decrypt_roundtrip (oc : TkipOracles) (bufsize sD : Nat)
    (hd body Z : List Nat) (zrest : List (List Nat))
    (k : Ieee80211Key) (ctx : TkipCtx) (tsc pktF HL : Nat)
    (hHL : HL = ieee80211_get_hdrlen hd)
    (hl : HL ≤ hd.length)
    (hbody : body.length = pktF - HL) (hHLp : HL ≤ pktF)
    (hfit : pktF + 8 ≤ bufsize) (hsD : 1 ≤ sD)
    (hkid : k.k_id < 4)
    (htsc : tsc < 2 ^ 48)
    (hrsc : k.k_rsc.getD
      (if ieee80211_has_qos hd then ieee80211_get_qos hd &&& IEEE80211_QOS_TID
       else 0) 0 < tsc)
    (hctx : ctx.rxttak_ok = false)
    (hZ : Z ++ zrest.flatten =
      rc4XorFrom (tkipStreamOf oc k.k_key hd tsc) 0 body ++
      rc4XorFrom (tkipStreamOf oc k.k_key hd tsc) body.length
        (tkipMicBytes oc ctx.rxmic hd body) ++
      rc4XorFrom (tkipStreamOf oc k.k_key hd tsc) (body.length + 8)
        (tkipIcvBytes oc body (tkipMicBytes oc ctx.rxmic hd body))) :
    ieee80211_tkip_decrypt oc bufsize sD
        ⟨(hd.take HL ++ tkipHdrBytes k.k_id tsc ++ Z) :: zrest, pktF + 20⟩ k ctx =
      (some ⟨[(hd.take HL).set 1 ((hd.getD 1 0) &&& 0xbf) ++ body], pktF⟩,
       { k with k_rsc := (k.k_rsc.set
          (if ieee80211_has_qos hd then ieee80211_get_qos hd &&& IEEE80211_QOS_TID
           else 0) tsc) },
       { ctx with rxttak := Phase1 k.k_key (addr2 hd) (tsc >>> 16),
                  rxttak_ok := true },
       none) := by
  have hge : 24 ≤ ieee80211_get_hdrlen hd := get_hdrlen_ge hd
  set hdr := hd.take HL with hhdr
  have hhdrlen : hdr.length = HL := by
    rw [hhdr, List.length_take]
    omega
  set hdD : List Nat := hdr ++ tkipHdrBytes k.k_id tsc ++ Z with hhdD
  have hpre : hdD.take (ieee80211_get_hdrlen hd) = hd.take (ieee80211_get_hdrlen hd) := by
    rw [hhdD, List.append_assoc, ← hHL, ← hhdrlen, List.take_left, hhdr, hhdrlen, hHL]
  have hdlen_eq : ieee80211_get_hdrlen hdD = HL := by
    rw [prefix_get_hdrlen hpre, hHL]
  have hlen8 : ((tkipHdrBytes k.k_id tsc) : List Nat).length = 8 := by
    simp [tkipHdrBytes]
  have hivp : ∀ i, i < 8 → ivpByte hdD HL i = (tkipHdrBytes k.k_id tsc).getD i 0 := by
    intro i hi
    rw [hhdD, ivpByte, List.append_assoc, List.getD_append_right _ _ _ _ (by omega),
      hhdrlen, List.getD_append _ _ _ _ (by rw [hlen8]; omega)]
    congr 1
    omega
  have hextiv : ¬(ivpByte hdD HL 3 &&& IEEE80211_WEP_EXTIV = 0) := by
    rw [hivp 3 (by omega)]
    simp only [tkipHdrBytes, List.getD_cons_succ, List.getD_cons_zero,
      IEEE80211_WEP_EXTIV]
    interval_cases h : k.k_id <;> decide
  have htscex : tkipExtractTsc hdD HL = tsc := by
    simp only [tkipExtractTsc, hivp 0 (by omega), hivp 2 (by omega),
      hivp 4 (by omega), hivp 5 (by omega), hivp 6 (by omega), hivp 7 (by omega)]
    simp only [tkipHdrBytes, List.getD_cons_zero, List.getD_cons_succ]
    rw [assemble48 tsc, Nat.mod_eq_of_lt htsc]
  obtain ⟨sD', rfl⟩ : ∃ s, sD = s + 1 := ⟨sD - 1, by omega⟩
  -- the stream and the tid
  have hgetD1 : hdD.getD 1 0 = hd.getD 1 0 := prefix_getD hpre (by omega)
  have htakeHL : hdD.take HL = hd.take HL := by
    rw [hHL]
    exact hpre
  have htid : (if ieee80211_has_qos hdD then ieee80211_get_qos hdD &&& IEEE80211_QOS_TID
      else 0) = (if ieee80211_has_qos hd then ieee80211_get_qos hd &&& IEEE80211_QOS_TID
      else 0) := prefix_tid hpre
  -- addr2 of the protected-bit-cleared header copy
  have htake1 : (hd.take HL).getD 1 0 = hd.getD 1 0 := getD_take_lt hd HL 1 (by omega)
  have haddr2 : addr2 ((hd.take HL).set 1 ((hd.getD 1 0) &&& 0xbf)) = addr2 hd := by
    rw [setv_addr2]
    have hp : (hd.take HL).take (ieee80211_get_hdrlen hd) = hd.take (ieee80211_get_hdrlen hd) := by
      rw [← hHL, List.take_take, Nat.min_self]
    exact (prefix_addr123 hp).2.1
  set stream : Nat → Nat := tkipStreamOf oc k.k_key hd tsc with hstream
  have hstreameq : oc.rc4s (Phase2 k.k_key
      (Phase1 k.k_key (addr2 ((hd.take HL).set 1 ((hd.getD 1 0) &&& 0xbf))) (tsc >>> 16))
      (tsc &&& 0xffff)) = stream := by
    rw [haddr2, hstream, tkipStreamOf]
  -- walk facts
  set MICb : List Nat := tkipMicBytes oc ctx.rxmic hd body with hMICb
  set ICVb : List Nat := tkipIcvBytes oc body MICb with hICVb
  have hmicblen : MICb.length = 8 := by
    rw [hMICb, tkipMicBytes, le64Bytes]
    rfl
  have hicvlen : ICVb.length = 4 := by
    rw [hICVb, tkipIcvBytes]
    rfl
  have hflatD : flatFrom (hdD :: zrest) (HL + IEEE80211_TKIP_HDRLEN) = Z ++ zrest.flatten := by
    simp only [flatFrom]
    have hdl : ((hdr ++ tkipHdrBytes k.k_id tsc) ++ Z).drop (HL + IEEE80211_TKIP_HDRLEN) = Z :=
      List.drop_left' (by simp [List.length_append, hhdrlen, hlen8,
        IEEE80211_TKIP_HDRLEN])
    rw [hhdD, hdl]
  have henc_body : rc4XorFrom stream 0 body =
      (runBytes (tkipEncByte oc.crcB stream) ⟨0, 0xffffffff⟩ body).1 := by
    rw [runBytes_tkipEnc]
  have hflat_take : (flatFrom (hdD :: zrest) (HL + IEEE80211_TKIP_HDRLEN)).take (pktF - HL) =
      (runBytes (tkipEncByte oc.crcB stream) ⟨0, 0xffffffff⟩ body).1 := by
    rw [hflatD, hZ, List.append_assoc, ← henc_body,
      List.take_left' (by rw [rc4XorFrom_length]; omega)]
  have hflat_drop : (flatFrom (hdD :: zrest) (HL + IEEE80211_TKIP_HDRLEN)).drop (pktF - HL) =
      rc4XorFrom stream body.length MICb ++
        rc4XorFrom stream (body.length + 8) ICVb := by
    rw [hflatD, hZ, List.append_assoc,
      List.drop_left' (by rw [rc4XorFrom_length]; omega)]
  have hcap : (pktF - HL) + ((hd.take HL).set 1 ((hd.getD 1 0) &&& 0xbf)).length = pktF := by
    rw [List.length_set, ← hhdr, hhdrlen]
    omega
  have hmoff : HL + IEEE80211_TKIP_HDRLEN ≤ ((hdD :: zrest).headD []).length := by
    simp only [List.headD_cons]
    rw [hhdD]
    simp only [List.length_append, hhdrlen, hlen8, IEEE80211_TKIP_HDRLEN]
    omega
  have hflatlen : (pktF - HL) ≤ (flatFrom (hdD :: zrest) (HL + IEEE80211_TKIP_HDRLEN)).length := by
    rw [hflatD, hZ]
    simp only [List.length_append, rc4XorFrom_length]
    omega
  obtain ⟨srcA, moffA, hw, hfa, hma⟩ :=
    walk_success (tkipDecByte oc.crcB stream) sD' (hdD :: zrest)
      (HL + IEEE80211_TKIP_HDRLEN) (pktF - HL) []
      ((hd.take HL).set 1 ((hd.getD 1 0) &&& 0xbf)) pktF ⟨0, 0xffffffff⟩
      hmoff hcap hflatlen
  -- the decrypted body and the final loop state
  have hdecbytes : runBytes (tkipDecByte oc.crcB stream) ⟨0, 0xffffffff⟩
      ((flatFrom (hdD :: zrest) (HL + IEEE80211_TKIP_HDRLEN)).take (pktF - HL)) =
      (body, ⟨body.length, crcUpdate oc.crcB 0xffffffff body⟩) := by
    rw [hflat_take, tkip_bytes_roundtrip, runBytes_tkipEnc]
    simp
  -- the decrypted trailer
  have htail : rc4XorFrom stream body.length
      (iob_copyout srcA moffA IEEE80211_TKIP_TAILLEN) = MICb ++ ICVb := by
    rw [iob_copyout, hfa, hflat_drop]
    have hlen12 : (rc4XorFrom stream body.length MICb ++
        rc4XorFrom stream (body.length + 8) ICVb).length = 12 := by
      simp only [List.length_append, rc4XorFrom_length, hmicblen, hicvlen]
    rw [List.take_of_length_le (by rw [hlen12]; decide)]
    rw [← hmicblen, ← rc4XorFrom_length stream MICb body.length, rc4XorFrom_append,
      rc4XorFrom_length, rc4XorFrom_involutive, hmicblen, rc4XorFrom_involutive]
  -- trailer components
  have hmic0take : (MICb ++ ICVb).take IEEE80211_TKIP_MICLEN = MICb :=
    List.take_left' (by rw [hmicblen]; exact rfl)
  have hdroptake : (MICb ++ ICVb).drop IEEE80211_TKIP_MICLEN = ICVb :=
    List.drop_left' (by rw [hmicblen]; exact rfl)
  have hxlt : crcUpdate oc.crcB (crcUpdate oc.crcB 0xffffffff body) MICb ^^^ 0xffffffff < 2 ^ 32 :=
    Nat.xor_lt_two_pow
      (crcUpdate_lt oc.crcB MICb (crcUpdate oc.crcB 0xffffffff body)
        (crcUpdate_lt oc.crcB body 0xffffffff (by norm_num)))
      (by norm_num)
  have hletoh : letoh32 ICVb =
      crcUpdate oc.crcB (crcUpdate oc.crcB 0xffffffff body) MICb ^^^ 0xffffffff := by
    rw [hICVb, tkipIcvBytes]
    simp only [letoh32, List.getD_cons_zero, List.getD_cons_succ]
    rw [assemble32, Nat.mod_eq_of_lt hxlt]
  -- the Michael message of the output frame is that of the original frame
  have hhdr9len : ((hd.take HL).set 1 ((hd.getD 1 0) &&& 0xbf)).length = HL := by
    rw [List.length_set, List.length_take]
    omega
  have hlen1 : 1 < (hd.take HL).length := by
    rw [List.length_take]
    omega
  have hp2 : (hd.take HL).take (ieee80211_get_hdrlen hd) = hd.take (ieee80211_get_hdrlen hd) := by
    rw [← hHL, List.take_take, Nat.min_self]
  have hmaskhdrlen : ieee80211_get_hdrlen ((hd.take HL).set 1 ((hd.getD 1 0) &&& 0xbf)) = HL := by
    rw [← htake1, mask_get_hdrlen (hd.take HL) hlen1, prefix_get_hdrlen hp2, ← hHL]
  have hphd : tkipPseudoHdr ((hd.take HL).set 1 ((hd.getD 1 0) &&& 0xbf) ++ body) =
      tkipPseudoHdr hd := by
    have hpA : ((hd.take HL).set 1 ((hd.getD 1 0) &&& 0xbf) ++ body).take
        (ieee80211_get_hdrlen ((hd.take HL).set 1 ((hd.getD 1 0) &&& 0xbf))) =
        ((hd.take HL).set 1 ((hd.getD 1 0) &&& 0xbf)).take
        (ieee80211_get_hdrlen ((hd.take HL).set 1 ((hd.getD 1 0) &&& 0xbf))) := by
      rw [hmaskhdrlen, List.take_left' hhdr9len, List.take_of_length_le (le_of_eq hhdr9len)]
    rw [prefix_tkipPseudoHdr hpA, ← htake1, mask_tkipPseudoHdr (hd.take HL) hlen1,
      prefix_tkipPseudoHdr hp2]
  have hmiceq : ieee80211_tkip_mic oc.michael
      ⟨[(hd.take HL).set 1 ((hd.getD 1 0) &&& 0xbf) ++ body], pktF⟩ HL ctx.rxmic = MICb := by
    simp only [ieee80211_tkip_mic, List.headD_cons, flatFrom]
    rw [List.drop_left' hhdr9len, List.flatten_nil, List.append_nil, hphd, hMICb, tkipMicBytes]
  -- evaluate the staged decrypt
  have hlenck : ¬(pktF + 20 < HL + IEEE80211_TKIP_OVHD) := by
    simp only [IEEE80211_TKIP_OVHD, IEEE80211_TKIP_HDRLEN, IEEE80211_TKIP_TAILLEN,
      IEEE80211_TKIP_MICLEN, IEEE80211_WEP_CRCLEN]
    omega
  have hreplay : ¬(tsc ≤ k.k_rsc.getD
      (if ieee80211_has_qos hd then ieee80211_get_qos hd &&& IEEE80211_QOS_TID
       else 0) 0) := by omega
  have hpkt20 : pktF + 20 - IEEE80211_TKIP_OVHD = pktF := by
    simp only [IEEE80211_TKIP_OVHD, IEEE80211_TKIP_HDRLEN, IEEE80211_TKIP_TAILLEN,
      IEEE80211_TKIP_MICLEN, IEEE80211_WEP_CRCLEN]
    omega
  have hmin : min bufsize pktF = pktF := Nat.min_eq_right (by omega)
  have hstreameq2 : oc.rc4s (Phase2 k.k_key
      (Phase1 k.k_key (addr2 hd) (tsc >>> 16)) (tsc &&& 0xffff)) = stream := by
    rw [hstream, tkipStreamOf]
  have hstage : tkip_dec_stage oc bufsize (sD' + 1) ⟨hdD :: zrest, pktF + 20⟩ k ctx =
      .ready (if ieee80211_has_qos hd then ieee80211_get_qos hd &&& IEEE80211_QOS_TID
          else 0) tsc
        [(hd.take HL).set 1 ((hd.getD 1 0) &&& 0xbf) ++ body] pktF
        (crcUpdate oc.crcB (crcUpdate oc.crcB 0xffffffff body) MICb ^^^ 0xffffffff)
        (crcUpdate oc.crcB (crcUpdate oc.crcB 0xffffffff body) MICb ^^^ 0xffffffff)
        MICb MICb
        { ctx with rxttak_ok := false,
                   rxttak := Phase1 k.k_key (addr2 hd) (tsc >>> 16) } := by
    simp only [tkip_dec_stage, List.headD_cons, hdlen_eq, if_neg hlenck, if_neg hextiv,
      htid, htscex, if_neg hreplay, hctx, Bool.false_eq_true, not_false_eq_true,
      true_or, if_true, hpkt20, hmin, hgetD1, htakeHL, haddr2, hstreameq, hstreameq2,
      hw, hdecbytes, htail, hmic0take, hdroptake, hletoh, List.nil_append, hmiceq]
  simp only [ieee80211_tkip_decrypt, hstage]
  rw [if_neg (by simp :
    ¬(crcUpdate oc.crcB (crcUpdate oc.crcB 0xffffffff body) MICb ^^^ 0xffffffff ≠
      crcUpdate oc.crcB (crcUpdate oc.crcB 0xffffffff body) MICb ^^^ 0xffffffff))]
  rw [if_neg (by simp : ¬(MICb ≠ MICb))]


/-- The TKIP roundtrip: encrypting a well-formed frame whose transmit TTAK
cache is invalid, then decrypting the result with the updated key and a
context whose receive Michael sub-key equals the encryptor's transmit
sub-key, returns the frame with the protected bit cleared. -/
lemma tkip_roundtrip (oc : TkipOracles) (bufsize sE sD : Nat)
    (F : IobChain) (k : Ieee80211Key) (ctxE ctxD : TkipCtx)
    (hl : ieee80211_get_hdrlen (F.segs.headD []) ≤ (F.segs.headD []).length)
    (hsum : F.segs.flatten.length = F.pktlen)
    (hfit : F.pktlen + 8 ≤ bufsize)
    (hsE : 2 ≤ sE) (hsD : 1 ≤ sD)
    (hkid : k.k_id < 4)
    (htsc : k.k_tsc + 1 < 2 ^ 48)
    (hrsc : k.k_rsc.getD
      (if ieee80211_has_qos (F.segs.headD []) then
        ieee80211_get_qos (F.segs.headD []) &&& IEEE80211_QOS_TID else 0) 0 <
      k.k_tsc + 1)
    (hctxe : ctxE.txttak_ok = false) (hctxd : ctxD.rxttak_ok = false)
    (hmick : ctxD.rxmic = ctxE.txmic) :
    ∃ out ctxE2,
      ieee80211_tkip_encrypt oc bufsize sE F k ctxE =
        (some out, { k with k_tsc := k.k_tsc + 1 }, ctxE2) ∧
      ieee80211_tkip_decrypt oc bufsize sD out { k with k_tsc := k.k_tsc + 1 } ctxD =
        (some ⟨[((F.segs.headD []).take (ieee80211_get_hdrlen (F.segs.headD []))).set 1
                  (((F.segs.headD []).getD 1 0) &&& 0xbf) ++
                flatFrom F.segs (ieee80211_get_hdrlen (F.segs.headD []))],
               F.pktlen⟩,
         { k with k_tsc := k.k_tsc + 1,
                  k_rsc := (k.k_rsc.set
                    (if ieee80211_has_qos (F.segs.headD []) then
                      ieee80211_get_qos (F.segs.headD []) &&& IEEE80211_QOS_TID else 0)
                    (k.k_tsc + 1)) },
         { ctxD with rxttak := Phase1 k.k_key (addr2 (F.segs.headD []))
                       ((k.k_tsc + 1) >>> 16),
                     rxttak_ok := true },
         none) := by
  obtain ⟨segs, pktlen⟩ := F
  dsimp only at hl hsum hfit hrsc ⊢
  match segs, hl, hsum, hrsc with
  | [], hl, hsum, hrsc =>
    exfalso
    have := get_hdrlen_ge ([] : List Nat)
    simp only [List.headD_nil, List.length_nil] at hl
    omega
  | s0 :: srest, hl, hsum, hrsc =>
    simp only [List.headD_cons] at hl hrsc ⊢
    set hd : List Nat := s0 with hhd
    set HL : Nat := ieee80211_get_hdrlen hd with hHL
    have hge : 24 ≤ HL := get_hdrlen_ge hd
    have hmod : (k.k_tsc + 1) % 2 ^ 64 = k.k_tsc + 1 :=
      Nat.mod_eq_of_lt (lt_trans htsc (by norm_num))
    have hHLp : HL ≤ pktlen := by
      have h1 : hd.length ≤ (hd :: srest).flatten.length := by
        simp only [List.flatten_cons, List.length_append, hhd]
        omega
      simp only [hsum] at h1
      omega
    have hbody : (flatFrom (hd :: srest) HL).length = pktlen - HL := by
      rw [flatFrom_length]
      simp only [List.flatten_cons, List.length_append] at hsum
      omega
    obtain ⟨sE', rfl⟩ : ∃ s, sE = s + 1 := ⟨sE - 1, by omega⟩
    set streamE : Nat → Nat := tkipStreamOf oc k.k_key hd (k.k_tsc + 1) with hstreamE
    have hstreameqE : oc.rc4s (Phase2 k.k_key
        (Phase1 k.k_key (addr2 hd) ((k.k_tsc + 1) >>> 16))
        ((k.k_tsc + 1) &&& 0xffff)) = streamE := by
      rw [hstreamE, tkipStreamOf]
    have hminE : min bufsize (pktlen + IEEE80211_TKIP_HDRLEN) =
        pktlen + IEEE80211_TKIP_HDRLEN := by
      simp only [IEEE80211_TKIP_HDRLEN]
      omega
    have hcap : (pktlen - HL) +
        (hd.take HL ++ tkipHdrBytes k.k_id (k.k_tsc + 1)).length =
        pktlen + IEEE80211_TKIP_HDRLEN := by
      simp only [List.length_append, List.length_take, tkipHdrBytes,
        IEEE80211_TKIP_HDRLEN, List.length_cons, List.length_nil]
      omega
    have hflatlen : pktlen - HL ≤ (flatFrom (hd :: srest) HL).length := by omega
    obtain ⟨srcA, moffA, hw, hfa, hma⟩ :=
      walk_success (tkipEncByte oc.crcB streamE) sE' (hd :: srest) HL (pktlen - HL) []
        (hd.take HL ++ tkipHdrBytes k.k_id (k.k_tsc + 1))
        (pktlen + IEEE80211_TKIP_HDRLEN) ⟨0, 0xffffffff⟩ hl hcap hflatlen
    have htake_all : (flatFrom (hd :: srest) HL).take (pktlen - HL) =
        flatFrom (hd :: srest) HL :=
      List.take_of_length_le (by omega)
    rw [htake_all] at hw
    have hrun : runBytes (tkipEncByte oc.crcB streamE) ⟨0, 0xffffffff⟩
        (flatFrom (hd :: srest) HL) =
        (rc4XorFrom streamE 0 (flatFrom (hd :: srest) HL),
         ⟨(flatFrom (hd :: srest) HL).length,
          crcUpdate oc.crcB 0xffffffff (flatFrom (hd :: srest) HL)⟩) := by
      rw [runBytes_tkipEnc]
      simp
    rw [hrun] at hw
    set BODY : List Nat := flatFrom (hd :: srest) HL with hBODY
    set MICb : List Nat := tkipMicBytes oc ctxE.txmic hd BODY with hMICb
    have hmiceqE : ieee80211_tkip_mic oc.michael ⟨hd :: srest, pktlen⟩ HL
        ctxE.txmic = MICb := by
      simp only [ieee80211_tkip_mic, List.headD_cons]
      rw [← hBODY, hMICb, tkipMicBytes]
    have hicvfold :
        [(crcUpdate oc.crcB (crcUpdate oc.crcB 0xffffffff BODY) MICb ^^^ 0xffffffff) % 256,
         ((crcUpdate oc.crcB (crcUpdate oc.crcB 0xffffffff BODY) MICb ^^^ 0xffffffff) >>> 8) % 256,
         ((crcUpdate oc.crcB (crcUpdate oc.crcB 0xffffffff BODY) MICb ^^^ 0xffffffff) >>> 16) % 256,
         ((crcUpdate oc.crcB (crcUpdate oc.crcB 0xffffffff BODY) MICb ^^^ 0xffffffff) >>> 24) % 256] =
        tkipIcvBytes oc BODY MICb := by
      rw [tkipIcvBytes]
    have hmicpos : BODY.length + IEEE80211_TKIP_MICLEN = BODY.length + 8 := rfl
    have hstreamproj : tkipStreamOf oc
        ({ k with k_tsc := k.k_tsc + 1 } : Ieee80211Key).k_key hd (k.k_tsc + 1) =
        streamE := by
      rw [hstreamE]
    have hmicD : tkipMicBytes oc ctxD.rxmic hd BODY = MICb := by
      rw [hmick, hMICb]
    have hdec := fun Z zrest hZ =>
      tkip_decrypt_roundtrip oc bufsize sD hd BODY Z zrest
        { k with k_tsc := k.k_tsc + 1 } ctxD (k.k_tsc + 1) pktlen HL hHL hl hbody
        hHLp hfit hsD hkid htsc hrsc hctxd hZ
    simp only [ieee80211_tkip_encrypt, List.headD_cons, hmod, ← hHL, hminE, hctxe,
      Bool.false_eq_true, not_false_eq_true, true_or, if_true, hstreameqE, hw,
      hmiceqE, hicvfold, hmicpos, List.nil_append]
    by_cases hfree : bufsize - (pktlen + IEEE80211_TKIP_HDRLEN) <
        IEEE80211_TKIP_TAILLEN
    · obtain ⟨sE2, rfl⟩ : ∃ s, sE' = s + 1 := ⟨sE' - 1, by omega⟩
      rw [if_pos hfree]
      refine ⟨_, _, rfl, ?_⟩
      have hout := hdec (rc4XorFrom streamE 0 BODY)
        [rc4XorFrom streamE BODY.length MICb ++
          rc4XorFrom streamE (BODY.length + 8) (tkipIcvBytes oc BODY MICb)]
        (by simp only [hstreamproj, hmicD, List.flatten_cons, List.flatten_nil,
              List.append_nil, List.append_assoc])
      rw [show pktlen + IEEE80211_TKIP_HDRLEN + IEEE80211_TKIP_TAILLEN =
            pktlen + 20 by simp [IEEE80211_TKIP_HDRLEN, IEEE80211_TKIP_TAILLEN,
              IEEE80211_TKIP_MICLEN, IEEE80211_WEP_CRCLEN]]
      rw [show ((hd.take HL ++ tkipHdrBytes k.k_id (k.k_tsc + 1) ++
              rc4XorFrom streamE 0 BODY) ::
            [rc4XorFrom streamE BODY.length MICb ++
              rc4XorFrom streamE (BODY.length + 8) (tkipIcvBytes oc BODY MICb)] :
            List (List Nat)) =
          [(hd.take HL ++ tkipHdrBytes k.k_id (k.k_tsc + 1)) ++ rc4XorFrom streamE 0 BODY,
           rc4XorFrom streamE BODY.length MICb ++
             rc4XorFrom streamE (BODY.length + 8) (tkipIcvBytes oc BODY MICb)]
          by simp] at hout
      exact hout
    · rw [if_neg hfree]
      refine ⟨_, _, rfl, ?_⟩
      have hout := hdec (rc4XorFrom streamE 0 BODY ++
          (rc4XorFrom streamE BODY.length MICb ++
            rc4XorFrom streamE (BODY.length + 8) (tkipIcvBytes oc BODY MICb))) []
        (by simp only [hstreamproj, hmicD, List.flatten_nil, List.append_nil,
              List.append_assoc])
      rw [show pktlen + IEEE80211_TKIP_HDRLEN + IEEE80211_TKIP_TAILLEN =
            pktlen + 20 by simp [IEEE80211_TKIP_HDRLEN, IEEE80211_TKIP_TAILLEN,
              IEEE80211_TKIP_MICLEN, IEEE80211_WEP_CRCLEN]]
      rw [show ((hd.take HL ++ tkipHdrBytes k.k_id (k.k_tsc + 1) ++
              (rc4XorFrom streamE 0 BODY ++
                (rc4XorFrom streamE BODY.length MICb ++
                  rc4XorFrom streamE (BODY.length + 8) (tkipIcvBytes oc BODY MICb)))) ::
            [] : List (List Nat)) =
          [(hd.take HL ++ tkipHdrBytes k.k_id (k.k_tsc + 1)) ++ rc4XorFrom streamE 0 BODY ++
            (rc4XorFrom streamE BODY.length MICb ++
              rc4XorFrom streamE (BODY.length + 8) (tkipIcvBytes oc BODY MICb))]
          by simp] at hout
      exact hout


/-! ### Encrypt failure on oversize frames (the stale zero-length clamp). -/

/-- When the output exceeds the first segment's capacity, the CCMP encrypt
extension loop makes no progress (each new segment keeps `io_len = 0`) and
the call fails for every allocator supply. -/
lemma ccmp_encrypt_nospace (aes : List Nat → List Nat) (bufsize supply : Nat)
    (F : IobChain) (k : Ieee80211Key)
    (hmoff : ieee80211_get_hdrlen (F.segs.headD []) ≤ (F.segs.headD []).length)
    (hl : 0 < F.pktlen - ieee80211_get_hdrlen (F.segs.headD []))
    (hcur : ieee80211_get_hdrlen (F.segs.headD []) + 8 ≤
      min bufsize (F.pktlen + IEEE80211_CCMP_HDRLEN))
    (hdef : min bufsize (F.pktlen + IEEE80211_CCMP_HDRLEN) <
      (F.pktlen - ieee80211_get_hdrlen (F.segs.headD [])) +
      (ieee80211_get_hdrlen (F.segs.headD []) + 8))
    (hflat : F.pktlen - ieee80211_get_hdrlen (F.segs.headD []) ≤
      (flatFrom F.segs (ieee80211_get_hdrlen (F.segs.headD []))).length) :
    (ieee80211_ccmp_encrypt aes bufsize supply F k).1 = none := by
  match supply with
  | 0 => rfl
  | s + 1 =>
    have hclen : ((F.segs.headD []).take (ieee80211_get_hdrlen (F.segs.headD [])) ++
        ccmpHdrBytes k.k_id ((k.k_tsc + 1) % 2 ^ 64)).length =
        ieee80211_get_hdrlen (F.segs.headD []) + 8 := by
      simp only [List.length_append, List.length_take, ccmpHdrBytes,
        List.length_cons, List.length_nil]
      omega
    simp only [ieee80211_ccmp_encrypt]
    rw [walk_none (ccmpEncByte aes) s F.segs (ieee80211_get_hdrlen (F.segs.headD []))
      (F.pktlen - ieee80211_get_hdrlen (F.segs.headD [])) [] _
      (min bufsize (F.pktlen + IEEE80211_CCMP_HDRLEN)) _
      hl hmoff (by rw [hclen]; exact hcur) (by rw [hclen]; omega) hflat]

/-- The same for the TKIP encrypt extension loop. -/
lemma tkip_encrypt_nospace (oc : TkipOracles) (bufsize supply : Nat)
    (F : IobChain) (k : Ieee80211Key) (ctx : TkipCtx)
    (hmoff : ieee80211_get_hdrlen (F.segs.headD []) ≤ (F.segs.headD []).length)
    (hl : 0 < F.pktlen - ieee80211_get_hdrlen (F.segs.headD []))
    (hcur : ieee80211_get_hdrlen (F.segs.headD []) + 8 ≤
      min bufsize (F.pktlen + IEEE80211_TKIP_HDRLEN))
    (hdef : min bufsize (F.pktlen + IEEE80211_TKIP_HDRLEN) <
      (F.pktlen - ieee80211_get_hdrlen (F.segs.headD [])) +
      (ieee80211_get_hdrlen (F.segs.headD []) + 8))
    (hflat : F.pktlen - ieee80211_get_hdrlen (F.segs.headD []) ≤
      (flatFrom F.segs (ieee80211_get_hdrlen (F.segs.headD []))).length) :
    (ieee80211_tkip_encrypt oc bufsize supply F k ctx).1 = none := by
  match supply with
  | 0 => rfl
  | s + 1 =>
    have hclen : ((F.segs.headD []).take (ieee80211_get_hdrlen (F.segs.headD [])) ++
        tkipHdrBytes k.k_id ((k.k_tsc + 1) % 2 ^ 64)).length =
        ieee80211_get_hdrlen (F.segs.headD []) + 8 := by
      simp only [List.length_append, List.length_take, tkipHdrBytes,
        List.length_cons, List.length_nil]
      omega
    simp only [ieee80211_tkip_encrypt]
    rw [walk_none (tkipEncByte oc.crcB (oc.rc4s (Phase2 k.k_key
        (if ¬ctx.txttak_ok ∨ (k.k_tsc + 1) % 2 ^ 64 &&& 0xffff = 0 then
          { ctx with txttak := (Phase1 k.k_key (addr2 (F.segs.headD []))
              (((k.k_tsc + 1) % 2 ^ 64) >>> 16)), txttak_ok := true }
         else ctx).txttak ((k.k_tsc + 1) % 2 ^ 64 &&& 0xffff)))) s F.segs
      (ieee80211_get_hdrlen (F.segs.headD []))
      (F.pktlen - ieee80211_get_hdrlen (F.segs.headD [])) [] _
      (min bufsize (F.pktlen + IEEE80211_TKIP_HDRLEN)) _
      hl hmoff (by rw [hclen]; exact hcur) (by rw [hclen]; omega) hflat]


/-! ### Inversion of the decrypt stages. -/

/-- A CCMP decrypt that reaches the MIC comparison extracted its packet
number from the header and found it strictly above the relevant receive
counter. -/
lemma ccmp_stage_ready_inv {aes : List Nat → List Nat} {bufsize supply : Nat}
    {m0 : IobChain} {k : Ieee80211Key} {pn : Nat} {outSegs : List (List Nat)}
    {pkt : Nat} {mc mr : List Nat}
    (h : ccmp_dec_stage aes bufsize supply m0 k = .ready pn outSegs pkt mc mr) :
    pn = ccmpExtractPn (m0.segs.headD []) (ieee80211_get_hdrlen (m0.segs.headD [])) ∧
    ccmpRelevantRsc k (m0.segs.headD []) < pn := by
  simp only [ccmp_dec_stage] at h
  split at h
  next => simp at h
  next hlen =>
  split at h
  next => simp at h
  next hextiv =>
  split at h
  next => simp at h
  next hreplay =>
  split at h
  next => simp at h
  next s =>
  split at h
  next => simp at h
  next w hw =>
  injection h with h1 h2 h3 h4 h5
  exact ⟨h1.symm, by omega⟩

/-- A TKIP decrypt that reaches the comparisons carries the header's TID and
TSC, and the TSC is strictly above the stored per-TID counter. -/
lemma tkip_stage_ready_inv {oc : TkipOracles} {bufsize supply : Nat}
    {m0 : IobChain} {k : Ieee80211Key} {ctx : TkipCtx} {tid tsc : Nat}
    {os : List (List Nat)} {pkt : Nat} {cc cr : Nat} {mc mr : List Nat}
    {ctx2 : TkipCtx}
    (h : tkip_dec_stage oc bufsize supply m0 k ctx =
      .ready tid tsc os pkt cc cr mc mr ctx2) :
    tid = (if ieee80211_has_qos (m0.segs.headD [])
           then ieee80211_get_qos (m0.segs.headD []) &&& IEEE80211_QOS_TID else 0) ∧
    tsc = tkipExtractTsc (m0.segs.headD []) (ieee80211_get_hdrlen (m0.segs.headD [])) ∧
    k.k_rsc.getD tid 0 < tsc := by
  simp only [tkip_dec_stage] at h
  repeat' split at h
  all_goals first
    | exact TkipDecStage.noConfusion h
    | (injection h with h1 h2 h3 h4 h5 h6 h7 h8 h9
       subst h1 h2
       refine ⟨?_, rfl, ?_⟩ <;> simp_all)

/-- Any rejecting TKIP decrypt stage returns a context whose receive-cache
flag is the caller's or has been cleared by the Phase1 recomputation. -/
lemma tkip_stage_reject_ctx {oc : TkipOracles} {bufsize supply : Nat}
    {m0 : IobChain} {k : Ieee80211Key} {ctx ctx2 : TkipCtx}
    (h : tkip_dec_stage oc bufsize supply m0 k ctx = .reject ctx2) :
    ctx2.rxttak_ok = ctx.rxttak_ok ∨ ctx2.rxttak_ok = false := by
  simp only [tkip_dec_stage] at h
  repeat' split at h
  all_goals first
    | exact TkipDecStage.noConfusion h
    | (injection h with h1; subst h1; exact Or.inl rfl)
    | (injection h with h1; subst h1; exact Or.inr rfl)

/-- The same for a stage that reaches the comparisons. -/
lemma tkip_stage_ready_ctx {oc : TkipOracles} {bufsize supply : Nat}
    {m0 : IobChain} {k : Ieee80211Key} {ctx : TkipCtx} {tid tsc : Nat}
    {os : List (List Nat)} {pkt : Nat} {cc cr : Nat} {mc mr : List Nat}
    {ctx2 : TkipCtx}
    (h : tkip_dec_stage oc bufsize supply m0 k ctx =
      .ready tid tsc os pkt cc cr mc mr ctx2) :
    ctx2.rxttak_ok = ctx.rxttak_ok ∨ ctx2.rxttak_ok = false := by
  simp only [tkip_dec_stage] at h
  repeat' split at h
  all_goals first
    | exact TkipDecStage.noConfusion h
    | (injection h with h1 h2 h3 h4 h5 h6 h7 h8 h9
       subst h9
       exact Or.inl rfl)
    | (injection h with h1 h2 h3 h4 h5 h6 h7 h8 h9
       subst h9
       exact Or.inr rfl)

/-- Exact context disposition of a rejecting TKIP decrypt stage: either the
Phase1 recomputation cleared the cache flag, or the caller's context is
returned untouched because the stage rejected before the recomputation
(length, ExtIV, replay, or allocator exhaustion) or because no recomputation
was triggered (valid cache and unchanged IV32). -/
lemma tkip_stage_reject_cases {oc : TkipOracles} {bufsize supply : Nat}
    {m0 : IobChain} {k : Ieee80211Key} {ctx ctx2 : TkipCtx}
    (h : tkip_dec_stage oc bufsize supply m0 k ctx = .reject ctx2) :
    ctx2.rxttak_ok = false ∨
    (ctx2 = ctx ∧
      (m0.pktlen < ieee80211_get_hdrlen (m0.segs.headD []) + IEEE80211_TKIP_OVHD ∨
       ivpByte (m0.segs.headD []) (ieee80211_get_hdrlen (m0.segs.headD [])) 3 &&&
         IEEE80211_WEP_EXTIV = 0 ∨
       tkipExtractTsc (m0.segs.headD []) (ieee80211_get_hdrlen (m0.segs.headD [])) ≤
         k.k_rsc.getD (if ieee80211_has_qos (m0.segs.headD [])
           then ieee80211_get_qos (m0.segs.headD []) &&& IEEE80211_QOS_TID else 0) 0 ∨
       supply = 0 ∨
       (ctx.rxttak_ok = true ∧
        tkipExtractTsc (m0.segs.headD [])
            (ieee80211_get_hdrlen (m0.segs.headD [])) >>> 16 =
          k.k_rsc.getD (if ieee80211_has_qos (m0.segs.headD [])
            then ieee80211_get_qos (m0.segs.headD []) &&& IEEE80211_QOS_TID
            else 0) 0 >>> 16))) := by
  simp only [tkip_dec_stage] at h
  repeat' split at h
  all_goals first
    | exact TkipDecStage.noConfusion h
    | (injection h with h1
       subst h1
       exact Or.inl rfl)
    | (injection h with h1
       subst h1
       refine Or.inr ⟨rfl, ?_⟩
       simp_all)

/-- The same for a stage that reaches the comparisons: its context either
has the flag cleared by the recomputation, or is the caller's context
because no recomputation was triggered. -/
lemma tkip_stage_ready_cases {oc : TkipOracles} {bufsize supply : Nat}
    {m0 : IobChain} {k : Ieee80211Key} {ctx : TkipCtx} {tid tsc : Nat}
    {os : List (List Nat)} {pkt : Nat} {cc cr : Nat} {mc mr : List Nat}
    {ctx2 : TkipCtx}
    (h : tkip_dec_stage oc bufsize supply m0 k ctx =
      .ready tid tsc os pkt cc cr mc mr ctx2) :
    ctx2.rxttak_ok = false ∨
    (ctx2 = ctx ∧ ctx.rxttak_ok = true ∧
     tkipExtractTsc (m0.segs.headD [])
         (ieee80211_get_hdrlen (m0.segs.headD [])) >>> 16 =
       k.k_rsc.getD (if ieee80211_has_qos (m0.segs.headD [])
         then ieee80211_get_qos (m0.segs.headD []) &&& IEEE80211_QOS_TID
         else 0) 0 >>> 16) := by
  simp only [tkip_dec_stage] at h
  repeat' split at h
  all_goals first
    | exact TkipDecStage.noConfusion h
    | (injection h with h1 h2 h3 h4 h5 h6 h7 h8 h9
       subst h9
       exact Or.inl rfl)
    | (injection h with h1 h2 h3 h4 h5 h6 h7 h8 h9
       subst h9
       refine Or.inr ⟨rfl, ?_⟩
       simp_all)

/-- Committing the relevant receive counter makes it read back as the
committed packet number (the 16 per-TID slots are a fixed array). -/
lemma ccmpRelevantRsc_commit (k : Ieee80211Key) (hd : List Nat) (pn : Nat)
    (hlen : k.k_rsc.length = 16) :
    ccmpRelevantRsc (ccmpCommitRsc k hd pn) hd = pn := by
  simp only [ccmpRelevantRsc, ccmpCommitRsc]
  split
  next hdata =>
    have htid : (if ieee80211_has_qos hd
        then ieee80211_get_qos hd &&& IEEE80211_QOS_TID else 0) < 16 := by
      split
      · exact lt_of_le_of_lt Nat.and_le_right (by norm_num [IEEE80211_QOS_TID])
      · norm_num
    rw [List.getD_eq_getElem?_getD, List.getElem?_set_eq_of_lt pn
      (show (if ieee80211_has_qos hd then ieee80211_get_qos hd &&& IEEE80211_QOS_TID
             else 0) < k.k_rsc.length from by omega)]
    rfl
  next => rfl


/-! ### The claims. -/

/-- C4: the spec requires every encrypt either to complete or to fail
synchronously while the extension loop makes progress; in the code the loop
that extends the output chain never makes progress (each freshly allocated
segment keeps `io_len = 0` because of the stale zero-length clamp), so a
60-octet data frame that does not fit the 48-octet segment capacity fails
for every allocator supply, for any key and oracle, in both ciphers. -/
theorem C4_encrypt_extension_never_completes (aes : List Nat → List Nat)
    (oc : TkipOracles) (supply : Nat) (k : Ieee80211Key) (ctx : TkipCtx) :
    (ieee80211_ccmp_encrypt aes 48 supply
       ⟨[[8, 64, 0, 0, 1, 1, 1, 1, 1, 1, 2, 2, 2, 2, 2, 2, 3, 3, 3, 3, 3, 3, 0, 0] ++
         List.replicate 36 7], 60⟩ k).1 = none ∧
    (ieee80211_tkip_encrypt oc 48 supply
       ⟨[[8, 64, 0, 0, 1, 1, 1, 1, 1, 1, 2, 2, 2, 2, 2, 2, 3, 3, 3, 3, 3, 3, 0, 0] ++
         List.replicate 36 7], 60⟩ k ctx).1 = none :=
  ⟨ccmp_encrypt_nospace aes 48 supply _ k (by decide) (by decide) (by decide)
     (by decide) (by decide),
   tkip_encrypt_nospace oc 48 supply _ k ctx (by decide) (by decide) (by decide)
     (by decide) (by decide)⟩

/-- C5 counterexample: two Michael MIC failures 10 seconds apart (hz = 100
ticks/s, ticks 1000 then 2000) leave the countermeasures flag clear in
station mode, while the same sequence sets it in HostAP mode — the flag is
not set "in any operating mode" as claimed. -/
theorem C5_counterexample_sta_mode :
    (ieee80211_michael_mic_failure 100 2000 .sta
       (ieee80211_michael_mic_failure 100 1000 .sta ⟨false, 0, 0⟩ 5) 6).counterm =
      false ∧
    (ieee80211_michael_mic_failure 100 2000 .hostap
       (ieee80211_michael_mic_failure 100 1000 .hostap ⟨false, 0, 0⟩ 5) 6).counterm =
      true := by
  decide

/-- C5 (amended): after a MIC-failure report the countermeasures flag is set
iff it was already set, or the interface is in HostAP mode and a previous
failure is recorded less than 60 seconds old. -/
theorem C5_counterm_iff (hz ticks : Int) (opmode : OpMode) (st : IcCmState)
    (tsc : Nat) :
    (ieee80211_michael_mic_failure hz ticks opmode st tsc).counterm = true ↔
      (st.counterm = true ∨
       (opmode = .hostap ∧ st.micfail ≠ 0 ∧ ticks - (st.micfail + 60 * hz) < 0)) := by
  simp only [ieee80211_michael_mic_failure]
  split_ifs with h1 h2
  · simp [h1]
  · constructor
    · exact fun hc => Or.inl hc
    · rintro (hc | ⟨_, hnz, hlt⟩)
      · exact hc
      · omega
  · cases opmode with
    | hostap =>
      constructor
      · intro _
        exact Or.inr ⟨rfl, fun he => h2 (Or.inl he), by omega⟩
      · intro _
        rfl
    | sta =>
      constructor
      · exact fun hc => Or.inl hc
      · rintro (hc | ⟨hcontra, _, _⟩)
        · exact hc
        · exact OpMode.noConfusion hcontra
    | other =>
      constructor
      · exact fun hc => Or.inl hc
      · rintro (hc | ⟨hcontra, _, _⟩)
        · exact hc
        · exact OpMode.noConfusion hcontra

/-- C7: the CCMP AAD is 22 octets for a NODS, non-QoS, no-HTC frame and 30
octets for a DSTODS QoS frame, and the authentication area after `l(a)` is
the AAD zero-padded to 30 octets. -/
theorem C7_ccmp_aad_length_and_padding (hdr : List Nat) (hlen : 32 ≤ hdr.length) :
    (((hdr.getD 1 0) &&& IEEE80211_FC1_DIR_MASK = IEEE80211_FC1_DIR_NODS ∧
        ieee80211_has_qos hdr = false ∧ ieee80211_has_htc hdr = false) →
      (ccmp_aadCore hdr).length = 22) ∧
    (((hdr.getD 1 0) &&& IEEE80211_FC1_DIR_MASK = IEEE80211_FC1_DIR_DSTODS ∧
        ieee80211_has_qos hdr = true) →
      (ccmp_aadCore hdr).length = 30) ∧
    ccmp_auth hdr =
      [((ccmp_aadCore hdr).length >>> 8) % 256, (ccmp_aadCore hdr).length &&& 0xff] ++
        ccmp_aadCore hdr ++ List.replicate (30 - (ccmp_aadCore hdr).length) 0 := by
  refine ⟨?_, ?_, rfl⟩
  · rintro ⟨h1, h2, h3⟩
    have ha4 : ieee80211_has_addr4 hdr = false := by
      rw [ieee80211_has_addr4, h1]
      decide
    simp [ccmp_aadCore, ha4, h2, addr1, addr2, addr3]
    omega
  · rintro ⟨h1, h2⟩
    have ha4 : ieee80211_has_addr4 hdr = true := by
      rw [ieee80211_has_addr4, h1]
      decide
    simp [ccmp_aadCore, ha4, h2, addr1, addr2, addr3, addr4]
    omega

/-- Witness for C7 at a concrete 32-octet all-zero header (a NODS, non-QoS,
no-HTC frame). -/
theorem C7_ccmp_aad_witness :
    (ccmp_aadCore (List.replicate 32 0)).length = 22 :=
  (C7_ccmp_aad_length_and_padding (List.replicate 32 0) (by decide)).1
    ⟨by decide, by decide, by decide⟩

/-- C8: the first three octets of the Phase2 RC4 key are the published WEP
IV structure derived from IV16. -/
theorem C8_phase2_rc4key_structure (TK P1K : List Nat) (IV16 : Nat)
    (h : IV16 < 65536) :
    (Phase2 TK P1K IV16).getD 0 0 = Hi8 IV16 ∧
    (Phase2 TK P1K IV16).getD 2 0 = Lo8 IV16 ∧
    (Phase2 TK P1K IV16).getD 1 0 =
      ((Phase2 TK P1K IV16).getD 0 0 ||| 0x20) &&& 0x7f := by
  have hm : IV16 % 65536 = IV16 := Nat.mod_eq_of_lt h
  simp only [Phase2, List.getD_cons_zero, List.getD_cons_succ, hm]
  exact ⟨trivial, trivial, trivial⟩

/-- Witness for C8 at IV16 = 0xabcd. -/
theorem C8_phase2_witness :
    (Phase2 [] [] 0xabcd).getD 0 0 = Hi8 0xabcd ∧
    (Phase2 [] [] 0xabcd).getD 2 0 = Lo8 0xabcd ∧
    (Phase2 [] [] 0xabcd).getD 1 0 =
      ((Phase2 [] [] 0xabcd).getD 0 0 ||| 0x20) &&& 0x7f :=
  C8_phase2_rc4key_structure [] [] 0xabcd (by decide)

/-- C9: TKIP key install picks the Michael sub-key directions by operating
mode — HostAP transmits with key bytes 16..23 and receives with 24..31,
every other mode the reverse. -/
theorem C9_set_key_michael_directions (k : Ieee80211Key) (g : TkipCtx) (i : Nat)
    (hi : i < 8) :
    (ieee80211_tkip_set_key .hostap k g).txmic.getD i 0 = k.k_key.getD (16 + i) 0 ∧
    (ieee80211_tkip_set_key .hostap k g).rxmic.getD i 0 = k.k_key.getD (24 + i) 0 ∧
    (ieee80211_tkip_set_key .sta k g).rxmic.getD i 0 = k.k_key.getD (16 + i) 0 ∧
    (ieee80211_tkip_set_key .sta k g).txmic.getD i 0 = k.k_key.getD (24 + i) 0 ∧
    (ieee80211_tkip_set_key .other k g).rxmic.getD i 0 = k.k_key.getD (16 + i) 0 ∧
    (ieee80211_tkip_set_key .other k g).txmic.getD i 0 = k.k_key.getD (24 + i) 0 := by
  have hslice : ∀ (l : List Nat) (n : Nat),
      ((l.drop n).take 8).getD i 0 = l.getD (n + i) 0 := by
    intro l n
    simp [List.getD_eq_getElem?_getD, List.getElem?_take, hi, List.getElem?_drop]
  simp only [ieee80211_tkip_set_key]
  refine ⟨?_, ?_, ?_, ?_, ?_, ?_⟩ <;>
    first
      | exact hslice k.k_key 16
      | exact hslice k.k_key 24

/-- Witness for C9 at octet index 0 with the temporal key 0..31. -/
theorem C9_set_key_witness :
    (ieee80211_tkip_set_key .hostap ⟨List.range 32, 0, 0, List.replicate 16 0, 0⟩
        ⟨[], [], [], [], false, false⟩).txmic.getD 0 0 = (List.range 32).getD 16 0 ∧
    (ieee80211_tkip_set_key .hostap ⟨List.range 32, 0, 0, List.replicate 16 0, 0⟩
        ⟨[], [], [], [], false, false⟩).rxmic.getD 0 0 = (List.range 32).getD 24 0 ∧
    (ieee80211_tkip_set_key .sta ⟨List.range 32, 0, 0, List.replicate 16 0, 0⟩
        ⟨[], [], [], [], false, false⟩).rxmic.getD 0 0 = (List.range 32).getD 16 0 ∧
    (ieee80211_tkip_set_key .sta ⟨List.range 32, 0, 0, List.replicate 16 0, 0⟩
        ⟨[], [], [], [], false, false⟩).txmic.getD 0 0 = (List.range 32).getD 24 0 ∧
    (ieee80211_tkip_set_key .other ⟨List.range 32, 0, 0, List.replicate 16 0, 0⟩
        ⟨[], [], [], [], false, false⟩).rxmic.getD 0 0 = (List.range 32).getD 16 0 ∧
    (ieee80211_tkip_set_key .other ⟨List.range 32, 0, 0, List.replicate 16 0, 0⟩
        ⟨[], [], [], [], false, false⟩).txmic.getD 0 0 = (List.range 32).getD 24 0 :=
  C9_set_key_michael_directions ⟨List.range 32, 0, 0, List.replicate 16 0, 0⟩
    ⟨[], [], [], [], false, false⟩ 0 (by decide)


/-- C2: replay discipline of both decrypts.  An accepted receive has the
extracted counter strictly above the stored one and stores exactly that
counter; a rejected receive (any cause, MIC failure included) leaves the key
record untouched — so the counter is written only after MIC verification. -/
theorem C2_replay_counter_discipline (aes : List Nat → List Nat)
    (oc : TkipOracles) (bufsize supply : Nat) (m0 : IobChain)
    (k : Ieee80211Key) (ctx : TkipCtx) (hlen : k.k_rsc.length = 16) :
    ((ieee80211_ccmp_decrypt aes bufsize supply m0 k).1.isSome = true →
      ccmpRelevantRsc k (m0.segs.headD []) <
        ccmpExtractPn (m0.segs.headD []) (ieee80211_get_hdrlen (m0.segs.headD [])) ∧
      ccmpRelevantRsc (ieee80211_ccmp_decrypt aes bufsize supply m0 k).2
          (m0.segs.headD []) =
        ccmpExtractPn (m0.segs.headD []) (ieee80211_get_hdrlen (m0.segs.headD []))) ∧
    ((ieee80211_ccmp_decrypt aes bufsize supply m0 k).1 = none →
      (ieee80211_ccmp_decrypt aes bufsize supply m0 k).2 = k) ∧
    ((ieee80211_tkip_decrypt oc bufsize supply m0 k ctx).1.isSome = true →
      k.k_rsc.getD (if ieee80211_has_qos (m0.segs.headD [])
          then ieee80211_get_qos (m0.segs.headD []) &&& IEEE80211_QOS_TID else 0) 0 <
        tkipExtractTsc (m0.segs.headD []) (ieee80211_get_hdrlen (m0.segs.headD [])) ∧
      (ieee80211_tkip_decrypt oc bufsize supply m0 k ctx).2.1.k_rsc.getD
          (if ieee80211_has_qos (m0.segs.headD [])
           then ieee80211_get_qos (m0.segs.headD []) &&& IEEE80211_QOS_TID else 0) 0 =
        tkipExtractTsc (m0.segs.headD []) (ieee80211_get_hdrlen (m0.segs.headD []))) ∧
    ((ieee80211_tkip_decrypt oc bufsize supply m0 k ctx).1 = none →
      (ieee80211_tkip_decrypt oc bufsize supply m0 k ctx).2.1 = k) := by
  refine ⟨?_, ?_, ?_, ?_⟩
  · intro hs
    rcases hst : ccmp_dec_stage aes bufsize supply m0 k with _ | ⟨pn, os, pkt, mc, mr⟩
    · simp [ieee80211_ccmp_decrypt, hst] at hs
    · by_cases hm : mr ≠ mc
      · simp [ieee80211_ccmp_decrypt, hst, hm] at hs
      · obtain ⟨h1, h2⟩ := ccmp_stage_ready_inv hst
        have hd2 : (ieee80211_ccmp_decrypt aes bufsize supply m0 k).2 =
            ccmpCommitRsc k (m0.segs.headD []) pn := by
          simp [ieee80211_ccmp_decrypt, hst, hm]
        refine ⟨by omega, ?_⟩
        rw [hd2, ccmpRelevantRsc_commit k _ pn hlen]
        exact h1
  · intro hn
    rcases hst : ccmp_dec_stage aes bufsize supply m0 k with _ | ⟨pn, os, pkt, mc, mr⟩
    · simp [ieee80211_ccmp_decrypt, hst]
    · by_cases hm : mr ≠ mc
      · simp [ieee80211_ccmp_decrypt, hst, hm]
      · simp [ieee80211_ccmp_decrypt, hst, hm] at hn
  · intro hs
    rcases hst : tkip_dec_stage oc bufsize supply m0 k ctx with
      ⟨c2⟩ | ⟨tid, tsc, os, pkt, cc, cr, mc, mr, c2⟩
    · simp [ieee80211_tkip_decrypt, hst] at hs
    · by_cases hcrc : cc ≠ cr
      · simp [ieee80211_tkip_decrypt, hst, hcrc] at hs
      · by_cases hmic : mr ≠ mc
        · simp [ieee80211_tkip_decrypt, hst, hcrc, hmic] at hs
        · obtain ⟨h1, h2, h3⟩ := tkip_stage_ready_inv hst
          have htid16 : tid < 16 := by
            rw [h1]
            split
            · exact lt_of_le_of_lt Nat.and_le_right (by norm_num [IEEE80211_QOS_TID])
            · norm_num
          have hd2 : (ieee80211_tkip_decrypt oc bufsize supply m0 k ctx).2.1 =
              { k with k_rsc := (k.k_rsc.set tid tsc) } := by
            simp [ieee80211_tkip_decrypt, hst, hcrc, hmic]
          refine ⟨by rw [← h1, ← h2]; exact h3, ?_⟩
          rw [hd2, ← h1, ← h2]
          dsimp only
          rw [List.getD_eq_getElem?_getD,
            List.getElem?_set_eq_of_lt tsc (by omega)]
          rfl
  · intro hn
    rcases hst : tkip_dec_stage oc bufsize supply m0 k ctx with
      ⟨c2⟩ | ⟨tid, tsc, os, pkt, cc, cr, mc, mr, c2⟩
    · simp [ieee80211_tkip_decrypt, hst]
    · by_cases hcrc : cc ≠ cr
      · simp [ieee80211_tkip_decrypt, hst, hcrc]
      · by_cases hmic : mr ≠ mc
        · simp [ieee80211_tkip_decrypt, hst, hcrc, hmic]
        · simp [ieee80211_tkip_decrypt, hst, hcrc, hmic] at hn

/-- Witness for C2 at a trivially rejected receive (empty chain): both key
records pass through unchanged. -/
theorem C2_replay_witness :
    (ieee80211_ccmp_decrypt (fun b => b) 0 0 ⟨[], 0⟩
        ⟨[], 0, 0, List.replicate 16 0, 0⟩).2 = ⟨[], 0, 0, List.replicate 16 0, 0⟩ ∧
    (ieee80211_tkip_decrypt ⟨fun _ _ => 0, fun c _ => c, fun _ _ => 0⟩ 0 0 ⟨[], 0⟩
        ⟨[], 0, 0, List.replicate 16 0, 0⟩ ⟨[], [], [], [], false, false⟩).2.1 =
      ⟨[], 0, 0, List.replicate 16 0, 0⟩ :=
  ⟨(C2_replay_counter_discipline (fun b => b)
      ⟨fun _ _ => 0, fun c _ => c, fun _ _ => 0⟩ 0 0 ⟨[], 0⟩
      ⟨[], 0, 0, List.replicate 16 0, 0⟩ ⟨[], [], [], [], false, false⟩
      (by decide)).2.1 (by decide),
   (C2_replay_counter_discipline (fun b => b)
      ⟨fun _ _ => 0, fun c _ => c, fun _ _ => 0⟩ 0 0 ⟨[], 0⟩
      ⟨[], 0, 0, List.replicate 16 0, 0⟩ ⟨[], [], [], [], false, false⟩
      (by decide)).2.2.2 (by decide)⟩

/-- C6: once a TKIP decrypt reaches the trailer comparisons, an ICV mismatch
drops the frame with no MIC-failure event, while a correct ICV with a
Michael mismatch drops the frame and reports the received TSC (the value
read from the frame's TKIP header) to the failure handler. -/
theorem C6_tkip_icv_and_mic_failures (oc : TkipOracles) (bufsize supply : Nat)
    (m0 : IobChain) (k : Ieee80211Key) (ctx : TkipCtx) (tid tsc : Nat)
    (outSegs : List (List Nat)) (pkt : Nat) (crcCalc crcRecv : Nat)
    (micCalc micRecv : List Nat) (ctx2 : TkipCtx)
    (hst : tkip_dec_stage oc bufsize supply m0 k ctx =
      .ready tid tsc outSegs pkt crcCalc crcRecv micCalc micRecv ctx2) :
    (crcCalc ≠ crcRecv →
      ieee80211_tkip_decrypt oc bufsize supply m0 k ctx = (none, k, ctx2, none)) ∧
    (crcCalc = crcRecv → micRecv ≠ micCalc →
      ieee80211_tkip_decrypt oc bufsize supply m0 k ctx = (none, k, ctx2, some tsc)) ∧
    tsc = tkipExtractTsc (m0.segs.headD []) (ieee80211_get_hdrlen (m0.segs.headD [])) := by
  refine ⟨?_, ?_, (tkip_stage_ready_inv hst).2.1⟩
  · intro hcrc
    simp [ieee80211_tkip_decrypt, hst, hcrc]
  · intro hcrc hmic
    simp [ieee80211_tkip_decrypt, hst, hcrc, hmic]

/-- Witness for C6 at a concrete 44-octet frame whose trailer carries a
mismatched Michael MIC but a correct ICV. -/
theorem C6_tkip_witness :
    ieee80211_tkip_decrypt ⟨fun _ _ => 0, fun c _ => c, fun _ _ => 0⟩ 100 2
        ⟨[[8, 64, 0, 0, 1, 1, 1, 1, 1, 1, 2, 2, 2, 2, 2, 2, 3, 3, 3, 3, 3, 3, 0, 0] ++
          [0, 32, 1, 32, 0, 0, 0, 0] ++ [5, 0, 0, 0, 0, 0, 0, 0] ++ [0, 0, 0, 0]], 44⟩
        ⟨List.range 32, 0, 7, List.replicate 16 0, 0⟩ ⟨[], [], [], [], false, false⟩ =
      (none, ⟨List.range 32, 0, 7, List.replicate 16 0, 0⟩,
       ⟨[], [], [], Phase1 (List.range 32) [2, 2, 2, 2, 2, 2] 0, false, false⟩,
       some 1) :=
  (C6_tkip_icv_and_mic_failures ⟨fun _ _ => 0, fun c _ => c, fun _ _ => 0⟩ 100 2
      ⟨[[8, 64, 0, 0, 1, 1, 1, 1, 1, 1, 2, 2, 2, 2, 2, 2, 3, 3, 3, 3, 3, 3, 0, 0] ++
        [0, 32, 1, 32, 0, 0, 0, 0] ++ [5, 0, 0, 0, 0, 0, 0, 0] ++ [0, 0, 0, 0]], 44⟩
      ⟨List.range 32, 0, 7, List.replicate 16 0, 0⟩ ⟨[], [], [], [], false, false⟩
      0 1 [[8, 0, 0, 0, 1, 1, 1, 1, 1, 1, 2, 2, 2, 2, 2, 2, 3, 3, 3, 3, 3, 3, 0, 0]]
      24 0 0 [0, 0, 0, 0, 0, 0, 0, 0] [5, 0, 0, 0, 0, 0, 0, 0]
      ⟨[], [], [], Phase1 (List.range 32) [2, 2, 2, 2, 2, 2] 0, false, false⟩
      (by decide)).2.1 rfl (by decide)

/-- C10: the receive-side Phase1 cache flag is raised only by a fully
successful decrypt, whatever the caller's cache state; a decrypt that
passes the early checks and so recomputes Phase1 (invalid cache, or valid
cache with a changed IV32) and then fails returns the flag cleared, so the
next decrypt recomputes Phase1; and for an invalid caller cache the flag
ends true iff the decrypt succeeded. -/
theorem C10_rxttak_ok_lifecycle (oc : TkipOracles) (bufsize supply : Nat)
    (m0 : IobChain) (k : Ieee80211Key) (ctx : TkipCtx) :
    ((ieee80211_tkip_decrypt oc bufsize supply m0 k ctx).1.isSome = true →
      (ieee80211_tkip_decrypt oc bufsize supply m0 k ctx).2.2.1.rxttak_ok = true) ∧
    ((ieee80211_tkip_decrypt oc bufsize supply m0 k ctx).1 = none →
      (ieee80211_tkip_decrypt oc bufsize supply m0 k ctx).2.2.1.rxttak_ok = true →
      ctx.rxttak_ok = true) ∧
    ((ieee80211_tkip_decrypt oc bufsize supply m0 k ctx).1 = none →
      ¬(m0.pktlen < ieee80211_get_hdrlen (m0.segs.headD []) + IEEE80211_TKIP_OVHD) →
      ¬(ivpByte (m0.segs.headD []) (ieee80211_get_hdrlen (m0.segs.headD [])) 3 &&&
          IEEE80211_WEP_EXTIV = 0) →
      k.k_rsc.getD (if ieee80211_has_qos (m0.segs.headD [])
          then ieee80211_get_qos (m0.segs.headD []) &&& IEEE80211_QOS_TID else 0) 0 <
        tkipExtractTsc (m0.segs.headD []) (ieee80211_get_hdrlen (m0.segs.headD [])) →
      supply ≠ 0 →
      (ctx.rxttak_ok = false ∨
        tkipExtractTsc (m0.segs.headD [])
            (ieee80211_get_hdrlen (m0.segs.headD [])) >>> 16 ≠
          k.k_rsc.getD (if ieee80211_has_qos (m0.segs.headD [])
            then ieee80211_get_qos (m0.segs.headD []) &&& IEEE80211_QOS_TID
            else 0) 0 >>> 16) →
      (ieee80211_tkip_decrypt oc bufsize supply m0 k ctx).2.2.1.rxttak_ok = false) ∧
    (ctx.rxttak_ok = false →
      ((ieee80211_tkip_decrypt oc bufsize supply m0 k ctx).2.2.1.rxttak_ok = true ↔
        (ieee80211_tkip_decrypt oc bufsize supply m0 k ctx).1.isSome = true)) := by
  refine ⟨?_, ?_, ?_, ?_⟩
  · intro hs
    rcases hst : tkip_dec_stage oc bufsize supply m0 k ctx with
      ⟨c2⟩ | ⟨tid, tsc, os, pkt, cc, cr, mc, mr, c2⟩
    · simp [ieee80211_tkip_decrypt, hst] at hs
    · by_cases hcrc : cc ≠ cr
      · simp [ieee80211_tkip_decrypt, hst, hcrc] at hs
      · by_cases hmic : mr ≠ mc
        · simp [ieee80211_tkip_decrypt, hst, hcrc, hmic] at hs
        · simp [ieee80211_tkip_decrypt, hst, hcrc, hmic]
  · intro hn hpost
    rcases hst : tkip_dec_stage oc bufsize supply m0 k ctx with
      ⟨c2⟩ | ⟨tid, tsc, os, pkt, cc, cr, mc, mr, c2⟩
    · simp only [ieee80211_tkip_decrypt, hst] at hpost
      rcases tkip_stage_reject_ctx hst with hc | hc
      · rw [← hc]
        exact hpost
      · rw [hc] at hpost
        exact absurd hpost (by simp)
    · by_cases hcrc : cc ≠ cr
      · simp only [ieee80211_tkip_decrypt, hst, if_pos hcrc] at hpost
        rcases tkip_stage_ready_ctx hst with hc | hc
        · rw [← hc]
          exact hpost
        · rw [hc] at hpost
          exact absurd hpost (by simp)
      · by_cases hmic : mr ≠ mc
        · simp only [ieee80211_tkip_decrypt, hst, if_neg hcrc, if_pos hmic] at hpost
          rcases tkip_stage_ready_ctx hst with hc | hc
          · rw [← hc]
            exact hpost
          · rw [hc] at hpost
            exact absurd hpost (by simp)
        · simp [ieee80211_tkip_decrypt, hst, hcrc, hmic] at hn
  · intro hn h1 h2 h3 h4 h5
    rcases hst : tkip_dec_stage oc bufsize supply m0 k ctx with
      ⟨c2⟩ | ⟨tid, tsc, os, pkt, cc, cr, mc, mr, c2⟩
    · simp only [ieee80211_tkip_decrypt, hst]
      rcases tkip_stage_reject_cases hst with hc | ⟨hceq, hcond⟩
      · exact hc
      · rcases hcond with hcond | hcond | hcond | hcond | ⟨hok, hiv⟩
        · exact absurd hcond h1
        · exact absurd hcond h2
        · omega
        · exact absurd hcond h4
        · rcases h5 with h5 | h5
          · rw [h5] at hok
            exact absurd hok (by simp)
          · exact absurd hiv h5
    · by_cases hcrc : cc ≠ cr
      · simp only [ieee80211_tkip_decrypt, hst, if_pos hcrc]
        rcases tkip_stage_ready_cases hst with hc | ⟨hceq, hok, hiv⟩
        · exact hc
        · rcases h5 with h5 | h5
          · rw [h5] at hok
            exact absurd hok (by simp)
          · exact absurd hiv h5
      · by_cases hmic : mr ≠ mc
        · simp only [ieee80211_tkip_decrypt, hst, if_neg hcrc, if_pos hmic]
          rcases tkip_stage_ready_cases hst with hc | ⟨hceq, hok, hiv⟩
          · exact hc
          · rcases h5 with h5 | h5
            · rw [h5] at hok
              exact absurd hok (by simp)
            · exact absurd hiv h5
        · simp [ieee80211_tkip_decrypt, hst, hcrc, hmic] at hn
  · intro hctx
    rcases hst : tkip_dec_stage oc bufsize supply m0 k ctx with
      ⟨c2⟩ | ⟨tid, tsc, os, pkt, cc, cr, mc, mr, c2⟩
    · have hc := tkip_stage_reject_ctx hst
      simp only [ieee80211_tkip_decrypt, hst]
      rcases hc with hc | hc <;> simp [hc, hctx]
    · have hc := tkip_stage_ready_ctx hst
      by_cases hcrc : cc ≠ cr
      · simp only [ieee80211_tkip_decrypt, hst, if_pos hcrc]
        rcases hc with hc | hc <;> simp [hc, hctx]
      · by_cases hmic : mr ≠ mc
        · simp only [ieee80211_tkip_decrypt, hst, if_neg hcrc, if_pos hmic]
          rcases hc with hc | hc <;> simp [hc, hctx]
        · simp [ieee80211_tkip_decrypt, hst, hcrc, hmic]

/-- Witness for C10: a valid caller cache (rxttak_ok true) is cleared by the
IV32-change recomputation on a decrypt that then fails the Michael
comparison (frame TSC 0x10000, stored counter 0); and at a trivially
rejected receive with an invalid cache the flag ends true iff the decrypt
succeeded. -/
theorem C10_rxttak_witness :
    (ieee80211_tkip_decrypt ⟨fun _ _ => 0, fun c _ => c, fun _ _ => 0⟩ 100 2
        ⟨[[8, 64, 0, 0, 1, 1, 1, 1, 1, 1, 2, 2, 2, 2, 2, 2, 3, 3, 3, 3, 3, 3, 0, 0] ++
          [0, 32, 0, 32, 1, 0, 0, 0] ++ [5, 0, 0, 0, 0, 0, 0, 0] ++ [0, 0, 0, 0]], 44⟩
        ⟨List.range 32, 0, 7, List.replicate 16 0, 0⟩
        ⟨[], [], [], [7, 7, 7, 7, 7], true, true⟩).2.2.1.rxttak_ok = false ∧
    ((ieee80211_tkip_decrypt ⟨fun _ _ => 0, fun c _ => c, fun _ _ => 0⟩ 0 0 ⟨[], 0⟩
        ⟨[], 0, 0, List.replicate 16 0, 0⟩
        ⟨[], [], [], [], false, false⟩).2.2.1.rxttak_ok = true ↔
      (ieee80211_tkip_decrypt ⟨fun _ _ => 0, fun c _ => c, fun _ _ => 0⟩ 0 0 ⟨[], 0⟩
        ⟨[], 0, 0, List.replicate 16 0, 0⟩
        ⟨[], [], [], [], false, false⟩).1.isSome = true) :=
  ⟨(C10_rxttak_ok_lifecycle ⟨fun _ _ => 0, fun c _ => c, fun _ _ => 0⟩ 100 2
      ⟨[[8, 64, 0, 0, 1, 1, 1, 1, 1, 1, 2, 2, 2, 2, 2, 2, 3, 3, 3, 3, 3, 3, 0, 0] ++
        [0, 32, 0, 32, 1, 0, 0, 0] ++ [5, 0, 0, 0, 0, 0, 0, 0] ++ [0, 0, 0, 0]], 44⟩
      ⟨List.range 32, 0, 7, List.replicate 16 0, 0⟩
      ⟨[], [], [], [7, 7, 7, 7, 7], true, true⟩).2.2.1 (by decide) (by decide)
      (by decide) (by decide) (by decide) (by decide),
   (C10_rxttak_ok_lifecycle ⟨fun _ _ => 0, fun c _ => c, fun _ _ => 0⟩ 0 0 ⟨[], 0⟩
      ⟨[], 0, 0, List.replicate 16 0, 0⟩ ⟨[], [], [], [], false, false⟩).2.2.2 rfl⟩

/-- C3 counterexample: with segment capacity 48, a 60-octet frame's encrypt
fails (the extension loop cannot make progress) yet still consumes a counter
value, so the two surrounding successful transmits of a 28-octet frame carry
TSC 1 and TSC 3 — consecutive successful transmits differing by two. -/
theorem C3_tsc_gap_counterexample :
    (ieee80211_ccmp_encrypt (fun b => b) 48 4
       ⟨[[8, 64, 0, 0, 1, 1, 1, 1, 1, 1, 2, 2, 2, 2, 2, 2, 3, 3, 3, 3, 3, 3, 0, 0,
          9, 8, 7, 6]], 28⟩
       ⟨List.range 32, 0, 0, List.replicate 16 0, 0⟩).1.isSome = true ∧
    (ieee80211_ccmp_encrypt (fun b => b) 48 4
       ⟨[[8, 64, 0, 0, 1, 1, 1, 1, 1, 1, 2, 2, 2, 2, 2, 2, 3, 3, 3, 3, 3, 3, 0, 0,
          9, 8, 7, 6]], 28⟩
       ⟨List.range 32, 0, 0, List.replicate 16 0, 0⟩).2.k_tsc = 1 ∧
    (ieee80211_ccmp_encrypt (fun b => b) 48 4
       ⟨[[8, 64, 0, 0, 1, 1, 1, 1, 1, 1, 2, 2, 2, 2, 2, 2, 3, 3, 3, 3, 3, 3, 0, 0] ++
         List.replicate 36 7], 60⟩
       ⟨List.range 32, 0, 1, List.replicate 16 0, 0⟩).1 = none ∧
    (ieee80211_ccmp_encrypt (fun b => b) 48 4
       ⟨[[8, 64, 0, 0, 1, 1, 1, 1, 1, 1, 2, 2, 2, 2, 2, 2, 3, 3, 3, 3, 3, 3, 0, 0] ++
         List.replicate 36 7], 60⟩
       ⟨List.range 32, 0, 1, List.replicate 16 0, 0⟩).2.k_tsc = 2 ∧
    (ieee80211_ccmp_encrypt (fun b => b) 48 4
       ⟨[[8, 64, 0, 0, 1, 1, 1, 1, 1, 1, 2, 2, 2, 2, 2, 2, 3, 3, 3, 3, 3, 3, 0, 0,
          9, 8, 7, 6]], 28⟩
       ⟨List.range 32, 0, 2, List.replicate 16 0, 0⟩).1.isSome = true ∧
    (ieee80211_ccmp_encrypt (fun b => b) 48 4
       ⟨[[8, 64, 0, 0, 1, 1, 1, 1, 1, 1, 2, 2, 2, 2, 2, 2, 3, 3, 3, 3, 3, 3, 0, 0,
          9, 8, 7, 6]], 28⟩
       ⟨List.range 32, 0, 2, List.replicate 16 0, 0⟩).2.k_tsc = 3 := by
  decide

/-- C3 (amended): every encrypt call that returns a frame advanced the
transmit counter by exactly one (mod 2^64) over the key state at that call;
a failed call that got past the first allocation advances it too, so the
counters of consecutive successful transmits may differ by more than one. -/
theorem C3_tsc_increment_on_success (aes : List Nat → List Nat)
    (oc : TkipOracles) (bufsize supply : Nat) (F : IobChain)
    (k : Ieee80211Key) (ctx : TkipCtx) :
    ((ieee80211_ccmp_encrypt aes bufsize supply F k).1.isSome = true →
      (ieee80211_ccmp_encrypt aes bufsize supply F k).2.k_tsc =
        (k.k_tsc + 1) % 2 ^ 64) ∧
    ((ieee80211_tkip_encrypt oc bufsize supply F k ctx).1.isSome = true →
      (ieee80211_tkip_encrypt oc bufsize supply F k ctx).2.1.k_tsc =
        (k.k_tsc + 1) % 2 ^ 64) := by
  constructor
  · intro hs
    cases supply with
    | zero => simp [ieee80211_ccmp_encrypt] at hs
    | succ s =>
      simp only [ieee80211_ccmp_encrypt]
      repeat' split
      all_goals rfl
  · intro hs
    cases supply with
    | zero => simp [ieee80211_tkip_encrypt] at hs
    | succ s =>
      simp only [ieee80211_tkip_encrypt]
      repeat' split
      all_goals rfl

/-- Witness for C3 at the 28-octet frame: the successful transmit moves the
counter from 0 to 1. -/
theorem C3_tsc_increment_witness :
    (ieee80211_ccmp_encrypt (fun b => b) 100 4
       ⟨[[8, 64, 0, 0, 1, 1, 1, 1, 1, 1, 2, 2, 2, 2, 2, 2, 3, 3, 3, 3, 3, 3, 0, 0,
          9, 8, 7, 6]], 28⟩
       ⟨List.range 32, 0, 0, List.replicate 16 0, 0⟩).2.k_tsc = 1 ∧
    (ieee80211_tkip_encrypt ⟨fun _ _ => 0, fun c _ => c, michaelMAC⟩ 100 4
       ⟨[[8, 64, 0, 0, 1, 1, 1, 1, 1, 1, 2, 2, 2, 2, 2, 2, 3, 3, 3, 3, 3, 3, 0, 0,
          9, 8, 7, 6]], 28⟩
       ⟨List.range 32, 0, 0, List.replicate 16 0, 0⟩
       ⟨[1, 2, 3, 4, 5, 6, 7, 8], [9, 10, 11, 12, 13, 14, 15, 16], [], [],
        false, false⟩).2.1.k_tsc = 1 :=
  ⟨(C3_tsc_increment_on_success (fun b => b)
      ⟨fun _ _ => 0, fun c _ => c, michaelMAC⟩ 100 4
      ⟨[[8, 64, 0, 0, 1, 1, 1, 1, 1, 1, 2, 2, 2, 2, 2, 2, 3, 3, 3, 3, 3, 3, 0, 0,
         9, 8, 7, 6]], 28⟩
      ⟨List.range 32, 0, 0, List.replicate 16 0, 0⟩
      ⟨[1, 2, 3, 4, 5, 6, 7, 8], [9, 10, 11, 12, 13, 14, 15, 16], [], [],
       false, false⟩).1 (by decide),
   (C3_tsc_increment_on_success (fun b => b)
      ⟨fun _ _ => 0, fun c _ => c, michaelMAC⟩ 100 4
      ⟨[[8, 64, 0, 0, 1, 1, 1, 1, 1, 1, 2, 2, 2, 2, 2, 2, 3, 3, 3, 3, 3, 3, 0, 0,
         9, 8, 7, 6]], 28⟩
      ⟨List.range 32, 0, 0, List.replicate 16 0, 0⟩
      ⟨[1, 2, 3, 4, 5, 6, 7, 8], [9, 10, 11, 12, 13, 14, 15, 16], [], [],
       false, false⟩).2 (by decide)⟩


/-- C1 counterexample: with the same key record and the same TKIP context on
both sides (as installed by `ieee80211_tkip_set_key` in station mode), the
transmit Michael sub-key (key bytes 24..31) differs from the receive sub-key
(bytes 16..23), so decrypting the just-encrypted 28-octet frame fails the
Michael comparison and drops the frame, reporting TSC 1 to the failure
handler — `decrypt(K, encrypt(K, F))` is not `F`. -/
theorem C1_tkip_same_context_counterexample :
    (ieee80211_tkip_encrypt ⟨fun _ _ => 0, fun c _ => c, fun key _ => key.headD 0⟩
       100 4
       ⟨[[8, 64, 0, 0, 1, 1, 1, 1, 1, 1, 2, 2, 2, 2, 2, 2, 3, 3, 3, 3, 3, 3, 0, 0,
          9, 8, 7, 6]], 28⟩
       ⟨List.range 32, 0, 0, List.replicate 16 0, 0⟩
       (ieee80211_tkip_set_key .sta ⟨List.range 32, 0, 0, List.replicate 16 0, 0⟩
         ⟨[], [], [], [], false, false⟩)).1.isSome = true ∧
    (ieee80211_tkip_decrypt ⟨fun _ _ => 0, fun c _ => c, fun key _ => key.headD 0⟩
       100 4
       ((ieee80211_tkip_encrypt ⟨fun _ _ => 0, fun c _ => c, fun key _ => key.headD 0⟩
          100 4
          ⟨[[8, 64, 0, 0, 1, 1, 1, 1, 1, 1, 2, 2, 2, 2, 2, 2, 3, 3, 3, 3, 3, 3, 0, 0,
             9, 8, 7, 6]], 28⟩
          ⟨List.range 32, 0, 0, List.replicate 16 0, 0⟩
          (ieee80211_tkip_set_key .sta ⟨List.range 32, 0, 0, List.replicate 16 0, 0⟩
            ⟨[], [], [], [], false, false⟩)).1.getD ⟨[], 0⟩)
       (ieee80211_tkip_encrypt ⟨fun _ _ => 0, fun c _ => c, fun key _ => key.headD 0⟩
          100 4
          ⟨[[8, 64, 0, 0, 1, 1, 1, 1, 1, 1, 2, 2, 2, 2, 2, 2, 3, 3, 3, 3, 3, 3, 0, 0,
             9, 8, 7, 6]], 28⟩
          ⟨List.range 32, 0, 0, List.replicate 16 0, 0⟩
          (ieee80211_tkip_set_key .sta ⟨List.range 32, 0, 0, List.replicate 16 0, 0⟩
            ⟨[], [], [], [], false, false⟩)).2.1
       (ieee80211_tkip_encrypt ⟨fun _ _ => 0, fun c _ => c, fun key _ => key.headD 0⟩
          100 4
          ⟨[[8, 64, 0, 0, 1, 1, 1, 1, 1, 1, 2, 2, 2, 2, 2, 2, 3, 3, 3, 3, 3, 3, 0, 0,
             9, 8, 7, 6]], 28⟩
          ⟨List.range 32, 0, 0, List.replicate 16 0, 0⟩
          (ieee80211_tkip_set_key .sta ⟨List.range 32, 0, 0, List.replicate 16 0, 0⟩
            ⟨[], [], [], [], false, false⟩)).2.2).1 = none ∧
    (ieee80211_tkip_decrypt ⟨fun _ _ => 0, fun c _ => c, fun key _ => key.headD 0⟩
       100 4
       ((ieee80211_tkip_encrypt ⟨fun _ _ => 0, fun c _ => c, fun key _ => key.headD 0⟩
          100 4
          ⟨[[8, 64, 0, 0, 1, 1, 1, 1, 1, 1, 2, 2, 2, 2, 2, 2, 3, 3, 3, 3, 3, 3, 0, 0,
             9, 8, 7, 6]], 28⟩
          ⟨List.range 32, 0, 0, List.replicate 16 0, 0⟩
          (ieee80211_tkip_set_key .sta ⟨List.range 32, 0, 0, List.replicate 16 0, 0⟩
            ⟨[], [], [], [], false, false⟩)).1.getD ⟨[], 0⟩)
       (ieee80211_tkip_encrypt ⟨fun _ _ => 0, fun c _ => c, fun key _ => key.headD 0⟩
          100 4
          ⟨[[8, 64, 0, 0, 1, 1, 1, 1, 1, 1, 2, 2, 2, 2, 2, 2, 3, 3, 3, 3, 3, 3, 0, 0,
             9, 8, 7, 6]], 28⟩
          ⟨List.range 32, 0, 0, List.replicate 16 0, 0⟩
          (ieee80211_tkip_set_key .sta ⟨List.range 32, 0, 0, List.replicate 16 0, 0⟩
            ⟨[], [], [], [], false, false⟩)).2.1
       (ieee80211_tkip_encrypt ⟨fun _ _ => 0, fun c _ => c, fun key _ => key.headD 0⟩
          100 4
          ⟨[[8, 64, 0, 0, 1, 1, 1, 1, 1, 1, 2, 2, 2, 2, 2, 2, 3, 3, 3, 3, 3, 3, 0, 0,
             9, 8, 7, 6]], 28⟩
          ⟨List.range 32, 0, 0, List.replicate 16 0, 0⟩
          (ieee80211_tkip_set_key .sta ⟨List.range 32, 0, 0, List.replicate 16 0, 0⟩
            ⟨[], [], [], [], false, false⟩)).2.2).2.2.2 = some 1 := by
  decide

/-- C1 (amended): decrypt of encrypt returns the frame with the protected
bit cleared — for CCMP under the same key record, and for TKIP provided the
decryptor's receive Michael sub-key equals the encryptor's transmit sub-key
(which the source's `set_key` gives to the two ends of a link, not to one
context used for both directions). -/
theorem C1_roundtrip_amended (aes : List Nat → List Nat) (oc : TkipOracles)
    (bufsize sE sD : Nat) (F : IobChain) (k : Ieee80211Key) (ctxE ctxD : TkipCtx)
    (hl : ieee80211_get_hdrlen (F.segs.headD []) ≤ (F.segs.headD []).length)
    (hsum : F.segs.flatten.length = F.pktlen)
    (hfit : F.pktlen + 8 ≤ bufsize)
    (hsE : 2 ≤ sE) (hsD : 1 ≤ sD)
    (hkid : k.k_id < 4)
    (htsc : k.k_tsc + 1 < 2 ^ 48)
    (hrscC : ccmpRelevantRsc k (F.segs.headD []) < k.k_tsc + 1)
    (hrscT : k.k_rsc.getD
      (if ieee80211_has_qos (F.segs.headD [])
       then ieee80211_get_qos (F.segs.headD []) &&& IEEE80211_QOS_TID else 0) 0 <
      k.k_tsc + 1)
    (hctxe : ctxE.txttak_ok = false) (hctxd : ctxD.rxttak_ok = false)
    (hmick : ctxD.rxmic = ctxE.txmic) :
    (∃ out,
      ieee80211_ccmp_encrypt aes bufsize sE F k =
        (some out, { k with k_tsc := k.k_tsc + 1 }) ∧
      ieee80211_ccmp_decrypt aes bufsize sD out { k with k_tsc := k.k_tsc + 1 } =
        (some ⟨[((F.segs.headD []).take (ieee80211_get_hdrlen (F.segs.headD []))).set 1
                  (((F.segs.headD []).getD 1 0) &&& 0xbf) ++
                flatFrom F.segs (ieee80211_get_hdrlen (F.segs.headD []))],
               F.pktlen⟩,
         ccmpCommitRsc { k with k_tsc := k.k_tsc + 1 } (F.segs.headD [])
           (k.k_tsc + 1))) ∧
    (∃ out ctxE2,
      ieee80211_tkip_encrypt oc bufsize sE F k ctxE =
        (some out, { k with k_tsc := k.k_tsc + 1 }, ctxE2) ∧
      ieee80211_tkip_decrypt oc bufsize sD out { k with k_tsc := k.k_tsc + 1 } ctxD =
        (some ⟨[((F.segs.headD []).take (ieee80211_get_hdrlen (F.segs.headD []))).set 1
                  (((F.segs.headD []).getD 1 0) &&& 0xbf) ++
                flatFrom F.segs (ieee80211_get_hdrlen (F.segs.headD []))],
               F.pktlen⟩,
         { k with k_tsc := k.k_tsc + 1,
                  k_rsc := (k.k_rsc.set
                    (if ieee80211_has_qos (F.segs.headD [])
                     then ieee80211_get_qos (F.segs.headD []) &&& IEEE80211_QOS_TID
                     else 0) (k.k_tsc + 1)) },
         { ctxD with rxttak := Phase1 k.k_key (addr2 (F.segs.headD []))
                       ((k.k_tsc + 1) >>> 16),
                     rxttak_ok := true },
         none)) :=
  ⟨ccmp_roundtrip aes bufsize sE sD F k hl hsum hfit hsE hsD hkid htsc hrscC,
   tkip_roundtrip oc bufsize sE sD F k ctxE ctxD hl hsum hfit hsE hsD hkid htsc
     hrscT hctxe hctxd hmick⟩


/-- Witness for C1 at a concrete 28-octet data frame, key id 0, temporal key
0..31 and matched Michael sub-keys. -/
theorem C1_roundtrip_witness :
    (∃ out,
      ieee80211_ccmp_encrypt (fun b => b) 100 4
          ⟨[[8, 64, 0, 0, 1, 1, 1, 1, 1, 1, 2, 2, 2, 2, 2, 2, 3, 3, 3, 3, 3, 3, 0, 0,
             9, 8, 7, 6]], 28⟩
          ⟨List.range 32, 0, 0, List.replicate 16 0, 0⟩ =
        (some out, ⟨List.range 32, 0, 1, List.replicate 16 0, 0⟩) ∧
      ieee80211_ccmp_decrypt (fun b => b) 100 4 out
          ⟨List.range 32, 0, 1, List.replicate 16 0, 0⟩ =
        (some ⟨[[8, 0, 0, 0, 1, 1, 1, 1, 1, 1, 2, 2, 2, 2, 2, 2, 3, 3, 3, 3, 3, 3, 0, 0,
                 9, 8, 7, 6]], 28⟩,
         ⟨List.range 32, 0, 1, (List.replicate 16 0).set 0 1, 0⟩)) ∧
    (∃ out ctxE2,
      ieee80211_tkip_encrypt ⟨fun _ _ => 0, fun c _ => c, michaelMAC⟩ 100 4
          ⟨[[8, 64, 0, 0, 1, 1, 1, 1, 1, 1, 2, 2, 2, 2, 2, 2, 3, 3, 3, 3, 3, 3, 0, 0,
             9, 8, 7, 6]], 28⟩
          ⟨List.range 32, 0, 0, List.replicate 16 0, 0⟩
          ⟨[1, 2, 3, 4, 5, 6, 7, 8], [9, 10, 11, 12, 13, 14, 15, 16], [], [],
           false, false⟩ =
        (some out, ⟨List.range 32, 0, 1, List.replicate 16 0, 0⟩, ctxE2) ∧
      ieee80211_tkip_decrypt ⟨fun _ _ => 0, fun c _ => c, michaelMAC⟩ 100 4 out
          ⟨List.range 32, 0, 1, List.replicate 16 0, 0⟩
          ⟨[0], [1, 2, 3, 4, 5, 6, 7, 8], [], [], false, false⟩ =
        (some ⟨[[8, 0, 0, 0, 1, 1, 1, 1, 1, 1, 2, 2, 2, 2, 2, 2, 3, 3, 3, 3, 3, 3, 0, 0,
                 9, 8, 7, 6]], 28⟩,
         ⟨List.range 32, 0, 1, (List.replicate 16 0).set 0 1, 0⟩,
         ⟨[0], [1, 2, 3, 4, 5, 6, 7, 8], [],
          Phase1 (List.range 32) [2, 2, 2, 2, 2, 2] 0, false, true⟩,
         none)) :=
  C1_roundtrip_amended (fun b => b) ⟨fun _ _ => 0, fun c _ => c, michaelMAC⟩ 100 4 4
    ⟨[[8, 64, 0, 0, 1, 1, 1, 1, 1, 1, 2, 2, 2, 2, 2, 2, 3, 3, 3, 3, 3, 3, 0, 0,
       9, 8, 7, 6]], 28⟩
    ⟨List.range 32, 0, 0, List.replicate 16 0, 0⟩
    ⟨[1, 2, 3, 4, 5, 6, 7, 8], [9, 10, 11, 12, 13, 14, 15, 16], [], [], false, false⟩
    ⟨[0], [1, 2, 3, 4, 5, 6, 7, 8], [], [], false, false⟩
    (by decide) (by decide) (by decide) (by decide) (by decide) (by decide)
    (by decide) (by decide) (by decide) (by decide) (by decide) (by decide)

end Ieee80211
